import Mathlib

/-!
# Voice streaming: capture/encode/send and receive/decode/mix

A shallow embedding of `MicReadThread::doRun` (src/audio/MicReadThread.cpp), in its RtAudio
build (`doRun`) and its WASAPI build (`doRunWin`), of `ClientUDPHandlerThread::doRun`
(src/gui_client/ClientUDPHandlerThread.cpp) and of `LoadItemQueue`
(src/gui_client/LoadItemQueue.cpp).

Conventions of the embedding:
* a byte is a `Nat` below 256, a byte buffer (`std::vector<uint8>`) a `List Nat`;
* `uint32` values are `Nat` with an explicit `% 2 ^ 32` where the code can wrap;
* `float` samples are rationals (exact arithmetic; NaN and infinities are outside the model);
* the Opus encoder/decoder and the resampler are external: they are parameters of the model;
* a loop that the source writes as `while(1)` takes a fuel argument.
-/

set_option maxRecDepth 8000

namespace Metaverse

/-! ## Bytes, `std::memcpy`, `std::vector::resize` -/

/-- The object representation of a `uint32` on a little-endian host: the four bytes that
`std::memcpy(dst, &v, sizeof(uint32))` copies, lowest byte first. -/
def u32Bytes (v : Nat) : List Nat :=
  [v % 256, v / 256 % 256, v / 65536 % 256, v / 16777216 % 256]

/-- The call `std::memcpy(dst.data() + off, src, src.size())` on a buffer `dst` that holds at least
`off + src.size()` bytes: the bytes at `[off, off + src.size())` are overwritten. -/
def memcpy (dst : List Nat) (off : Nat) (src : List Nat) : List Nat :=
  dst.take off ++ src ++ dst.drop (off + src.length)

/-- The call `v.resize(n)` of `std::vector`: keep the first `n` elements, value-initialise new ones. -/
def vectorResize {α : Type} (fill : α) (v : List α) (n : Nat) : List α :=
  v.take n ++ List.replicate (n - v.length) fill

/-- The read `uint32 x; std::memcpy(&x, buf.data() + off, 4)` on a little-endian host. -/
def readU32 (buf : List Nat) (off : Nat) : Nat :=
  buf.getD off 0 + 256 * buf.getD (off + 1) 0 + 65536 * buf.getD (off + 2) 0
    + 16777216 * buf.getD (off + 3) 0

/-- A C cast `(int)x` of an unsigned value to a 32-bit signed int (two's complement wrap). -/
def toInt32 (n : Nat) : Int :=
  if n % 2 ^ 32 < 2 ^ 31 then ((n % 2 ^ 32 : Nat) : Int) else ((n % 2 ^ 32 : Nat) : Int) - 2 ^ 32

/-! ## Packet header (MicReadThread.cpp 530-547, ClientUDPHandlerThread.cpp 156-174) -/

/-- The three header writes of MicReadThread.cpp lines 534-543: packet type at offset 0, avatar id
at offset 4, sequence number at offset 8.  The source passes the constant `packet_type = 1`. -/
def writeHeader (packet : List Nat) (packet_type client_avatar_uid_uint32 seq_num : Nat) : List Nat :=
  let packet := memcpy packet 0 (u32Bytes packet_type)
  let packet := memcpy packet 4 (u32Bytes client_avatar_uid_uint32)
  memcpy packet 8 (u32Bytes seq_num)

/-- The three header reads of ClientUDPHandlerThread.cpp lines 158-174:
`type` at offset 0, `avatar_id` at offset 4, `rcvd_seq_num` at offset 8. -/
def parseHeader (packet_buf : List Nat) : Nat × Nat × Nat :=
  (readU32 packet_buf 0, readU32 packet_buf 4, readU32 packet_buf 8)

/-- The block "Form packet", MicReadThread.cpp lines 530-547.  `packet` is the reused packet vector (with
whatever it held before), `client_avatar_uid` the 64-bit UID value, `encoded_B` the non-negative
result of the encoder and `encoded_data` the encoder output buffer. -/
def formPacket (packet : List Nat) (client_avatar_uid seq_num : Nat) (encoded_data : List Nat)
    (encoded_B : Nat) : List Nat :=
  let header_size_B := 4 * 3
  let packet := vectorResize 0 packet (header_size_B + encoded_B)
  let packet_type := 1
  let client_avatar_uid_uint32 := client_avatar_uid % 2 ^ 32
  let packet := writeHeader packet packet_type client_avatar_uid_uint32 seq_num
  if encoded_B > 0 then memcpy packet header_size_B (encoded_data.take encoded_B) else packet

/-! ## Maths helpers used by the workers -/

/-- Modelled from the spec: `myMin` is declared in a maths utility header that is not under src/;
it is the smaller of its two arguments ("bounded to `max_pending`", §4.1). -/
def myMin {α : Type} [LinearOrder α] (x y : α) : α := min x y

/-- Modelled from the spec: `myMax` is declared in a maths utility header that is not under src/;
it is the larger of its two arguments (`smoothed = max(new_max, 0.95 × prev)`, §4.1). -/
def myMax {α : Type} [LinearOrder α] (x y : α) : α := max x y

/-- Modelled from the spec: `myClamp` is declared in a maths utility header that is not under
src/; §4.1 "apply gain with clamp to [−1, 1]": the value `x` clamped into `[lo, hi]`. -/
def myClamp {α : Type} [LinearOrder α] (x lo hi : α) : α := max lo (min hi x)

/-! ## CaptureWorker: `MicReadThread::doRun` -/

/-- Codec rate selection, MicReadThread.cpp lines 305-307. -/
def opusSamplingRate (capture_sampling_rate : Nat) : Nat :=
  let opus_sampling_rate := capture_sampling_rate
  if ¬ (opus_sampling_rate = 8000 ∨ opus_sampling_rate = 12000 ∨ opus_sampling_rate = 16000
      ∨ opus_sampling_rate = 24000 ∨ opus_sampling_rate = 48000) then
    48000
  else
    opus_sampling_rate

/-- The test `opus_sampling_rate != capture_sampling_rate` of lines 499 and 508 (and 519). -/
def resampleNeeded (capture_sampling_rate : Nat) : Bool :=
  opusSamplingRate capture_sampling_rate != capture_sampling_rate

/-- Line 490: `opus_samples_per_frame = opus_sampling_rate / 100` (10 ms frames). -/
def opusSamplesPerFrame (capture_sampling_rate : Nat) : Nat :=
  opusSamplingRate capture_sampling_rate / 100

/-- Line 343: `max_pcm_buffer_size`. -/
def max_pcm_buffer_size : Nat := 48000

/-- Lines 408 and 460: `myMin((int)max_pcm_buffer_size - (int)pcm_buffer.size(), (int)available)`,
where `available` is `num_frames_available` (line 408) or `callback_buffer.size()` (line 460).
The three casts to `int` are modelled by `toInt32`. -/
def framesToCopy (pcm_buffer_size available : Nat) : Int :=
  myMin (toInt32 max_pcm_buffer_size - toInt32 pcm_buffer_size) (toInt32 available)

/-- Lines 409 and 462: the size passed to `pcm_buffer.resize(pcm_buffer.size() + frames_to_copy)`;
the sum of a `size_t` and an `int` is taken in `size_t` (64 bits). -/
def resizedSize (pcm_buffer_size : Nat) (frames_to_copy : Int) : Nat :=
  (((pcm_buffer_size : Int) + frames_to_copy) % 2 ^ 64).toNat

/-- Messages a MicReadThread finds in its inbound queue. -/
inductive ThreadMessage where
  | InputVolumeScaleChangedMessage (input_vol_scale_factor : ℚ)
  | other
  deriving DecidableEq, Repr

/-- Messages a MicReadThread enqueues on `out_msg_queue`. -/
inductive OutMessage where
  | LogMessage
  | AudioStreamToServerStartedMessage (sampling_rate flags stream_id : Nat)
  | AudioStreamToServerEndedMessage
  deriving DecidableEq, Repr

/-- The external collaborators of the capture worker: the Opus encoder (state `ε`) and the
`glare::AudioResampler` (state `ρ`).  Neither is under src/, so both are parameters. -/
structure CaptureExternals (ε ρ : Type) where
  /-- The call `opus_encode_float(enc, pcm, frame_size, data, max_data_bytes)`: from the encoder state, the
  frame of `frame_size` samples and the old contents of `encoded_data`, the result code
  `encoded_B`, the new contents of `encoded_data` and the new encoder state. -/
  opus_encode_float : ε → List ℚ → List Nat → Int × List Nat × ε
  /-- The call `resampler.numSrcSamplesNeeded(num_dest_samples)`. -/
  numSrcSamplesNeeded : ρ → Nat → Nat
  /-- The call `resampler.resample(dest, dest_size, src, src_size, temp)`: the destination samples
  written and the new resampler state. -/
  resample : ρ → Nat → List ℚ → List ℚ × ρ

/-- The variables of `MicReadThread::doRun` that live across loop iterations, with two traces:
`udp_sent` (the packets passed to `udp_socket->sendPacket`, oldest first) and `encoder_input`
(the frames passed to `opus_encode_float`, oldest first). -/
structure MicReadThread (ε ρ : Type) where
  input_vol_scale_factor : ℚ
  cur_level : ℚ
  client_avatar_uid : Nat
  stream_id : Nat
  msg_queue : List ThreadMessage
  out_msg_queue : List OutMessage
  pcm_buffer : List ℚ
  encoded_data : List Nat
  packet : List Nat
  seq_num : Nat
  opus_encoder : ε
  resampler : ρ
  udp_sent : List (List Nat)
  encoder_input : List (List ℚ)

/-- The local variables as initialised at lines 340-351, just before the main loop:
`encoded_data(100000)`, empty `pcm_buffer` and `packet`, `seq_num = 0`. -/
def loopEntryState {ε ρ : Type} (opus_encoder : ε) (resampler : ρ)
    (input_vol_scale_factor cur_level : ℚ) (client_avatar_uid stream_id : Nat)
    (msg_queue : List ThreadMessage) (out_msg_queue : List OutMessage) : MicReadThread ε ρ :=
  { input_vol_scale_factor := input_vol_scale_factor
    cur_level := cur_level
    client_avatar_uid := client_avatar_uid
    stream_id := stream_id
    msg_queue := msg_queue
    out_msg_queue := out_msg_queue
    pcm_buffer := []
    encoded_data := List.replicate 100000 0
    packet := []
    seq_num := 0
    opus_encoder := opus_encoder
    resampler := resampler
    udp_sent := []
    encoder_input := [] }

/-- Lines 498-502: how many source samples the next frame needs. -/
def captureSamplesForFrame {ε ρ : Type} (X : CaptureExternals ε ρ) (capture_sampling_rate : Nat)
    (st : MicReadThread ε ρ) : Nat :=
  if opusSamplingRate capture_sampling_rate = capture_sampling_rate then
    opusSamplesPerFrame capture_sampling_rate
  else
    X.numSrcSamplesNeeded st.resampler (opusSamplesPerFrame capture_sampling_rate)

/-- Lines 508-519: the frame handed to the encoder and the resampler state afterwards.  Without
resampling it is `&pcm_buffer[cur_i]`, read for `opus_samples_per_frame` samples; with resampling
it is `resampled_pcm_buffer`, as written by `resampler.resample`. -/
def encoderFrame {ε ρ : Type} (X : CaptureExternals ε ρ) (capture_sampling_rate : Nat)
    (st : MicReadThread ε ρ) (cur_i : Nat) : List ℚ × ρ :=
  let opus_samples_per_frame := opusSamplesPerFrame capture_sampling_rate
  if opusSamplingRate capture_sampling_rate ≠ capture_sampling_rate then
    let src := (st.pcm_buffer.drop cur_i).take (captureSamplesForFrame X capture_sampling_rate st)
    let r := X.resample st.resampler opus_samples_per_frame src
    (r.1.take opus_samples_per_frame, r.2)
  else
    ((st.pcm_buffer.drop cur_i).take opus_samples_per_frame, st.resampler)

/-- What one pass through the body of the `while(1)` frame loop does. -/
inductive FrameStep (σ : Type) where
  /-- Line 506: not enough samples left, `break`. -/
  | stop (st : σ)
  /-- Line 526: `opus_encode_float` reported an error, an exception is thrown. -/
  | threw (st : σ)
  /-- A packet was sent; the loop goes on with the new cursor. -/
  | next (st : σ) (cur_i : Nat)

/-- The state a pass through the frame loop body ends in. -/
def FrameStep.state {σ : Type} : FrameStep σ → σ
  | FrameStep.stop st => st
  | FrameStep.threw st => st
  | FrameStep.next st _ => st

/-- Lines 517-523: the call of `opus_encode_float` on the frame at the cursor `cur_i`:
the result `encoded_B`, the new `encoded_data` and the new encoder state. -/
def encodeResult {ε ρ : Type} (X : CaptureExternals ε ρ) (capture_sampling_rate : Nat)
    (st : MicReadThread ε ρ) (cur_i : Nat) : Int × List Nat × ε :=
  X.opus_encode_float st.opus_encoder (encoderFrame X capture_sampling_rate st cur_i).1
    st.encoded_data

/-- The state after lines 508-523 of a pass: the resampler (if used) and the encoder have run on
the frame at the cursor `cur_i`, and `encoded_data` holds the encoder output. -/
def afterEncode {ε ρ : Type} (X : CaptureExternals ε ρ) (capture_sampling_rate : Nat)
    (st : MicReadThread ε ρ) (cur_i : Nat) : MicReadThread ε ρ :=
  let fr := encoderFrame X capture_sampling_rate st cur_i
  let e := encodeResult X capture_sampling_rate st cur_i
  { st with resampler := fr.2, opus_encoder := e.2.2, encoded_data := e.2.1,
            encoder_input := st.encoder_input ++ [fr.1] }

/-- Lines 530-550: form the packet for `encoded_B ≥ 0` encoded bytes, increment `seq_num`
(a `uint32`) and send the packet.  The send is taken to succeed (a throwing `sendPacket` would
end the run in the `catch` of line 575). -/
def sendFrame {ε ρ : Type} (st : MicReadThread ε ρ) (encoded_B : Nat) : MicReadThread ε ρ :=
  let packet := formPacket st.packet st.client_avatar_uid st.seq_num st.encoded_data encoded_B
  { st with packet := packet, seq_num := (st.seq_num + 1) % 2 ^ 32,
            udp_sent := st.udp_sent ++ [packet] }

/-- One pass through the body of the frame loop, lines 497-550.  The cursor never exceeds the
buffer length (it starts at 0 and advances only when enough samples remain), so the `size_t`
subtraction of line 504 does not wrap and is the subtraction of `Nat`. -/
def frameStep {ε ρ : Type} (X : CaptureExternals ε ρ) (capture_sampling_rate : Nat)
    (st : MicReadThread ε ρ) (cur_i : Nat) : FrameStep (MicReadThread ε ρ) :=
  let capture_samples_for_frame := captureSamplesForFrame X capture_sampling_rate st
  let remaining_in_buffer := st.pcm_buffer.length - cur_i
  if remaining_in_buffer < capture_samples_for_frame then
    FrameStep.stop st
  else
    let encoded_B := (encodeResult X capture_sampling_rate st cur_i).1
    let st := afterEncode X capture_sampling_rate st cur_i
    if encoded_B < 0 then
      FrameStep.threw st
    else
      FrameStep.next (sendFrame st encoded_B.toNat) (cur_i + capture_samples_for_frame)

/-- How a loop of the worker was left. -/
inductive LoopExit where
  /-- The loop ran to its end (a `break`, or all inputs consumed). -/
  | finished
  /-- A `glare::Exception` was thrown; control is in the `catch` of line 575. -/
  | threw
  /-- The fuel of the model ran out before the loop ended. -/
  | outOfFuel
  deriving DecidableEq, Repr

/-- The frame loop `while(1)` of lines 495-551, starting with the cursor `cur_i`.  Returns how
the loop ended, the state and the final cursor. -/
def emitFrames {ε ρ : Type} (X : CaptureExternals ε ρ) (capture_sampling_rate : Nat) :
    Nat → MicReadThread ε ρ → Nat → LoopExit × MicReadThread ε ρ × Nat
  | 0, st, cur_i => (LoopExit.outOfFuel, st, cur_i)
  | fuel + 1, st, cur_i =>
    match frameStep X capture_sampling_rate st cur_i with
    | FrameStep.stop st2 => (LoopExit.finished, st2, cur_i)
    | FrameStep.threw st2 => (LoopExit.threw, st2, cur_i)
    | FrameStep.next st2 cur_i2 => emitFrames X capture_sampling_rate fuel st2 cur_i2

/-- Lines 462-466: `pcm_buffer.resize(size + frames_to_copy)` followed by the copy loop
`pcm_buffer[write_index + i] = callback_buffer[i]` for `i < frames_to_copy`. -/
def appendCaptured (pcm_buffer callback_buffer : List ℚ) (frames_to_copy : Nat) : List ℚ :=
  pcm_buffer ++ (List.range frames_to_copy).map (fun i => callback_buffer.getD i 0)

/-- Lines 474-479, buffer part: every sample from `write_index` on is replaced by
`myClamp(pcm_buffer[i] * input_vol_scale_factor, -1.f, 1.f)`. -/
def applyGain (input_vol_scale_factor : ℚ) (pcm_buffer : List ℚ) (write_index : Nat) : List ℚ :=
  pcm_buffer.take write_index
    ++ (pcm_buffer.drop write_index).map (fun x => myClamp (x * input_vol_scale_factor) (-1) 1)

/-- The running maximum `max_val = myMax(max_val, std::fabs(x))` over the samples `xs`
(lines 474-479 and ClientUDPHandlerThread.cpp lines 224-226), started at `max_val`. -/
def maxAbs (max_val : ℚ) (xs : List ℚ) : ℚ :=
  xs.foldl (fun m x => myMax m |x|) max_val

/-- Lines 462-486 of a drain: append `frames_to_copy` samples of `callback_buffer` to
`pcm_buffer`, apply the gain with clamp to the new samples, and smooth their maximum absolute
value into `mic_read_status->cur_level`. -/
def appendAndGain {ε ρ : Type} (st : MicReadThread ε ρ) (callback_buffer : List ℚ)
    (frames_to_copy : Nat) : MicReadThread ε ρ :=
  let write_index := st.pcm_buffer.length
  let pcm_buffer := appendCaptured st.pcm_buffer callback_buffer frames_to_copy
  let pcm_buffer := applyGain st.input_vol_scale_factor pcm_buffer write_index
  let max_val := maxAbs 0 (pcm_buffer.drop write_index)
  let smoothed_max := myMax max_val ((95 / 100 : ℚ) * st.cur_level)
  { st with pcm_buffer := pcm_buffer, cur_level := smoothed_max }

/-- Lines 488-554 of a drain: run the frame loop from cursor 0 and, when it ends normally,
remove the consumed prefix (`removeNItemsFromFront(pcm_buffer, cur_i)`). -/
def emitAndCompact {ε ρ : Type} (X : CaptureExternals ε ρ) (capture_sampling_rate fuel : Nat)
    (st : MicReadThread ε ρ) : LoopExit × MicReadThread ε ρ :=
  match emitFrames X capture_sampling_rate fuel st 0 with
  | (LoopExit.finished, st, cur_i) =>
    (LoopExit.finished, { st with pcm_buffer := st.pcm_buffer.drop cur_i })
  | (ex, st, _) => (ex, st)

/-- One pass through the body of the inner `while(die == 0)` loop (lines 384, 454-554, the
RtAudio build), given the contents of `callback_buffer` when `buffer_mutex` is taken.
`none` is the `break` of line 458 (nothing to read); a failed `runtimeCheck` of line 461
throws. -/
def drainPass {ε ρ : Type} (X : CaptureExternals ε ρ) (capture_sampling_rate fuel : Nat)
    (st : MicReadThread ε ρ) (callback_buffer : List ℚ) : Option (LoopExit × MicReadThread ε ρ) :=
  if callback_buffer.isEmpty then
    none
  else
    let frames_to_copy := framesToCopy st.pcm_buffer.length callback_buffer.length
    if ¬ (frames_to_copy ≥ 0) then
      some (LoopExit.threw, st)
    else
      some (emitAndCompact X capture_sampling_rate fuel
        (appendAndGain st callback_buffer frames_to_copy.toNat))

/-- The inner loop `while(die == 0)` of lines 382-560: `deliveries` lists what each pass finds
in `callback_buffer`; the loop ends at the first empty one, or when the list ends (the `die`
flag was seen). -/
def innerLoop {ε ρ : Type} (X : CaptureExternals ε ρ) (capture_sampling_rate fuel : Nat) :
    MicReadThread ε ρ → List (List ℚ) → LoopExit × MicReadThread ε ρ
  | st, [] => (LoopExit.finished, st)
  | st, callback_buffer :: rest =>
    match drainPass X capture_sampling_rate fuel st callback_buffer with
    | none => (LoopExit.finished, st)
    | some (LoopExit.finished, st2) => innerLoop X capture_sampling_rate fuel st2 rest
    | some (ex, st2) => (ex, st2)

/-- The block "Poll for messages", lines 360-372: at most one message is dequeued. -/
def pollMessages {ε ρ : Type} (st : MicReadThread ε ρ) : MicReadThread ε ρ :=
  match st.msg_queue with
  | [] => st
  | msg :: rest =>
    let st := { st with msg_queue := rest }
    match msg with
    | ThreadMessage.InputVolumeScaleChangedMessage v => { st with input_vol_scale_factor := v }
    | ThreadMessage.other => st

/-- What the environment contributes to one iteration of the main loop. -/
structure IterationInput where
  /-- Messages other threads enqueued since the previous poll. -/
  enqueued : List ThreadMessage
  /-- Whether `time_since_last_stream_to_server_msg_sent.elapsed() > 2.0` at line 374. -/
  timer_elapsed : Bool
  /-- What the passes of the inner loop find in `callback_buffer`. -/
  deliveries : List (List ℚ)

/-- One iteration of the main loop, lines 358-560. -/
def mainIteration {ε ρ : Type} (X : CaptureExternals ε ρ) (capture_sampling_rate fuel : Nat)
    (st : MicReadThread ε ρ) (inp : IterationInput) : LoopExit × MicReadThread ε ρ :=
  let st := { st with msg_queue := st.msg_queue ++ inp.enqueued }
  let st := pollMessages st
  let st :=
    if inp.timer_elapsed then
      { st with out_msg_queue := st.out_msg_queue ++
          [OutMessage.AudioStreamToServerStartedMessage (opusSamplingRate capture_sampling_rate) 1
            st.stream_id] }
    else st
  innerLoop X capture_sampling_rate fuel st inp.deliveries

/-- The main loop `while(die == 0)` of lines 356-561 over the iterations that run before `die`
is seen; it is left early by an exception. -/
def mainLoop {ε ρ : Type} (X : CaptureExternals ε ρ) (capture_sampling_rate fuel : Nat) :
    MicReadThread ε ρ → List IterationInput → LoopExit × MicReadThread ε ρ
  | st, [] => (LoopExit.finished, st)
  | st, inp :: rest =>
    match mainIteration X capture_sampling_rate fuel st inp with
    | (LoopExit.finished, st2) => mainLoop X capture_sampling_rate fuel st2 rest
    | (ex, st2) => (ex, st2)

/-- The state pairs a property `P` of the capture worker must be stable under to hold
throughout the main loop: a pass of the frame loop body, the append-and-gain step of a drain,
the removal of the consumed prefix, and the control step (message poll and handshake timer). -/
structure CaptureInvariant {ε ρ : Type} (X : CaptureExternals ε ρ) (capture_sampling_rate : Nat)
    (P : MicReadThread ε ρ → Prop) : Prop where
  frame : ∀ st cur_i, P st → P (frameStep X capture_sampling_rate st cur_i).state
  append : ∀ (st : MicReadThread ε ρ) (callback_buffer : List ℚ), P st →
    0 ≤ framesToCopy st.pcm_buffer.length callback_buffer.length →
    P (appendAndGain st callback_buffer
        (framesToCopy st.pcm_buffer.length callback_buffer.length).toNat)
  compact : ∀ (st : MicReadThread ε ρ) (cur_i : Nat), P st →
    P { st with pcm_buffer := st.pcm_buffer.drop cur_i }
  control : ∀ (st : MicReadThread ε ρ) (q : List ThreadMessage) (g : ℚ) (out : List OutMessage),
    P st → P { st with msg_queue := q, input_vol_scale_factor := g, out_msg_queue := out }

/-! ## ReceiveWorker: `ClientUDPHandlerThread::doRun`, packet handling -/

/-- The part of `glare::AudioSource` that the handler touches: the sample queue that the mixer
reads (front of the queue = head of the list) and the level shown in the UI. -/
structure AudioSource where
  buffer : List ℚ
  smoothed_cur_level : ℚ

/-- The struct `AvatarVoiceStreamInfo` of ClientUDPHandlerThread.cpp lines 41-48.  The shared
reference `avatar_audio_source` is a handle into the audio engine's sources; the decoder pointer
is the decoder state (`δ`). -/
structure AvatarVoiceStreamInfo (δ : Type) where
  avatar_audio_source : Nat
  opus_decoder : δ
  sampling_rate : Nat
  stream_id : Nat
  next_seq_num_expected : Nat

/-- The external collaborator of the receive worker: the Opus decoder, which is not under src/. -/
structure ReceiveExternals (δ : Type) where
  /-- The call `opus_decode_float(dec, data, len, pcm, frame_size, 0)`: from the decoder state, the
  payload bytes and the old contents of `pcm_buffer`, the result `num_samples_decoded`, the new
  contents of `pcm_buffer` and the new decoder state. -/
  opus_decode_float : δ → List Nat → List ℚ → Int × List ℚ × δ

/-- The data `ClientUDPHandlerThread::doRun` works on: the map `avatar_stream_info` (keyed by
the 32-bit avatar id), the audio sources the entries refer to (by handle) and the scratch
buffer `pcm_buffer` (480 floats). -/
structure ClientUDPHandlerThread (δ : Type) where
  avatar_stream_info : Nat → Option (AvatarVoiceStreamInfo δ)
  audio_sources : Nat → AudioSource
  pcm_buffer : List ℚ

/-- Lines 230-244, executed under the audio engine's mutex for an accepted frame: trim the
queue when it holds more than 4096 samples, append the `num_samples_decoded` new samples, update
the smoothed level. -/
def appendToSource (src : AudioSource) (pcm_buffer : List ℚ) (num_samples_decoded : Nat)
    (max_val : ℚ) : AudioSource :=
  let buffer :=
    if src.buffer.length > 4096 then
      let num_samples_to_remove := src.buffer.length - 2048
      src.buffer.drop num_samples_to_remove
    else
      src.buffer
  let buffer := buffer ++ pcm_buffer.take num_samples_decoded
  { buffer := buffer, smoothed_cur_level := myMax (src.smoothed_cur_level * (95 / 100 : ℚ)) max_val }

/-- Lines 209-213: the call of `opus_decode_float` on the payload `bytes[12..packet_len)` with the
decoder of the entry `stream_info`: the result `num_samples_decoded`, the new contents of
`pcm_buffer` and the new decoder state. -/
def decodeResult {δ : Type} (D : ReceiveExternals δ) (st : ClientUDPHandlerThread δ)
    (stream_info : AvatarVoiceStreamInfo δ) (packet_buf : List Nat) (packet_len : Nat) :
    Int × List ℚ × δ :=
  let packet_header_size_B := 12
  let opus_packet_len := packet_len - packet_header_size_B
  D.opus_decode_float stream_info.opus_decoder
    ((packet_buf.drop packet_header_size_B).take opus_packet_len) st.pcm_buffer

/-- Lines 173-251: what is done with a voice packet once its decode entry `stream_info` has been
found under the key `avatar_id`. -/
def handleVoicePacket {δ : Type} (D : ReceiveExternals δ) (st : ClientUDPHandlerThread δ)
    (avatar_id : Nat) (stream_info : AvatarVoiceStreamInfo δ) (packet_buf : List Nat)
    (packet_len : Nat) : ClientUDPHandlerThread δ :=
  let rcvd_seq_num := readU32 packet_buf 8
  if rcvd_seq_num < stream_info.next_seq_num_expected then
    st
  else
    let d := decodeResult D st stream_info packet_buf packet_len
    let num_samples_decoded := d.1
    let pcm_buffer := d.2.1
    let stream_info := { stream_info with opus_decoder := d.2.2 }
    if num_samples_decoded < 0 then
      { st with pcm_buffer := pcm_buffer,
                avatar_stream_info := Function.update st.avatar_stream_info avatar_id
                  (some stream_info) }
    else
      let audio_sources :=
        if num_samples_decoded ≠ Int.tdiv (toInt32 stream_info.sampling_rate) 100 then
          st.audio_sources
        else
          let max_val := maxAbs 0 (pcm_buffer.take num_samples_decoded.toNat)
          Function.update st.audio_sources stream_info.avatar_audio_source
            (appendToSource (st.audio_sources stream_info.avatar_audio_source) pcm_buffer
              num_samples_decoded.toNat max_val)
      let stream_info :=
        { stream_info with
          next_seq_num_expected := (stream_info.next_seq_num_expected + 1) % 2 ^ 32 }
      { pcm_buffer := pcm_buffer,
        audio_sources := audio_sources,
        avatar_stream_info := Function.update st.avatar_stream_info avatar_id (some stream_info) }

/-- Lines 154-260: the handling of one datagram, `packet_len` bytes long, that `readPacket` put
at the start of `packet_buf`, coming from `sender_ip_addr`. -/
def handlePacket {δ : Type} (D : ReceiveExternals δ) (server_ip_addr : Nat)
    (st : ClientUDPHandlerThread δ) (sender_ip_addr : Nat) (packet_buf : List Nat)
    (packet_len : Nat) : ClientUDPHandlerThread δ :=
  if sender_ip_addr = server_ip_addr then
    if packet_len ≥ 4 then
      let type := readU32 packet_buf 0
      if type = 1 then
        if packet_len ≥ 12 then
          let avatar_id := readU32 packet_buf 4
          match st.avatar_stream_info avatar_id with
          | some stream_info => handleVoicePacket D st avatar_id stream_info packet_buf packet_len
          | none => st
        else st
      else st
    else st
  else st

/-! ## Concrete collaborators and states used in the examples -/

/-- An encoder that reports `encoded_B` for every frame and leaves `encoded_data` as it is,
with a pass-through resampler. -/
def constEncoder (encoded_B : Int) : CaptureExternals Unit Unit :=
  { opus_encode_float := fun e _ data => (encoded_B, data, e)
    numSrcSamplesNeeded := fun _ n => n
    resample := fun r n src => (src.take n, r) }

/-- Modelled from the spec: `glare::AudioResampler` is not under src/, and §4.3 leaves its kernel
open ("linear/polyphase, choice unconstrained"), asking only that `samples_needed(out_count)`
source samples are consumed and exactly `out_count` destination samples written.  This instance
interpolates with the four-tap midpoint kernel `(-1, 9, 9, -1) / 16`: it needs `n + 3` source
samples for `n` destination samples and writes exactly `n` samples.  Its encoder reports one
byte per frame. -/
def cubicResampler : CaptureExternals Unit Unit :=
  { opus_encode_float := fun e _ data => (1, data, e)
    numSrcSamplesNeeded := fun _ n => n + 3
    resample := fun r n src =>
      ((List.range n).map (fun j =>
          (-(src.getD j 0) + 9 * src.getD (j + 1) 0 + 9 * src.getD (j + 2) 0 - src.getD (j + 3) 0)
            / 16), r) }

/-- A capture worker at loop entry: gain 1, level 0, avatar UID 7, stream id 99. -/
def exampleMic : MicReadThread Unit Unit :=
  loopEntryState () () 1 0 7 99 [] []

/-- The capture worker `exampleMic` with one 10 ms frame of silence (480 samples) pending. -/
def exampleMicWithFrame : MicReadThread Unit Unit :=
  { exampleMic with pcm_buffer := List.replicate 480 0 }

/-- One iteration of the main loop in which a single delivery is drained: no control message,
no handshake renewal. -/
def oneDelivery (callback_buffer : List ℚ) : IterationInput :=
  { enqueued := [], timer_elapsed := false, deliveries := [callback_buffer] }

/-- The property of a capture worker state that the sequence numbers of the packets sent so
far count up from 0 (mod 2^32) and that `seq_num` is the number of packets sent (mod 2^32). -/
def SeqCounts {ε ρ : Type} (st : MicReadThread ε ρ) : Prop :=
  st.seq_num = st.udp_sent.length % 2 ^ 32
    ∧ st.udp_sent.map (fun p => readU32 p 8)
        = (List.range st.udp_sent.length).map (fun k => k % 2 ^ 32)

/-- Every sample of `xs` lies in `[-1, 1]`. -/
def InUnit (xs : List ℚ) : Prop := ∀ x ∈ xs, -1 ≤ x ∧ x ≤ 1

/-- Every sample of every frame of `fs` lies in `[-1, 1]`. -/
def AllInUnit (fs : List (List ℚ)) : Prop := ∀ f ∈ fs, InUnit f

/-- The property of a capture worker state that every pending sample lies in `[-1, 1]` and,
when the capture rate is a codec rate (no resampling), so does every sample of every frame
handed to the encoder so far. -/
def Clamped {ε ρ : Type} (capture_sampling_rate : Nat) (st : MicReadThread ε ρ) : Prop :=
  InUnit st.pcm_buffer
    ∧ (opusSamplingRate capture_sampling_rate = capture_sampling_rate →
        ∀ f ∈ st.encoder_input, InUnit f)

/-- A decoder that always reports one 10 ms frame at 48 kHz (480 samples of silence). -/
def silenceDecoder : ReceiveExternals Unit :=
  { opus_decode_float := fun d _ _ => (480, List.replicate 480 0, d) }

/-- A receive worker with one decode entry, for avatar 7 at 48 kHz, that expects the sequence
number `next_seq`; its audio source (handle 0) holds `queued` samples of silence. -/
def exampleReceiver (next_seq queued : Nat) : ClientUDPHandlerThread Unit :=
  { avatar_stream_info := fun k =>
      if k = 7 then
        some { avatar_audio_source := 0, opus_decoder := (), sampling_rate := 48000,
               stream_id := 99, next_seq_num_expected := next_seq }
      else none
    audio_sources := fun _ => { buffer := List.replicate queued 0, smoothed_cur_level := 0 }
    pcm_buffer := List.replicate 480 0 }

/-- A voice datagram for avatar 7 with sequence number `seq` and a three-byte payload. -/
def examplePacket (seq : Nat) : List Nat :=
  formPacket [] 7 seq [11, 22, 33] 3

/-! ## ReceiveWorker: reconciliation pass and main loop -/

/-- The fields of an `Avatar` in the world state that the receive worker reads: the 64-bit
UID, the audio source (a handle, `none` for a null reference), and the id and sampling rate of
the avatar's current audio stream. -/
structure Avatar where
  uid : Nat
  audio_source : Option Nat
  audio_stream_id : Nat
  audio_stream_sampling_rate : Nat

/-- Lines 81-122: the body of the first reconciliation loop for one avatar `av`.  The key of the
decode map is `(uint32)av->uid.value()`.  `opus_decoder_create` gives the new decoder for a
sampling rate, or `none` when it reports an error; then the exception of line 119 is thrown and
the result is `none`. -/
def reconcileAvatar {δ : Type} (opus_decoder_create : Nat → Option δ)
    (avatar_stream_info : Nat → Option (AvatarVoiceStreamInfo δ)) (av : Avatar) :
    Option (Nat → Option (AvatarVoiceStreamInfo δ)) :=
  match av.audio_source with
  | none => some avatar_stream_info
  | some audio_source =>
    let create_stream_info :=
      match avatar_stream_info (av.uid % 2 ^ 32) with
      | none => true
      | some stream_info => decide (stream_info.stream_id ≠ av.audio_stream_id)
    if create_stream_info then
      let sampling_rate := av.audio_stream_sampling_rate
      match opus_decoder_create sampling_rate with
      | none => none
      | some opus_decoder =>
        some (Function.update avatar_stream_info (av.uid % 2 ^ 32)
          (some { avatar_audio_source := audio_source, opus_decoder := opus_decoder,
                  sampling_rate := sampling_rate, stream_id := av.audio_stream_id,
                  next_seq_num_expected := 0 }))
    else
      some avatar_stream_info

/-- Lines 79-123: the first reconciliation loop, over the avatars of the world state in
iteration order. -/
def createStreamInfos {δ : Type} (opus_decoder_create : Nat → Option δ) :
    (Nat → Option (AvatarVoiceStreamInfo δ)) → List Avatar →
      Option (Nat → Option (AvatarVoiceStreamInfo δ))
  | avatar_stream_info, [] => some avatar_stream_info
  | avatar_stream_info, av :: rest =>
    match reconcileAvatar opus_decoder_create avatar_stream_info av with
    | none => none
    | some info2 => createStreamInfos opus_decoder_create info2 rest

/-- Lines 127-138: whether the entry with the 32-bit key `key` is to be removed.  The avatar is
looked up under `UID(key)`, the key widened to 64 bits. -/
def removeEntry (avatars : List Avatar) (key : Nat) : Bool :=
  match avatars.find? (fun a => decide (a.uid = key)) with
  | none => true
  | some avatar => avatar.audio_source.isNone

/-- Lines 125-148: the second reconciliation loop, which erases the entries to be removed. -/
def pruneStreamInfos {δ : Type} (avatars : List Avatar)
    (avatar_stream_info : Nat → Option (AvatarVoiceStreamInfo δ)) :
    Nat → Option (AvatarVoiceStreamInfo δ) :=
  fun key =>
    match avatar_stream_info key with
    | none => none
    | some stream_info => if removeEntry avatars key then none else some stream_info

/-- Lines 77-150: one reconciliation pass; `none` when `opus_decoder_create` failed and the
exception left the pass (and the worker loop). -/
def reconcile {δ : Type} (opus_decoder_create : Nat → Option δ) (avatars : List Avatar)
    (avatar_stream_info : Nat → Option (AvatarVoiceStreamInfo δ)) :
    Option (Nat → Option (AvatarVoiceStreamInfo δ)) :=
  (createStreamInfos opus_decoder_create avatar_stream_info avatars).map
    (pruneStreamInfos avatars)

/-- What the environment contributes to one iteration of the receive loop: the datagram that
`readPacket` returns with its sender, and the world state as seen at line 75. -/
structure ReceiveInput where
  sender_ip_addr : Nat
  datagram : List Nat
  avatars_changed : Bool
  avatars : List Avatar

/-- The receive worker together with its packet buffer `packet_buf` (4096 bytes). -/
structure ReceiveLoopState (δ : Type) where
  worker : ClientUDPHandlerThread δ
  packet_buf : List Nat

/-- One iteration of the receive loop, lines 68-260: read a datagram into `packet_buf`,
reconcile when `avatars_changed` is set, handle the packet.  `none` when an exception left the
loop. -/
def receiveIteration {δ : Type} (D : ReceiveExternals δ) (opus_decoder_create : Nat → Option δ)
    (server_ip_addr : Nat) (s : ReceiveLoopState δ) (inp : ReceiveInput) :
    Option (ReceiveLoopState δ) :=
  let packet_len := min inp.datagram.length s.packet_buf.length
  let packet_buf := memcpy s.packet_buf 0 (inp.datagram.take packet_len)
  let reconciled :=
    if inp.avatars_changed then
      reconcile opus_decoder_create inp.avatars s.worker.avatar_stream_info
    else
      some s.worker.avatar_stream_info
  match reconciled with
  | none => none
  | some avatar_stream_info =>
    some
      { worker := handlePacket D server_ip_addr
          { s.worker with avatar_stream_info := avatar_stream_info } inp.sender_ip_addr
          packet_buf packet_len,
        packet_buf := packet_buf }

/-- The receive loop `while(die == 0)` of lines 66-261 over the iterations that run before `die`
is seen or the blocking read is cancelled.  The flag tells whether the loop was left by an
exception of the reconciliation pass. -/
def receiveLoop {δ : Type} (D : ReceiveExternals δ) (opus_decoder_create : Nat → Option δ)
    (server_ip_addr : Nat) : ReceiveLoopState δ → List ReceiveInput → Bool × ReceiveLoopState δ
  | s, [] => (false, s)
  | s, inp :: rest =>
    match receiveIteration D opus_decoder_create server_ip_addr s inp with
    | none => (true, s)
    | some s2 => receiveLoop D opus_decoder_create server_ip_addr s2 rest

/-- Packet handling for a sequence of datagrams, each `(sender, packet_buf, packet_len)`, with
no reconciliation pass in between. -/
def handlePackets {δ : Type} (D : ReceiveExternals δ) (server_ip_addr : Nat) :
    ClientUDPHandlerThread δ → List (Nat × List Nat × Nat) → ClientUDPHandlerThread δ
  | st, [] => st
  | st, p :: rest =>
    handlePackets D server_ip_addr (handlePacket D server_ip_addr st p.1 p.2.1 p.2.2) rest

/-- The sequence number a worker state expects next for the avatar id `key` (0 when there is
no decode entry). -/
def nextSeqExpected {δ : Type} (st : ClientUDPHandlerThread δ) (key : Nat) : Nat :=
  match st.avatar_stream_info key with
  | none => 0
  | some stream_info => stream_info.next_seq_num_expected

/-- A decoder that reports 240 samples for every packet (half a 10 ms frame at 48 kHz). -/
def shortFrameDecoder : ReceiveExternals Unit :=
  { opus_decode_float := fun d _ _ => (240, List.replicate 480 0, d) }

/-- A decoder that reports the error code -4 for every packet and leaves the buffer alone. -/
def failingDecoder : ReceiveExternals Unit :=
  { opus_decode_float := fun d _ pcm => (-4, pcm, d) }

/-- An avatar with the audio source of handle 0. -/
def exampleAvatar (uid audio_stream_id audio_stream_sampling_rate : Nat) : Avatar :=
  { uid := uid, audio_source := some 0, audio_stream_id := audio_stream_id,
    audio_stream_sampling_rate := audio_stream_sampling_rate }

/-- The entry a reconciliation pass creates for the avatar `av` with audio source `h`, or keeps
for it: either the entry `before` that the map held under the key already, with the avatar's
stream id, or a fresh entry with the avatar's current stream id and sampling rate, the avatar's
audio source and `next_seq_num_expected = 0`, created because `before` was missing or had
another stream id. -/
def ReconciledEntry {δ : Type} (av : Avatar) (h : Nat)
    (before : Option (AvatarVoiceStreamInfo δ)) (e : AvatarVoiceStreamInfo δ) : Prop :=
  e.stream_id = av.audio_stream_id
    ∧ (before = some e
      ∨ (e.sampling_rate = av.audio_stream_sampling_rate ∧ e.next_seq_num_expected = 0
          ∧ e.avatar_audio_source = h
          ∧ ∀ old, before = some old → old.stream_id ≠ av.audio_stream_id))

/-! ## CaptureWorker: startup and the whole of `doRun` (RtAudio build) -/

/-- The fields of `RtAudio::DeviceInfo` that device selection reads, with the device id. -/
structure DeviceInfo where
  id : Nat
  inputChannels : Nat
  name : String

/-- The arguments of the `MicReadThread` constructor that `doRun` uses, and the level that
`mic_read_status` holds when the thread starts. -/
structure MicConfig where
  client_avatar_uid : Nat
  input_device_name : String
  input_vol_scale_factor : ℚ
  cur_level : ℚ

/-- What the platform answers during startup (lines 240-337): the audio devices, whether
`openStream` and `startStream` report `RTAUDIO_NO_ERROR`, the sample rate of the opened stream,
the encoder that `opus_encoder_create` returns (`none` when it reports an error), the random
stream id, and the first address that `doDNSLookup` resolves (`none` when the lookup throws). -/
structure StartupEnv (ε ρ : Type) where
  default_input_device : Nat
  devices : List DeviceInfo
  open_stream_ok : Bool
  capture_sampling_rate : Nat
  start_stream_ok : Bool
  opus_encoder : Option ε
  stream_id : Nat
  server_ip : Option Nat
  resampler : ρ

/-- Lines 254-268: the device id chosen for `input_device_name`; 0 when none is found. -/
def useDeviceId {ε ρ : Type} (input_device_name : String) (env : StartupEnv ε ρ) : Nat :=
  if input_device_name = "Default" then
    env.default_input_device
  else
    env.devices.foldl
      (fun use_device_id info =>
        if info.inputChannels > 0 ∧ info.name = input_device_name then info.id
        else use_device_id)
      0

/-- Lines 240-351, the startup of `doRun`: either an exception is thrown (`Except.error`, with
the messages enqueued on `out_msg_queue` before it), or the main loop is entered in the state
returned.  The messages are the two log lines of lines 274 and 296 and the
`AudioStreamToServerStartedMessage` with flags 0 of line 332.  The throws of lines 271, 292,
300 and 317 are of `glare::Exception`; a failing `doDNSLookup` (not under src/) is taken to
throw one as well (§7, dns-failed: fatal at startup). -/
def startup {ε ρ : Type} (cfg : MicConfig) (env : StartupEnv ε ρ) :
    Except (List OutMessage) (MicReadThread ε ρ) :=
  if useDeviceId cfg.input_device_name env = 0 then
    Except.error []
  else
    let out := [OutMessage.LogMessage]
    if ¬ (env.open_stream_ok = true) then
      Except.error out
    else
      let out := out ++ [OutMessage.LogMessage]
      if ¬ (env.start_stream_ok = true) then
        Except.error out
      else
        match env.opus_encoder with
        | none => Except.error out
        | some opus_encoder =>
          let out := out ++
            [OutMessage.AudioStreamToServerStartedMessage
              (opusSamplingRate env.capture_sampling_rate) 0 env.stream_id]
          match env.server_ip with
          | none => Except.error out
          | some _ =>
            Except.ok
              (loopEntryState opus_encoder env.resampler cfg.input_vol_scale_factor
                cfg.cur_level cfg.client_avatar_uid env.stream_id [] out)

/-- What a run of `doRun` leaves behind: whether it returned (`false` when the model ran out of
fuel inside a frame loop), the messages it enqueued on `out_msg_queue` in order, the packets it
sent, and the level left in `mic_read_status`. -/
structure RunResult where
  returned : Bool
  out_msg_queue : List OutMessage
  udp_sent : List (List Nat)
  cur_level : ℚ

/-- The whole of `MicReadThread::doRun`, lines 83-589, in the RtAudio build (`USE_RT_AUDIO` 1,
the `#else` branches of lines 243-302 and 453-471): startup and main loop inside `try`, the
`catch` of line 575 that logs the exception, then the level reset and the
`AudioStreamToServerEndedMessage` of line 586.  Every exception of this build is a
`glare::Exception` (the throws of lines 274, 292, 300, 317 and 526 and the `runtimeCheck` of
line 461), so the `catch` handles it.  The WASAPI build, with its own startup and its drain
without the `runtimeCheck`, is `doRunWin`. -/
def doRun {ε ρ : Type} (X : CaptureExternals ε ρ) (cfg : MicConfig) (env : StartupEnv ε ρ)
    (fuel : Nat) (inputs : List IterationInput) : RunResult :=
  match startup cfg env with
  | Except.error out =>
    { returned := true,
      out_msg_queue := out ++ [OutMessage.LogMessage]
        ++ [OutMessage.AudioStreamToServerEndedMessage],
      udp_sent := [], cur_level := 0 }
  | Except.ok st0 =>
    match mainLoop X env.capture_sampling_rate fuel st0 inputs with
    | (LoopExit.finished, st) =>
      { returned := true,
        out_msg_queue := st.out_msg_queue ++ [OutMessage.AudioStreamToServerEndedMessage],
        udp_sent := st.udp_sent, cur_level := 0 }
    | (LoopExit.threw, st) =>
      { returned := true,
        out_msg_queue := st.out_msg_queue ++ [OutMessage.LogMessage]
          ++ [OutMessage.AudioStreamToServerEndedMessage],
        udp_sent := st.udp_sent, cur_level := 0 }
    | (LoopExit.outOfFuel, st) =>
      { returned := false, out_msg_queue := st.out_msg_queue, udp_sent := st.udp_sent,
        cur_level := st.cur_level }

/-- The flags of a message if it is an `AudioStreamToServerStartedMessage`. -/
def startedFlags : OutMessage → Option Nat
  | OutMessage.AudioStreamToServerStartedMessage _ flags _ => some flags
  | _ => none

/-- The sampling rate and stream id of a message if it is an
`AudioStreamToServerStartedMessage`. -/
def startedParams : OutMessage → Option (Nat × Nat)
  | OutMessage.AudioStreamToServerStartedMessage sampling_rate _ stream_id =>
    some (sampling_rate, stream_id)
  | _ => none

/-- An encoder that reports the error -1 for the first frame it is given and one byte for
every later frame; its state counts the frames seen. -/
def failFirstEncoder : CaptureExternals Nat Unit :=
  { opus_encode_float := fun e _ data => (if e = 0 then -1 else 1, data, e + 1)
    numSrcSamplesNeeded := fun _ n => n
    resample := fun r n src => (src.take n, r) }

/-- A thread configuration: avatar UID 7, the default device, gain 1. -/
def exampleConfig : MicConfig :=
  { client_avatar_uid := 7, input_device_name := "Default", input_vol_scale_factor := 1,
    cur_level := 0 }

/-- A platform on which startup succeeds: default device 1, a 48 kHz stream, encoder state
`opus_encoder`, stream id 99. -/
def exampleEnv {ε : Type} (opus_encoder : ε) : StartupEnv ε Unit :=
  { default_input_device := 1, devices := [], open_stream_ok := true,
    capture_sampling_rate := 48000, start_stream_ok := true,
    opus_encoder := some opus_encoder, stream_id := 99, server_ip := some 1,
    resampler := () }

/-! ## Further definitions: accepted packets, control messages, Windows downmix -/

/-- Whether handling a datagram reaches line 242, where the decoded samples are appended to
the queue of the audio source: the conjunction of the tests of lines 154, 156, 160, 162, 169,
178, 214 and 219 on the way there. -/
def appendsFrame {δ : Type} (D : ReceiveExternals δ) (server_ip_addr : Nat)
    (st : ClientUDPHandlerThread δ) (sender_ip_addr : Nat) (packet_buf : List Nat)
    (packet_len : Nat) : Bool :=
  decide (sender_ip_addr = server_ip_addr) && decide (packet_len ≥ 4)
    && decide (readU32 packet_buf 0 = 1) && decide (packet_len ≥ 12)
    && match st.avatar_stream_info (readU32 packet_buf 4) with
       | none => false
       | some stream_info =>
         decide (¬ readU32 packet_buf 8 < stream_info.next_seq_num_expected)
           && decide (¬ (decodeResult D st stream_info packet_buf packet_len).1 < 0)
           && decide ((decodeResult D st stream_info packet_buf packet_len).1
                = Int.tdiv (toInt32 stream_info.sampling_rate) 100)

/-- The sequence numbers of the datagrams of a sequence whose samples are appended to a queue,
in the order of arrival. -/
def appendedSeqs {δ : Type} (D : ReceiveExternals δ) (server_ip_addr : Nat) :
    ClientUDPHandlerThread δ → List (Nat × List Nat × Nat) → List Nat
  | _, [] => []
  | st, p :: rest =>
    (if appendsFrame D server_ip_addr st p.1 p.2.1 p.2.2 then [readU32 p.2.1 8] else [])
      ++ appendedSeqs D server_ip_addr (handlePacket D server_ip_addr st p.1 p.2.1 p.2.2) rest

/-- The gain after the messages `msgs` have been applied in order to the gain `g`: the scale of
the last `InputVolumeScaleChangedMessage`, or `g` when there is none. -/
def lastVolumeScale (msgs : List ThreadMessage) (g : ℚ) : ℚ :=
  msgs.foldl
    (fun g msg =>
      match msg with
      | ThreadMessage.InputVolumeScaleChangedMessage v => v
      | ThreadMessage.other => g)
    g

/-- Lines 423-451 (the WASAPI build): the mono sample mixed from the interleaved frame `i` of
`src_data` with `num_channels` channels.  The constant `0.5f` is `1/2`. -/
def mixedSample (num_channels : Nat) (src_data : List ℚ) (i : Nat) : ℚ :=
  if num_channels = 1 then
    src_data.getD i 0
  else if num_channels = 2 then
    let left := src_data.getD (i * 2 + 0) 0
    let right := src_data.getD (i * 2 + 1) 0
    (left + right) * (1 / 2)
  else
    let sum := (List.range num_channels).foldl
      (fun sum c => sum + src_data.getD (i * num_channels + c) 0) 0
    sum * (1 / (num_channels : ℚ))

/-- Lines 409-452 (the WASAPI build): `pcm_buffer.resize(size + frames_to_copy)` followed by
the fill of the new samples: zeros when the buffer is flagged `AUDCLNT_BUFFERFLAGS_SILENT`,
the downmixed frames otherwise. -/
def appendCapturedWin (pcm_buffer : List ℚ) (silent : Bool) (num_channels : Nat)
    (src_data : List ℚ) (frames_to_copy : Nat) : List ℚ :=
  pcm_buffer ++ (List.range frames_to_copy).map
    (fun i => if silent then 0 else mixedSample num_channels src_data i)

/-- A decoder that reports 480 samples of value 2 for every packet. -/
def loudDecoder : ReceiveExternals Unit :=
  { opus_decode_float := fun d _ _ => (480, List.replicate 480 2, d) }

/-! ## LoadItemQueue (LoadItemQueue.cpp) -/

/-- The members of `LoadItemQueueItem` that `enqueueItem` sets (lines 54-58) and the comparator
reads.  Positions (`Vec4f`) have the type `P`, tasks (`glare::TaskRef`) the type `T`; the
`float` members are rationals. -/
structure LoadItemQueueItem (P T : Type) where
  pos : P
  size_factor : ℚ
  task : T
  task_max_dist : ℚ

/-- The members of `LoadItemQueue` that LoadItemQueue.cpp uses: the vector `items` and the
index `begin_i` of the first item that has not been dequeued. -/
structure LoadItemQueue (P T : Type) where
  items : List (LoadItemQueueItem P T)
  begin_i : Nat

/-- The constructor `LoadItemQueue::LoadItemQueue()`, lines 20-22: `begin_i(0)` and an empty
vector. -/
def LoadItemQueue.construct {P T : Type} : LoadItemQueue P T :=
  { items := [], begin_i := 0 }

/-- The overload of `enqueueItem` of lines 50-61 that the other three call:
`items.push_back(item)`. -/
def LoadItemQueue.enqueueItem {P T : Type} (q : LoadItemQueue P T) (pos : P) (size_factor : ℚ)
    (task : T) (task_max_dist : ℚ) : LoadItemQueue P T :=
  let item : LoadItemQueueItem P T :=
    { pos := pos, size_factor := size_factor, task := task, task_max_dist := task_max_dist }
  { q with items := q.items ++ [item] }

/-- Lines 65-68: `items.size() - begin_i`, a difference of two `size_t` values (64 bits,
wrapping). -/
def LoadItemQueue.size {P T : Type} (q : LoadItemQueue P T) : Nat :=
  (((q.items.length : Int) - (q.begin_i : Int)) % 2 ^ 64).toNat

/-- Lines 71-75. -/
def LoadItemQueue.clear {P T : Type} (_q : LoadItemQueue P T) : LoadItemQueue P T :=
  { items := [], begin_i := 0 }

/-- The comparator of lines 78-88; `getDist` is `Vec4f::getDist`, the distance between two
positions, and `campos` the member of the comparator. -/
def QueueItemDistComparator {P T : Type} (getDist : P → P → ℚ) (campos : P)
    (a b : LoadItemQueueItem P T) : Bool :=
  let a_priority := getDist a.pos campos * a.size_factor
  let b_priority := getDist b.pos campos * b.size_factor
  decide (a_priority < b_priority)

/-- The loop of lines 124-125, `for(size_t i = begin_i; i < items_size; ++i)
items[i - begin_i] = items[i];`, from the index `i` on with `n = items_size - i` passes left. -/
def copyBack {α : Type} (begin_i : Nat) : Nat → Nat → List α → List α
  | 0, _, items => items
  | n + 1, i, items =>
    copyBack begin_i n (i + 1)
      (match items[i]? with
       | some x => items.set (i - begin_i) x
       | none => items)

/-- Lines 91-130: sort the range `[items.begin() + begin_i, items.end())` with the comparator
for `campos`, then, when `begin_i > 1000`, copy the items back to the start of the vector, cut
the vector to `items.size() - begin_i` and reset `begin_i`.  `std_sort` is `std::sort` on the
contents of a range.  The range is not valid when `begin_i` exceeds `items.size()`; the result
is `none` then. -/
def LoadItemQueue.sortQueue {P T : Type}
    (std_sort : (LoadItemQueueItem P T → LoadItemQueueItem P T → Bool) →
      List (LoadItemQueueItem P T) → List (LoadItemQueueItem P T))
    (getDist : P → P → ℚ) (q : LoadItemQueue P T) (campos : P) : Option (LoadItemQueue P T) :=
  if q.items.length < q.begin_i then
    none
  else
    let comparator := QueueItemDistComparator getDist campos
    let items := q.items.take q.begin_i ++ std_sort comparator (q.items.drop q.begin_i)
    if q.begin_i > 1000 then
      let items_size := items.length
      let items := copyBack q.begin_i (items_size - q.begin_i) q.begin_i items
      let items := items.take (items.length - q.begin_i)
      some { items := items, begin_i := 0 }
    else
      some { q with items := items }

/-- Lines 133-138: `return items[begin_i++];`.  The read is out of bounds when
`begin_i < items.size()` (the assertion of line 135) does not hold; the result is `none`
then. -/
def LoadItemQueue.dequeueFront {P T : Type} (q : LoadItemQueue P T) :
    Option (LoadItemQueueItem P T × LoadItemQueue P T) :=
  match q.items[q.begin_i]? with
  | none => none
  | some item => some (item, { q with begin_i := q.begin_i + 1 })

/-- The pending items of a queue: those from `begin_i` on, in the order of the vector. -/
def LoadItemQueue.pending {P T : Type} (q : LoadItemQueue P T) : List (LoadItemQueueItem P T) :=
  q.items.drop q.begin_i

/-- A call of `enqueueItem` for every item of `xs`, in order. -/
def enqueueAll {P T : Type} (q : LoadItemQueue P T) (xs : List (LoadItemQueueItem P T)) :
    LoadItemQueue P T :=
  xs.foldl (fun q x => q.enqueueItem x.pos x.size_factor x.task x.task_max_dist) q

/-- The results of `n` calls of `dequeueFront` in a row, in order, with the queue they
leave. -/
def dequeueN {P T : Type} :
    Nat → LoadItemQueue P T → Option (List (LoadItemQueueItem P T) × LoadItemQueue P T)
  | 0, q => some ([], q)
  | n + 1, q =>
    match q.dequeueFront with
    | none => none
    | some (item, q2) => (dequeueN n q2).map (fun r => (item :: r.1, r.2))

/-- A sort that meets the contract of `std::sort` for the comparators used here: insertion
sort. -/
def exampleSort {α : Type} (comp : α → α → Bool) (l : List α) : List α :=
  l.insertionSort (fun a b => comp b a = false)

/-- A queue over positions on a line whose first item has been dequeued; two items are
pending. -/
def exampleQueue : LoadItemQueue ℚ Nat :=
  { items := [{ pos := 9, size_factor := 1, task := 0, task_max_dist := 100 },
              { pos := 5, size_factor := 1, task := 1, task_max_dist := 100 },
              { pos := 2, size_factor := 1, task := 2, task_max_dist := 100 }],
    begin_i := 1 }

/-! ## Passes of the frame loop and the control step -/

/-- The state and the cursor with which pass number `k` (counted from 0) of the frame loop of
lines 495-551 starts, when each of the `k` passes before it sent a packet; `none` when the loop
was left before (by the `break` of line 506 or the exception of line 526). -/
def frameLoopAt {ε ρ : Type} (X : CaptureExternals ε ρ) (capture_sampling_rate : Nat) :
    Nat → MicReadThread ε ρ → Nat → Option (MicReadThread ε ρ × Nat)
  | 0, st, cur_i => some (st, cur_i)
  | k + 1, st, cur_i =>
    match frameStep X capture_sampling_rate st cur_i with
    | FrameStep.next st2 cur_i2 => frameLoopAt X capture_sampling_rate k st2 cur_i2
    | _ => none

/-- Lines 360-379 of an iteration of the main loop, as in `mainIteration`: the messages that
other threads enqueued arrive, one message is polled, and the handshake is renewed when the
timer has elapsed. -/
def controlStep {ε ρ : Type} (capture_sampling_rate : Nat) (st : MicReadThread ε ρ)
    (enqueued : List ThreadMessage) (timer_elapsed : Bool) : MicReadThread ε ρ :=
  let st := { st with msg_queue := st.msg_queue ++ enqueued }
  let st := pollMessages st
  if timer_elapsed then
    { st with out_msg_queue := st.out_msg_queue ++
        [OutMessage.AudioStreamToServerStartedMessage (opusSamplingRate capture_sampling_rate) 1
          st.stream_id] }
  else st

/-! ## CaptureWorker: the WASAPI build of `doRun` (`_WIN32`, `USE_RT_AUDIO` 0) -/

theorem vectorResize_length {α : Type} (fill : α) (v : List α) (n : Nat) :
    (vectorResize fill v n).length = n := by
  simp only [vectorResize, List.length_append, List.length_take, List.length_replicate]
  omega

theorem memcpy_length (dst : List Nat) (off : Nat) (src : List Nat)
    (h : off + src.length ≤ dst.length) : (memcpy dst off src).length = dst.length := by
  simp only [memcpy, List.length_append, List.length_take, List.length_drop]
  omega

theorem u32Bytes_length (v : Nat) : (u32Bytes v).length = 4 := rfl

theorem readU32_u32Bytes (v : Nat) (h : v < 2 ^ 32) (rest : List Nat) :
    readU32 (u32Bytes v ++ rest) 0 = v := by
  simp only [readU32, u32Bytes, List.getD_eq_getElem?_getD]
  simp
  omega

theorem memcpy_at (a : List Nat) (rest src : List Nat) (off : Nat) (ha : a.length = off) :
    memcpy (a ++ rest) off src = a ++ src ++ rest.drop src.length := by
  subst ha
  simp [memcpy, List.take_append_eq_append_take, List.drop_append_eq_append_drop]

theorem writeHeader_eq (p0 : List Nat) (t u seq : Nat) :
    writeHeader p0 t u seq = u32Bytes t ++ u32Bytes u ++ u32Bytes seq ++ p0.drop 12 := by
  have h1 : memcpy p0 0 (u32Bytes t) = u32Bytes t ++ p0.drop 4 := by
    have := memcpy_at [] p0 (u32Bytes t) 0 rfl
    simpa using this
  have h2 : memcpy (u32Bytes t ++ p0.drop 4) 4 (u32Bytes u)
      = u32Bytes t ++ u32Bytes u ++ p0.drop 8 := by
    rw [memcpy_at (u32Bytes t) (p0.drop 4) _ 4 rfl]
    simp [u32Bytes_length]
  have h3 : memcpy (u32Bytes t ++ u32Bytes u ++ p0.drop 8) 8 (u32Bytes seq)
      = u32Bytes t ++ u32Bytes u ++ u32Bytes seq ++ p0.drop 12 := by
    rw [memcpy_at (u32Bytes t ++ u32Bytes u) (p0.drop 8) _ 8 rfl]
    simp [u32Bytes_length]
  unfold writeHeader
  simp only [h1, h2, h3]

theorem formPacket_eq (packet : List Nat) (uid seq : Nat) (enc : List Nat) (n : Nat)
    (hn : n ≤ enc.length) :
    formPacket packet uid seq enc n
      = u32Bytes 1 ++ u32Bytes (uid % 2 ^ 32) ++ u32Bytes seq ++ enc.take n := by
  have hlen := vectorResize_length 0 packet (4 * 3 + n)
  unfold formPacket
  simp only [writeHeader_eq]
  split
  · rw [memcpy_at (u32Bytes 1 ++ u32Bytes (uid % 2 ^ 32) ++ u32Bytes seq) _ _ (4 * 3) rfl]
    have : (List.drop 12 (vectorResize 0 packet (4 * 3 + n))).drop (enc.take n).length = [] := by
      apply List.drop_eq_nil_of_le
      simp only [List.length_drop, List.length_take, hlen]
      omega
    rw [this]; simp
  · have hn0 : n = 0 := by omega
    subst hn0
    have : List.drop 12 (vectorResize 0 packet (4 * 3 + 0)) = [] := by
      apply List.drop_eq_nil_of_le
      rw [hlen]
    rw [this]; simp

theorem readU32_append (a b : List Nat) (off : Nat) :
    readU32 (a ++ b) (a.length + off) = readU32 b off := by
  simp only [readU32, List.getD_eq_getElem?_getD]
  have h : ∀ k, (a ++ b)[a.length + off + k]? = b[off + k]? := by
    intro k
    rw [List.getElem?_append_right (by omega)]
    congr 1
    omega
  have h0 := h 0
  simp only [Nat.add_zero] at h0
  rw [h0, h 1, h 2, h 3]

theorem parseHeader_bytes (t u seq : Nat) (ht : t < 2 ^ 32) (hu : u < 2 ^ 32)
    (hs : seq < 2 ^ 32) (rest : List Nat) :
    parseHeader (u32Bytes t ++ u32Bytes u ++ u32Bytes seq ++ rest) = (t, u, seq) := by
  have e0 : readU32 (u32Bytes t ++ u32Bytes u ++ u32Bytes seq ++ rest) 0 = t := by
    rw [List.append_assoc, List.append_assoc]
    exact readU32_u32Bytes t ht _
  have e4 : readU32 (u32Bytes t ++ u32Bytes u ++ u32Bytes seq ++ rest) 4 = u := by
    have := readU32_append (u32Bytes t) (u32Bytes u ++ (u32Bytes seq ++ rest)) 0
    simp only [u32Bytes_length, Nat.add_zero] at this
    rw [List.append_assoc, List.append_assoc, this]
    exact readU32_u32Bytes u hu _
  have e8 : readU32 (u32Bytes t ++ u32Bytes u ++ u32Bytes seq ++ rest) 8 = seq := by
    have := readU32_append (u32Bytes t ++ u32Bytes u) (u32Bytes seq ++ rest) 0
    simp only [List.length_append, u32Bytes_length, Nat.add_zero] at this
    rw [List.append_assoc _ _ rest, this]
    exact readU32_u32Bytes seq hs _
  simp only [parseHeader, e0, e4, e8]

/-! ## Invariants of the capture loop -/

theorem emitFrames_invariant {ε ρ : Type} {X : CaptureExternals ε ρ} {rate : Nat}
    {P : MicReadThread ε ρ → Prop} (h : CaptureInvariant X rate P) :
    ∀ (fuel : Nat) (st : MicReadThread ε ρ) (cur_i : Nat), P st →
      P (emitFrames X rate fuel st cur_i).2.1 := by
  intro fuel
  induction fuel with
  | zero => intro st cur_i hP; simpa [emitFrames] using hP
  | succ fuel ih =>
    intro st cur_i hP
    have hf := h.frame st cur_i hP
    unfold emitFrames
    cases hfs : frameStep X rate st cur_i with
    | stop st2 => rw [hfs] at hf; simpa [FrameStep.state] using hf
    | threw st2 => rw [hfs] at hf; simpa [FrameStep.state] using hf
    | next st2 cur_i2 =>
      rw [hfs] at hf
      exact ih st2 cur_i2 (by simpa [FrameStep.state] using hf)

theorem emitAndCompact_invariant {ε ρ : Type} {X : CaptureExternals ε ρ} {rate : Nat}
    {P : MicReadThread ε ρ → Prop} (h : CaptureInvariant X rate P) (fuel : Nat)
    (st : MicReadThread ε ρ) (hP : P st) : P (emitAndCompact X rate fuel st).2 := by
  have h2 := emitFrames_invariant h fuel st 0 hP
  unfold emitAndCompact
  revert h2
  generalize emitFrames X rate fuel st 0 = res
  obtain ⟨ex, st3, c⟩ := res
  intro h2
  cases ex with
  | finished => exact h.compact st3 c h2
  | threw => exact h2
  | outOfFuel => exact h2

theorem drainPass_invariant {ε ρ : Type} {X : CaptureExternals ε ρ} {rate : Nat}
    {P : MicReadThread ε ρ → Prop} (h : CaptureInvariant X rate P) (fuel : Nat)
    (st : MicReadThread ε ρ) (callback_buffer : List ℚ) (hP : P st)
    (r : LoopExit × MicReadThread ε ρ)
    (hr : drainPass X rate fuel st callback_buffer = some r) : P r.2 := by
  unfold drainPass at hr
  by_cases he : callback_buffer.isEmpty = true
  · rw [if_pos he] at hr
    exact absurd hr (by simp)
  · rw [if_neg he] at hr
    by_cases hge : 0 ≤ framesToCopy st.pcm_buffer.length callback_buffer.length
    · simp only [ge_iff_le, hge, not_true_eq_false, if_false, Option.some.injEq] at hr
      subst hr
      exact emitAndCompact_invariant h fuel _ (h.append st callback_buffer hP hge)
    · simp only [ge_iff_le, hge, not_false_eq_true, if_true, Option.some.injEq] at hr
      subst hr
      exact hP

theorem innerLoop_invariant {ε ρ : Type} {X : CaptureExternals ε ρ} {rate : Nat}
    {P : MicReadThread ε ρ → Prop} (h : CaptureInvariant X rate P) (fuel : Nat)
    (deliveries : List (List ℚ)) :
    ∀ st : MicReadThread ε ρ, P st → P (innerLoop X rate fuel st deliveries).2 := by
  induction deliveries with
  | nil => intro st hP; simpa [innerLoop] using hP
  | cons cb rest ih =>
    intro st hP
    unfold innerLoop
    cases hd : drainPass X rate fuel st cb with
    | none => simpa using hP
    | some r =>
      obtain ⟨ex, st2⟩ := r
      have h2 : P st2 := drainPass_invariant h fuel st cb hP (ex, st2) hd
      cases ex with
      | finished => exact ih st2 h2
      | threw => exact h2
      | outOfFuel => exact h2

theorem pollMessages_invariant {ε ρ : Type} {X : CaptureExternals ε ρ} {rate : Nat}
    {P : MicReadThread ε ρ → Prop} (h : CaptureInvariant X rate P)
    (st : MicReadThread ε ρ) (hP : P st) : P (pollMessages st) := by
  unfold pollMessages
  cases hq : st.msg_queue with
  | nil => simpa using hP
  | cons msg rest =>
    cases msg with
    | InputVolumeScaleChangedMessage v =>
      exact h.control st rest v st.out_msg_queue hP
    | other =>
      exact h.control st rest st.input_vol_scale_factor st.out_msg_queue hP

theorem mainIteration_invariant {ε ρ : Type} {X : CaptureExternals ε ρ} {rate : Nat}
    {P : MicReadThread ε ρ → Prop} (h : CaptureInvariant X rate P) (fuel : Nat)
    (st : MicReadThread ε ρ) (inp : IterationInput) (hP : P st) :
    P (mainIteration X rate fuel st inp).2 := by
  unfold mainIteration
  apply innerLoop_invariant h
  have h1 : P { st with msg_queue := st.msg_queue ++ inp.enqueued } :=
    h.control st (st.msg_queue ++ inp.enqueued) st.input_vol_scale_factor st.out_msg_queue hP
  have h2 := pollMessages_invariant h _ h1
  split
  · exact h.control _ _ _ _ h2
  · exact h2

theorem mainLoop_invariant {ε ρ : Type} {X : CaptureExternals ε ρ} {rate : Nat}
    {P : MicReadThread ε ρ → Prop} (h : CaptureInvariant X rate P) (fuel : Nat)
    (inputs : List IterationInput) :
    ∀ st : MicReadThread ε ρ, P st → P (mainLoop X rate fuel st inputs).2 := by
  induction inputs with
  | nil => intro st hP; simpa [mainLoop] using hP
  | cons inp rest ih =>
    intro st hP
    unfold mainLoop
    have h2 := mainIteration_invariant h fuel st inp hP
    revert h2
    generalize mainIteration X rate fuel st inp = res
    obtain ⟨ex, st2⟩ := res
    intro h2
    cases ex with
    | finished => exact ih st2 h2
    | threw => exact h2
    | outOfFuel => exact h2

theorem frameStep_stop {ε ρ : Type} (X : CaptureExternals ε ρ) (rate : Nat)
    (st : MicReadThread ε ρ) (cur_i : Nat)
    (h : st.pcm_buffer.length - cur_i < captureSamplesForFrame X rate st) :
    frameStep X rate st cur_i = FrameStep.stop st := by
  simp [frameStep, h]

theorem frameStep_threw {ε ρ : Type} (X : CaptureExternals ε ρ) (rate : Nat)
    (st : MicReadThread ε ρ) (cur_i : Nat)
    (h : ¬ st.pcm_buffer.length - cur_i < captureSamplesForFrame X rate st)
    (he : (encodeResult X rate st cur_i).1 < 0) :
    frameStep X rate st cur_i = FrameStep.threw (afterEncode X rate st cur_i) := by
  simp [frameStep, h, he]

theorem frameStep_next {ε ρ : Type} (X : CaptureExternals ε ρ) (rate : Nat)
    (st : MicReadThread ε ρ) (cur_i : Nat)
    (h : ¬ st.pcm_buffer.length - cur_i < captureSamplesForFrame X rate st)
    (he : ¬ (encodeResult X rate st cur_i).1 < 0) :
    frameStep X rate st cur_i
      = FrameStep.next
          (sendFrame (afterEncode X rate st cur_i) (encodeResult X rate st cur_i).1.toNat)
          (cur_i + captureSamplesForFrame X rate st) := by
  simp [frameStep, h, he]

/-- The three ways a pass of the frame loop body can end. -/
theorem frameStep_cases {ε ρ : Type} (X : CaptureExternals ε ρ) (rate : Nat)
    (st : MicReadThread ε ρ) (cur_i : Nat) :
    (frameStep X rate st cur_i).state = st
      ∨ (frameStep X rate st cur_i).state = afterEncode X rate st cur_i
      ∨ (frameStep X rate st cur_i).state
          = sendFrame (afterEncode X rate st cur_i) (encodeResult X rate st cur_i).1.toNat := by
  by_cases h : st.pcm_buffer.length - cur_i < captureSamplesForFrame X rate st
  · left; rw [frameStep_stop X rate st cur_i h]; rfl
  · by_cases he : (encodeResult X rate st cur_i).1 < 0
    · right; left; rw [frameStep_threw X rate st cur_i h he]; rfl
    · right; right; rw [frameStep_next X rate st cur_i h he]; rfl

theorem formPacket_header (packet : List Nat) (uid seq : Nat) (enc : List Nat) (n : Nat) :
    ∃ rest, formPacket packet uid seq enc n
      = u32Bytes 1 ++ u32Bytes (uid % 2 ^ 32) ++ u32Bytes seq ++ rest := by
  unfold formPacket
  simp only [writeHeader_eq]
  split
  · rw [memcpy_at (u32Bytes 1 ++ u32Bytes (uid % 2 ^ 32) ++ u32Bytes seq) _ _ (4 * 3) rfl]
    exact ⟨_, by rw [List.append_assoc _ (List.take n enc)]⟩
  · exact ⟨_, rfl⟩

theorem formPacket_seq (packet : List Nat) (uid seq : Nat) (enc : List Nat) (n : Nat)
    (hs : seq < 2 ^ 32) : readU32 (formPacket packet uid seq enc n) 8 = seq := by
  obtain ⟨rest, hr⟩ := formPacket_header packet uid seq enc n
  rw [hr]
  have := parseHeader_bytes 1 (uid % 2 ^ 32) seq (by norm_num) (Nat.mod_lt _ (by norm_num)) hs rest
  simp only [parseHeader, Prod.mk.injEq] at this
  exact this.2.2

/-- The packet a pass of the frame loop sends when the encoder reports no error. -/
theorem frameStep_sends {ε ρ : Type} (X : CaptureExternals ε ρ) (rate : Nat)
    (st : MicReadThread ε ρ) (cur_i : Nat)
    (h : ¬ st.pcm_buffer.length - cur_i < captureSamplesForFrame X rate st)
    (he : 0 ≤ (encodeResult X rate st cur_i).1) :
    (frameStep X rate st cur_i).state.udp_sent
      = st.udp_sent ++ [formPacket st.packet st.client_avatar_uid st.seq_num
          (encodeResult X rate st cur_i).2.1 (encodeResult X rate st cur_i).1.toNat] := by
  rw [frameStep_next X rate st cur_i h (by omega)]
  rfl

/-! ## Packet format: C1, C2, C3 -/

/-- C1: header round trip.  For all 32-bit values `(packet_type, sender_avatar_id,
sequence_number)`, writing them at byte offsets 0, 4 and 8 the way the capture worker does
(`writeHeader`, into any packet buffer) and reading offsets 0, 4 and 8 the way the receive
worker does (`parseHeader`) gives the same triple back; in particular the header of a packet
formed by the capture worker parses to `(1, uid mod 2^32, seq_num)`. -/
theorem C1_header_round_trip (packet : List Nat)
    (packet_type sender_avatar_id sequence_number : Nat)
    (ht : packet_type < 2 ^ 32) (hu : sender_avatar_id < 2 ^ 32)
    (hs : sequence_number < 2 ^ 32) :
    parseHeader (writeHeader packet packet_type sender_avatar_id sequence_number)
        = (packet_type, sender_avatar_id, sequence_number)
      ∧ ∀ (client_avatar_uid : Nat) (encoded_data : List Nat) (encoded_B : Nat),
          encoded_B ≤ encoded_data.length →
          parseHeader (formPacket packet client_avatar_uid sequence_number encoded_data encoded_B)
            = (1, client_avatar_uid % 2 ^ 32, sequence_number) := by
  constructor
  · rw [writeHeader_eq]
    exact parseHeader_bytes _ _ _ ht hu hs _
  · intro uid data n hn
    rw [formPacket_eq _ _ _ _ _ hn]
    exact parseHeader_bytes _ _ _ (by norm_num) (Nat.mod_lt _ (by norm_num)) hs _

/-- Witness for C1: the triple `(1, 4000000000, 4294967295)` written into an empty packet
buffer, and the header of a packet formed for UID `2^32 + 7`. -/
theorem C1_header_round_trip_witness :
    parseHeader (writeHeader [] 1 4000000000 4294967295) = (1, 4000000000, 4294967295)
      ∧ parseHeader (formPacket [] (2 ^ 32 + 7) 4294967295 [11, 22, 33] 3)
          = (1, 7, 4294967295) := by
  have h := C1_header_round_trip [] 1 4000000000 4294967295 (by norm_num) (by norm_num)
    (by norm_num)
  exact ⟨h.1, h.2 (2 ^ 32 + 7) [11, 22, 33] 3 (by decide)⟩

/-- C2: packet layout.  For every avatar UID `u`, sequence number `s` and encoder output of
`n ≥ 0` bytes (the first `n` bytes of `encoded_data`), whatever the packet vector held before,
the packet formed has length `12 + n`; bytes 0..3 are `1, 0, 0, 0` (little-endian 1), bytes 4..7
the little-endian bytes of `u mod 2^32`, bytes 8..11 the little-endian bytes of `s`, and the
bytes from 12 on are exactly the `n` encoded bytes. -/
theorem C2_packet_layout (packet : List Nat) (u s : Nat) (encoded_data : List Nat) (n : Nat)
    (hn : n ≤ encoded_data.length) :
    (formPacket packet u s encoded_data n).length = 12 + n
      ∧ (formPacket packet u s encoded_data n).take 4 = [1, 0, 0, 0]
      ∧ ((formPacket packet u s encoded_data n).drop 4).take 4
          = [u % 2 ^ 32 % 256, u % 2 ^ 32 / 256 % 256, u % 2 ^ 32 / 256 ^ 2 % 256,
             u % 2 ^ 32 / 256 ^ 3 % 256]
      ∧ ((formPacket packet u s encoded_data n).drop 8).take 4
          = [s % 256, s / 256 % 256, s / 256 ^ 2 % 256, s / 256 ^ 3 % 256]
      ∧ (formPacket packet u s encoded_data n).drop 12 = encoded_data.take n := by
  rw [formPacket_eq _ _ _ _ _ hn]
  refine ⟨?_, ?_, ?_, ?_, ?_⟩
  · simp [u32Bytes]
    omega
  · simp [u32Bytes]
  · simp [u32Bytes]
  · simp [u32Bytes]
  · simp [u32Bytes]

/-- Witness for C2: UID `2^32 + 258`, sequence number 513, three encoded bytes, and a packet
vector that still holds an older, longer packet. -/
theorem C2_packet_layout_witness :
    (formPacket [9, 9, 9, 9, 9, 9, 9, 9, 9, 9, 9, 9, 9, 9, 9, 9, 9, 9] (2 ^ 32 + 258) 513
        [11, 22, 33, 44] 3).length = 12 + 3
      ∧ (formPacket [9, 9, 9, 9, 9, 9, 9, 9, 9, 9, 9, 9, 9, 9, 9, 9, 9, 9] (2 ^ 32 + 258) 513
        [11, 22, 33, 44] 3).drop 12 = [11, 22, 33] := by
  have h := C2_packet_layout [9, 9, 9, 9, 9, 9, 9, 9, 9, 9, 9, 9, 9, 9, 9, 9, 9, 9]
    (2 ^ 32 + 258) 513 [11, 22, 33, 44] 3 (by decide)
  exact ⟨h.1, h.2.2.2.2⟩

/-- C3, as stated, fails: the encoder result 0 is not an error (only negative results are), and
for it the worker sends a packet of 12 bytes, the header alone, so the payload length is 0.
Here one 10 ms frame of silence is drained with an encoder that reports 0 bytes. -/
theorem C3_counterexample_empty_payload :
    (mainLoop (constEncoder 0) 48000 2 exampleMic [oneDelivery (List.replicate 480 0)]).2.udp_sent
        = [[1, 0, 0, 0, 7, 0, 0, 0, 0, 0, 0, 0]]
      ∧ (mainLoop (constEncoder 0) 48000 2 exampleMic
          [oneDelivery (List.replicate 480 0)]).2.udp_sent.map (fun p => (p.drop 12).length)
        = [0] := by
  decide

/-- C3, amended: whenever a pass of the frame loop has a frame to encode and the encoder
reports a non-error result `encoded_B ≥ 0` (that fits its output buffer), exactly one packet is
sent; its header is 12 bytes long and its payload is `encoded_B` bytes long, so the payload
length is positive exactly when `encoded_B` is positive. -/
theorem C3_emitted_packet_sizes {ε ρ : Type} (X : CaptureExternals ε ρ) (rate : Nat)
    (st : MicReadThread ε ρ) (cur_i : Nat)
    (hroom : ¬ st.pcm_buffer.length - cur_i < captureSamplesForFrame X rate st)
    (hok : 0 ≤ (encodeResult X rate st cur_i).1)
    (hfit : (encodeResult X rate st cur_i).1.toNat ≤ (encodeResult X rate st cur_i).2.1.length) :
    ∃ p, (frameStep X rate st cur_i).state.udp_sent = st.udp_sent ++ [p]
      ∧ (p.take 12).length = 12
      ∧ ((p.drop 12).length : Int) = (encodeResult X rate st cur_i).1
      ∧ (0 < (p.drop 12).length ↔ 0 < (encodeResult X rate st cur_i).1) := by
  rw [frameStep_next X rate st cur_i hroom (by omega)]
  refine ⟨_, rfl, ?_, ?_, ?_⟩
  · have h := formPacket_eq (afterEncode X rate st cur_i).packet
      (afterEncode X rate st cur_i).client_avatar_uid (afterEncode X rate st cur_i).seq_num
      (afterEncode X rate st cur_i).encoded_data _ hfit
    rw [h]
    simp only [List.length_take, List.length_append, u32Bytes_length]
    omega
  · have h := formPacket_eq (afterEncode X rate st cur_i).packet
      (afterEncode X rate st cur_i).client_avatar_uid (afterEncode X rate st cur_i).seq_num
      (afterEncode X rate st cur_i).encoded_data _ hfit
    rw [h]
    simp only [List.length_drop, List.length_append, u32Bytes_length, List.length_take]
    have : (afterEncode X rate st cur_i).encoded_data = (encodeResult X rate st cur_i).2.1 := rfl
    rw [this]
    omega
  · have h := formPacket_eq (afterEncode X rate st cur_i).packet
      (afterEncode X rate st cur_i).client_avatar_uid (afterEncode X rate st cur_i).seq_num
      (afterEncode X rate st cur_i).encoded_data _ hfit
    rw [h]
    simp only [List.length_drop, List.length_append, u32Bytes_length, List.length_take]
    have : (afterEncode X rate st cur_i).encoded_data = (encodeResult X rate st cur_i).2.1 := rfl
    rw [this]
    omega

/-- Witness for C3 (amended): with an encoder that reports 3 bytes, the one packet sent for the
pending frame is 15 bytes long. -/
theorem C3_emitted_packet_sizes_witness :
    (frameStep (constEncoder 3) 48000 exampleMicWithFrame 0).state.udp_sent.map List.length
      = [15] := by
  obtain ⟨p, h1, h2, h3, _⟩ := C3_emitted_packet_sizes (constEncoder 3) 48000
    exampleMicWithFrame 0 (by decide) (by decide)
    (by
      show (3 : Int).toNat ≤ (List.replicate 100000 (0 : Nat)).length
      rw [List.length_replicate]
      decide)
  have e : (encodeResult (constEncoder 3) 48000 exampleMicWithFrame 0).1 = 3 := rfl
  rw [e] at h3
  rw [h1]
  simp only [List.length_take, List.length_drop] at h2 h3
  have hp : p.length = 15 := by omega
  have e0 : exampleMicWithFrame.udp_sent = [] := rfl
  rw [e0]
  simp [hp]

/-! ## Sequence numbers: C4 -/

theorem seqCounts_invariant {ε ρ : Type} (X : CaptureExternals ε ρ) (rate : Nat) :
    CaptureInvariant X rate (SeqCounts : MicReadThread ε ρ → Prop) where
  frame := by
    intro st cur_i hP
    rcases frameStep_cases X rate st cur_i with h | h | h
    · rw [h]; exact hP
    · rw [h]; exact hP
    · rw [h]
      obtain ⟨h1, h2⟩ := hP
      have e1 : (afterEncode X rate st cur_i).seq_num = st.seq_num := rfl
      have e2 : (afterEncode X rate st cur_i).udp_sent = st.udp_sent := rfl
      have hlt : st.seq_num < 2 ^ 32 := by
        rw [h1]; exact Nat.mod_lt _ (by norm_num)
      refine ⟨?_, ?_⟩
      · simp only [sendFrame, e1, e2, List.length_append, List.length_singleton, h1]
        omega
      · simp only [sendFrame, e1, e2, List.length_append, List.length_singleton,
          List.map_append, List.map_cons, List.map_nil, List.range_succ, h2]
        rw [formPacket_seq _ _ _ _ _ hlt, h1]
  append := by
    intro st cb hP _
    exact hP
  compact := by
    intro st c hP
    exact hP
  control := by
    intro st q g out hP
    exact hP

/-- C4: sequence numbers.  From the state at loop entry (`seq_num = 0`, nothing sent), after any
number of main-loop iterations with any control messages, timer ticks and device deliveries, the
sequence number carried at offset 8 by the `k`-th packet sent (`k = 0, 1, 2, ...`) is
`k mod 2^32`, and `seq_num` equals the number of packets sent mod 2^32; and a pass of the frame
loop whose encode fails throws without sending a packet and without advancing `seq_num`. -/
theorem C4_sequence_numbers {ε ρ : Type} (X : CaptureExternals ε ρ) (rate fuel : Nat)
    (opus_encoder : ε) (resampler : ρ) (vol lvl : ℚ) (uid sid : Nat)
    (q : List ThreadMessage) (out : List OutMessage) (inputs : List IterationInput) :
    (mainLoop X rate fuel (loopEntryState opus_encoder resampler vol lvl uid sid q out)
        inputs).2.udp_sent.map (fun p => readU32 p 8)
      = (List.range (mainLoop X rate fuel
          (loopEntryState opus_encoder resampler vol lvl uid sid q out)
          inputs).2.udp_sent.length).map (fun k => k % 2 ^ 32)
    ∧ (mainLoop X rate fuel (loopEntryState opus_encoder resampler vol lvl uid sid q out)
        inputs).2.seq_num
      = (mainLoop X rate fuel (loopEntryState opus_encoder resampler vol lvl uid sid q out)
          inputs).2.udp_sent.length % 2 ^ 32
    ∧ ∀ (st : MicReadThread ε ρ) (cur_i : Nat),
        ¬ st.pcm_buffer.length - cur_i < captureSamplesForFrame X rate st →
        (encodeResult X rate st cur_i).1 < 0 →
        frameStep X rate st cur_i = FrameStep.threw (afterEncode X rate st cur_i)
          ∧ (afterEncode X rate st cur_i).seq_num = st.seq_num
          ∧ (afterEncode X rate st cur_i).udp_sent = st.udp_sent := by
  have h0 : SeqCounts (loopEntryState opus_encoder resampler vol lvl uid sid q out) := by
    exact ⟨rfl, rfl⟩
  have h := mainLoop_invariant (seqCounts_invariant X rate) fuel inputs _ h0
  refine ⟨h.2, h.1, ?_⟩
  intro st cur_i hroom herr
  exact ⟨frameStep_threw X rate st cur_i hroom herr, rfl, rfl⟩

/-- Witness for C4: three frames of silence drained in two iterations give packets numbered
0, 1, 2; and with a failing encoder the pending frame is dropped with `seq_num` unchanged. -/
theorem C4_sequence_numbers_witness :
    (mainLoop (constEncoder 2) 48000 5 exampleMic
        [oneDelivery (List.replicate 960 0), oneDelivery (List.replicate 480 0)]).2.udp_sent.map
        (fun p => readU32 p 8) = [0, 1, 2]
      ∧ (afterEncode (constEncoder (-1)) 48000 exampleMicWithFrame 0).seq_num = 0 := by
  have h := C4_sequence_numbers (constEncoder 2) 48000 5 () () 1 0 7 99 [] []
    [oneDelivery (List.replicate 960 0), oneDelivery (List.replicate 480 0)]
  have h2 := C4_sequence_numbers (constEncoder (-1)) 48000 5 () () 1 0 7 99 [] [] []
  have hlen : (mainLoop (constEncoder 2) 48000 5 exampleMic
      [oneDelivery (List.replicate 960 0), oneDelivery (List.replicate 480 0)]).2.udp_sent.length
      = 3 := by decide
  refine ⟨?_, ?_⟩
  · have h1 := h.1
    rw [show loopEntryState () () 1 0 7 99 [] [] = exampleMic from rfl, hlen] at h1
    rw [h1]
    decide
  · exact (h2.2.2 exampleMicWithFrame 0 (by decide) (by decide)).2.1

/-! ## Codec rate: C5 -/

theorem opusSamplingRate_of_mem (r : Nat)
    (h : r = 8000 ∨ r = 12000 ∨ r = 16000 ∨ r = 24000 ∨ r = 48000) :
    opusSamplingRate r = r := by
  unfold opusSamplingRate
  rw [if_neg (not_not.mpr h)]

theorem opusSamplingRate_of_not_mem (r : Nat)
    (h : ¬ (r = 8000 ∨ r = 12000 ∨ r = 16000 ∨ r = 24000 ∨ r = 48000)) :
    opusSamplingRate r = 48000 := by
  unfold opusSamplingRate
  rw [if_pos h]

/-- C5: codec rate selection.  For every capture rate `r` the codec rate is one of 8000, 12000,
16000, 24000, 48000; it is `r` when `r` is one of these and 48000 otherwise (44100 gives 48000);
resampling is used exactly when `r` is not one of them (then the encoder is handed the
resampler output, else the pending samples at the cursor); and the frame size is the codec rate
divided by 100. -/
theorem C5_codec_rate_selection (r : Nat) :
    (opusSamplingRate r = 8000 ∨ opusSamplingRate r = 12000 ∨ opusSamplingRate r = 16000
        ∨ opusSamplingRate r = 24000 ∨ opusSamplingRate r = 48000)
      ∧ (if r = 8000 ∨ r = 12000 ∨ r = 16000 ∨ r = 24000 ∨ r = 48000
          then opusSamplingRate r = r else opusSamplingRate r = 48000)
      ∧ opusSamplingRate 44100 = 48000
      ∧ (resampleNeeded r = true
          ↔ ¬ (r = 8000 ∨ r = 12000 ∨ r = 16000 ∨ r = 24000 ∨ r = 48000))
      ∧ opusSamplesPerFrame r = opusSamplingRate r / 100
      ∧ (∀ {ε ρ : Type} (X : CaptureExternals ε ρ) (st : MicReadThread ε ρ) (cur_i : Nat),
          encoderFrame X r st cur_i
            = if resampleNeeded r = true then
                ((X.resample st.resampler (opusSamplesPerFrame r)
                    ((st.pcm_buffer.drop cur_i).take (captureSamplesForFrame X r st))).1.take
                    (opusSamplesPerFrame r),
                  (X.resample st.resampler (opusSamplesPerFrame r)
                    ((st.pcm_buffer.drop cur_i).take (captureSamplesForFrame X r st))).2)
              else ((st.pcm_buffer.drop cur_i).take (opusSamplesPerFrame r), st.resampler)) := by
  refine ⟨?_, ?_, by decide, ?_, rfl, ?_⟩
  · by_cases h : r = 8000 ∨ r = 12000 ∨ r = 16000 ∨ r = 24000 ∨ r = 48000
    · rw [opusSamplingRate_of_mem r h]; exact h
    · rw [opusSamplingRate_of_not_mem r h]; simp
  · by_cases h : r = 8000 ∨ r = 12000 ∨ r = 16000 ∨ r = 24000 ∨ r = 48000
    · rw [if_pos h]; exact opusSamplingRate_of_mem r h
    · rw [if_neg h]; exact opusSamplingRate_of_not_mem r h
  · unfold resampleNeeded
    simp only [bne_iff_ne, ne_eq]
    by_cases h : r = 8000 ∨ r = 12000 ∨ r = 16000 ∨ r = 24000 ∨ r = 48000
    · rw [opusSamplingRate_of_mem r h]; simp [h]
    · rw [opusSamplingRate_of_not_mem r h]
      constructor
      · intro _; exact h
      · intro _ h2; exact h (Or.inr (Or.inr (Or.inr (Or.inr h2.symm))))
  · intro ε ρ X st cur_i
    unfold encoderFrame resampleNeeded
    simp only [bne_iff_ne, ne_eq]

/-- Witness for C5 at the capture rates 44100 (resampled to 48000, 480-sample frames) and
16000 (kept, 160-sample frames). -/
theorem C5_codec_rate_selection_witness :
    opusSamplingRate 44100 = 48000 ∧ opusSamplesPerFrame 44100 = 480
      ∧ resampleNeeded 44100 = true
      ∧ opusSamplingRate 16000 = 16000 ∧ opusSamplesPerFrame 16000 = 160
      ∧ resampleNeeded 16000 = false := by
  have h1 := C5_codec_rate_selection 44100
  have h2 := C5_codec_rate_selection 16000
  refine ⟨h1.2.2.1, by rw [h1.2.2.2.2.1, h1.2.2.1], h1.2.2.2.1.mpr (by decide), ?_, ?_, ?_⟩
  · simpa using h2.2.1
  · rw [h2.2.2.2.2.1]
    have : opusSamplingRate 16000 = 16000 := by simpa using h2.2.1
    rw [this]
  · have := h2.2.2.2.1
    simpa using this

/-! ## Pending buffer bound: C6 -/

theorem toInt32_of_lt (n : Nat) (h : n < 2 ^ 31) : toInt32 n = (n : Int) := by
  unfold toInt32
  have h1 : n % 2 ^ 32 = n := Nat.mod_eq_of_lt (by omega)
  rw [h1, if_pos h]

theorem framesToCopy_of_small (len avail : Nat) (hlen : len ≤ 48000) (havail : avail < 2 ^ 31) :
    framesToCopy len avail = min ((48000 : Int) - len) avail := by
  unfold framesToCopy myMin max_pcm_buffer_size
  rw [toInt32_of_lt 48000 (by norm_num), toInt32_of_lt len (by omega), toInt32_of_lt avail havail]
  rfl

theorem framesToCopy_le (len avail : Nat) (hlen : len ≤ 48000) :
    framesToCopy len avail ≤ (48000 : Int) - len := by
  unfold framesToCopy myMin max_pcm_buffer_size
  rw [toInt32_of_lt 48000 (by norm_num), toInt32_of_lt len (by omega)]
  exact min_le_left _ _

theorem appendCaptured_length (pcm cb : List ℚ) (n : Nat) :
    (appendCaptured pcm cb n).length = pcm.length + n := by
  simp [appendCaptured]

theorem applyGain_length (g : ℚ) (pcm : List ℚ) (w : Nat) :
    (applyGain g pcm w).length = pcm.length := by
  simp only [applyGain, List.length_append, List.length_take, List.length_map, List.length_drop]
  omega

theorem appendAndGain_length {ε ρ : Type} (st : MicReadThread ε ρ) (cb : List ℚ) (n : Nat) :
    (appendAndGain st cb n).pcm_buffer.length = st.pcm_buffer.length + n := by
  simp only [appendAndGain, applyGain_length, appendCaptured_length]

theorem frameStep_pcm_buffer {ε ρ : Type} (X : CaptureExternals ε ρ) (rate : Nat)
    (st : MicReadThread ε ρ) (cur_i : Nat) :
    (frameStep X rate st cur_i).state.pcm_buffer = st.pcm_buffer := by
  rcases frameStep_cases X rate st cur_i with h | h | h <;> rw [h] <;> rfl

theorem pendingBound_invariant {ε ρ : Type} (X : CaptureExternals ε ρ) (rate : Nat) :
    CaptureInvariant X rate
      (fun st : MicReadThread ε ρ => st.pcm_buffer.length ≤ max_pcm_buffer_size) where
  frame := by
    intro st cur_i hP
    rw [frameStep_pcm_buffer]
    exact hP
  append := by
    intro st cb hP hge
    have hP2 : st.pcm_buffer.length ≤ 48000 := hP
    have hle := framesToCopy_le st.pcm_buffer.length cb.length hP2
    show (appendAndGain st cb _).pcm_buffer.length ≤ 48000
    rw [appendAndGain_length]
    omega
  compact := by
    intro st c hP
    have hP2 : st.pcm_buffer.length ≤ 48000 := hP
    show (st.pcm_buffer.drop c).length ≤ 48000
    rw [List.length_drop]
    omega
  control := by
    intro st q g out hP
    exact hP

theorem drainPass_runtimeCheck_fails {ε ρ : Type} (X : CaptureExternals ε ρ)
    (rate fuel : Nat) (st : MicReadThread ε ρ) (cb : List ℚ) (hne : cb.isEmpty = false)
    (hneg : framesToCopy st.pcm_buffer.length cb.length < 0) :
    drainPass X rate fuel st cb = some (LoopExit.threw, st) := by
  unfold drainPass
  rw [hne]
  simp only [Bool.false_eq_true, if_false, ge_iff_le]
  rw [if_pos (by omega)]

/-- C6, as stated, fails in its last part: the counts are narrowed to `int` before the minimum
is taken, so for a backlog of 2^31 samples in `callback_buffer` the number of samples to copy is
`min(48000, -2^31) = -2^31 < 0`, and the runtime check of line 461 fails (the pass throws). -/
theorem C6_counterexample_negative_copy_count :
    framesToCopy 0 (2 ^ 31) = -2147483648
      ∧ drainPass (constEncoder 1) 48000 1 exampleMic (List.replicate (2 ^ 31) 0)
          = some (LoopExit.threw, exampleMic) := by
  have h1 : framesToCopy 0 (2 ^ 31) = -2147483648 := by decide
  refine ⟨h1, ?_⟩
  apply drainPass_runtimeCheck_fails
  · rw [List.isEmpty_replicate]
    decide
  · have e : exampleMic.pcm_buffer = [] := rfl
    rw [e, List.length_replicate, List.length_nil, h1]
    decide

/-- C6, amended: from the empty pending buffer at loop entry, after any number of main-loop
iterations with device deliveries of any sizes the pending buffer holds at most 48000 samples
(after every drain, whether the frame loop ran to its end or not); the append step of a drain
keeps the bound (after every append); and when the buffer holds at most 48000 samples and the
backlog `available` is below 2^31, the number of samples to copy is
`min(48000 - len, available)` and is not negative, so the runtime check passes, and the size the
buffer is resized to (lines 409 and 462) is at most 48000. -/
theorem C6_pending_buffer_bound {ε ρ : Type} (X : CaptureExternals ε ρ) (rate fuel : Nat)
    (opus_encoder : ε) (resampler : ρ) (vol lvl : ℚ) (uid sid : Nat)
    (q : List ThreadMessage) (out : List OutMessage) (inputs : List IterationInput) :
    (mainLoop X rate fuel (loopEntryState opus_encoder resampler vol lvl uid sid q out)
        inputs).2.pcm_buffer.length ≤ 48000
      ∧ (∀ (st : MicReadThread ε ρ) (callback_buffer : List ℚ),
          st.pcm_buffer.length ≤ 48000 →
          0 ≤ framesToCopy st.pcm_buffer.length callback_buffer.length →
          (appendAndGain st callback_buffer
            (framesToCopy st.pcm_buffer.length callback_buffer.length).toNat).pcm_buffer.length
              ≤ 48000)
      ∧ (∀ len available : Nat, len ≤ 48000 → available < 2 ^ 31 →
          framesToCopy len available = min ((48000 : Int) - len) available
            ∧ 0 ≤ framesToCopy len available
            ∧ resizedSize len (framesToCopy len available) ≤ 48000) := by
  refine ⟨?_, ?_, ?_⟩
  · exact mainLoop_invariant (pendingBound_invariant X rate) fuel inputs _
      (by show ([] : List ℚ).length ≤ 48000; simp)
  · intro st cb hP hge
    exact (pendingBound_invariant X rate).append st cb hP hge
  · intro len avail hlen havail
    have h := framesToCopy_of_small len avail hlen havail
    refine ⟨h, ?_, ?_⟩
    · rw [h]
      omega
    · unfold resizedSize
      rw [h]
      omega

/-- Witness for C6 (amended): a delivery of 50000 samples into a buffer holding 100 pending
samples copies 47900 of them. -/
theorem C6_pending_buffer_bound_witness :
    framesToCopy 100 50000 = min ((48000 : Int) - (100 : Nat)) (50000 : Nat)
      ∧ 0 ≤ framesToCopy 100 50000
      ∧ resizedSize 100 (framesToCopy 100 50000) ≤ 48000 :=
  (C6_pending_buffer_bound (constEncoder 1) 48000 1 () () 1 0 7 99 [] [] []).2.2 100 50000
    (by decide) (by decide)

/-! ## Gain and clamp: C7 -/

theorem myClamp_inUnit (x : ℚ) : -1 ≤ myClamp x (-1) 1 ∧ myClamp x (-1) 1 ≤ 1 := by
  unfold myClamp
  constructor
  · exact le_max_left _ _
  · exact max_le (by norm_num) (min_le_left _ _)

theorem applyGain_drop (g : ℚ) (pcm : List ℚ) (w : Nat) :
    (applyGain g pcm w).drop w = (pcm.drop w).map (fun x => myClamp (x * g) (-1) 1) := by
  unfold applyGain
  by_cases h : w ≤ pcm.length
  · rw [List.drop_append_eq_append_drop]
    simp [List.length_take, Nat.min_eq_left h]
  · have h1 : pcm.drop w = [] := List.drop_eq_nil_of_le (by omega)
    rw [h1]
    simp only [List.map_nil, List.append_nil]
    exact List.drop_eq_nil_of_le (by rw [List.length_take]; omega)

theorem applyGain_append (g : ℚ) (old new : List ℚ) :
    applyGain g (old ++ new) old.length
      = old ++ new.map (fun x => myClamp (x * g) (-1) 1) := by
  simp [applyGain]

theorem inUnit_map_clamp (g : ℚ) (xs : List ℚ) :
    InUnit (xs.map (fun x => myClamp (x * g) (-1) 1)) := by
  intro x hx
  obtain ⟨y, _, rfl⟩ := List.mem_map.mp hx
  exact myClamp_inUnit _

theorem clamped_invariant {ε ρ : Type} (X : CaptureExternals ε ρ) (rate : Nat) :
    CaptureInvariant X rate (Clamped rate : MicReadThread ε ρ → Prop) where
  frame := by
    intro st cur_i hP
    have hafter : Clamped rate (afterEncode X rate st cur_i) := by
      refine ⟨hP.1, ?_⟩
      intro hrate f hf
      have hf2 : f ∈ st.encoder_input ++ [(encoderFrame X rate st cur_i).1] := hf
      rcases List.mem_append.mp hf2 with h | h
      · exact hP.2 hrate f h
      · have e : f = (encoderFrame X rate st cur_i).1 := by simpa using h
        rw [e]
        unfold encoderFrame
        rw [if_neg (not_not.mpr hrate)]
        intro x hx
        exact hP.1 x (List.mem_of_mem_drop (List.mem_of_mem_take hx))
    rcases frameStep_cases X rate st cur_i with h | h | h
    · rw [h]; exact hP
    · rw [h]; exact hafter
    · rw [h]; exact hafter
  append := by
    intro st cb hP _
    refine ⟨?_, hP.2⟩
    show InUnit (applyGain st.input_vol_scale_factor (appendCaptured st.pcm_buffer cb _)
      st.pcm_buffer.length)
    unfold appendCaptured
    rw [applyGain_append]
    intro x hx
    rcases List.mem_append.mp hx with h | h
    · exact hP.1 x h
    · exact inUnit_map_clamp _ _ x h
  compact := by
    intro st c hP
    exact ⟨fun x hx => hP.1 x (List.mem_of_mem_drop hx), hP.2⟩
  control := by
    intro st q g out hP
    exact hP

/-- C7, as stated, fails in its last part: when the capture rate is not a codec rate the frame
handed to the encoder is the output of the resampler, which is not clamped.  Here the capture
rate is 44100, the gain is 1, the delivered samples `-1, 1, 1, -1, 0, 0, ...` lie in `[-1, 1]`,
and the first sample of the frame handed to the encoder is `5/4`. -/
theorem C7_counterexample_resampled_frame :
    (mainLoop cubicResampler 44100 2 exampleMic
        [oneDelivery ([-1, 1, 1, -1] ++ List.replicate 479 0)]).2.encoder_input.map
          (fun f => f.head?) = [some (5 / 4)]
      ∧ ¬ AllInUnit (mainLoop cubicResampler 44100 2 exampleMic
          [oneDelivery ([-1, 1, 1, -1] ++ List.replicate 479 0)]).2.encoder_input := by
  have h : (mainLoop cubicResampler 44100 2 exampleMic
        [oneDelivery ([-1, 1, 1, -1] ++ List.replicate 479 0)]).2.encoder_input.map
          (fun f => f.head?) = [some (5 / 4)] := by
    with_unfolding_all rfl
  refine ⟨h, ?_⟩
  intro hall
  revert h hall
  generalize (mainLoop cubicResampler 44100 2 exampleMic
        [oneDelivery ([-1, 1, 1, -1] ++ List.replicate 479 0)]).2.encoder_input = fs
  intro h hall
  match fs, h, hall with
  | [], h, _ => simp at h
  | f :: rest, h, hall =>
    have hf : f.head? = some (5 / 4) := by
      simp only [List.map_cons, List.cons.injEq] at h
      exact h.1
    have hm : (5 / 4 : ℚ) ∈ f := List.mem_of_mem_head? hf
    have hb := hall f (List.mem_cons_self _ _) _ hm
    norm_num at hb

/-- C7, amended: for every gain value and every input sample, each sample written by the gain
step (from `write_index` on) lies in `[-1, 1]`; hence, from loop entry on, every pending sample
lies in `[-1, 1]` after any number of iterations, with any gains and deliveries; and when the
capture rate is a codec rate (no resampling) every sample of every frame handed to the encoder
lies in `[-1, 1]`. -/
theorem C7_gain_clamp {ε ρ : Type} (X : CaptureExternals ε ρ) (rate fuel : Nat)
    (opus_encoder : ε) (resampler : ρ) (vol lvl : ℚ) (uid sid : Nat)
    (q : List ThreadMessage) (out : List OutMessage) (inputs : List IterationInput) :
    (∀ (g : ℚ) (pcm_buffer : List ℚ) (write_index : Nat),
        InUnit ((applyGain g pcm_buffer write_index).drop write_index))
      ∧ InUnit (mainLoop X rate fuel
          (loopEntryState opus_encoder resampler vol lvl uid sid q out) inputs).2.pcm_buffer
      ∧ (resampleNeeded rate = false →
          AllInUnit (mainLoop X rate fuel
              (loopEntryState opus_encoder resampler vol lvl uid sid q out)
              inputs).2.encoder_input) := by
  have h0 : Clamped rate (loopEntryState opus_encoder resampler vol lvl uid sid q out) := by
    constructor
    · intro x hx
      exact absurd hx (List.not_mem_nil x)
    · intro _ f hf
      exact absurd hf (List.not_mem_nil f)
  have h := mainLoop_invariant (clamped_invariant X rate) fuel inputs _ h0
  refine ⟨?_, h.1, ?_⟩
  · intro g pcm w
    rw [applyGain_drop]
    exact inUnit_map_clamp _ _
  · intro hr
    apply h.2
    unfold resampleNeeded at hr
    simpa using hr

/-- Witness for C7 (amended): gain 1000 applied to the samples `1/2, -3, 0`, and a run at
48 kHz (no resampling) in which a `VolumeChanged(1000)` message precedes a delivery. -/
theorem C7_gain_clamp_witness :
    InUnit ((applyGain 1000 [1 / 2, -3, 0] 0).drop 0)
      ∧ AllInUnit (mainLoop (constEncoder 1) 48000 3 exampleMic
          [{ enqueued := [ThreadMessage.InputVolumeScaleChangedMessage 1000],
             timer_elapsed := false,
             deliveries := [List.replicate 480 (1 / 2)] }]).2.encoder_input := by
  have h := C7_gain_clamp (constEncoder 1) 48000 3 () () 1 0 7 99 [] []
    [{ enqueued := [ThreadMessage.InputVolumeScaleChangedMessage 1000],
       timer_elapsed := false,
       deliveries := [List.replicate 480 (1 / 2)] }]
  exact ⟨h.1 1000 [1 / 2, -3, 0] 0, h.2.2 (by decide)⟩

/-! ## Receive worker, packet handling: C8, C9, C10 -/

theorem handlePacket_voice {δ : Type} (D : ReceiveExternals δ) (server : Nat)
    (st : ClientUDPHandlerThread δ) (sender : Nat) (packet_buf : List Nat) (packet_len : Nat)
    (stream_info : AvatarVoiceStreamInfo δ)
    (hsender : sender = server) (hlen : 12 ≤ packet_len) (htype : readU32 packet_buf 0 = 1)
    (hentry : st.avatar_stream_info (readU32 packet_buf 4) = some stream_info) :
    handlePacket D server st sender packet_buf packet_len
      = handleVoicePacket D st (readU32 packet_buf 4) stream_info packet_buf packet_len := by
  unfold handlePacket
  rw [if_pos hsender, if_pos (by omega : packet_len ≥ 4)]
  simp only [htype, if_true, ge_iff_le, hlen, hentry]

theorem handleVoicePacket_stale {δ : Type} (D : ReceiveExternals δ)
    (st : ClientUDPHandlerThread δ) (avatar_id : Nat) (stream_info : AvatarVoiceStreamInfo δ)
    (packet_buf : List Nat) (packet_len : Nat)
    (hstale : readU32 packet_buf 8 < stream_info.next_seq_num_expected) :
    handleVoicePacket D st avatar_id stream_info packet_buf packet_len = st := by
  unfold handleVoicePacket
  rw [if_pos hstale]

/-- The state after a voice packet that passed the sequence check and was decoded to the
expected number of samples: the frame is appended to the source and `next_seq_num_expected` is
incremented by one (mod 2^32). -/
theorem handleVoicePacket_accept {δ : Type} (D : ReceiveExternals δ)
    (st : ClientUDPHandlerThread δ) (avatar_id : Nat) (stream_info : AvatarVoiceStreamInfo δ)
    (packet_buf : List Nat) (packet_len : Nat)
    (hseq : stream_info.next_seq_num_expected ≤ readU32 packet_buf 8)
    (hok : 0 ≤ (decodeResult D st stream_info packet_buf packet_len).1)
    (hrate : (decodeResult D st stream_info packet_buf packet_len).1
      = Int.tdiv (toInt32 stream_info.sampling_rate) 100) :
    handleVoicePacket D st avatar_id stream_info packet_buf packet_len
      = { pcm_buffer := (decodeResult D st stream_info packet_buf packet_len).2.1,
          audio_sources := Function.update st.audio_sources stream_info.avatar_audio_source
            (appendToSource (st.audio_sources stream_info.avatar_audio_source)
              (decodeResult D st stream_info packet_buf packet_len).2.1
              (decodeResult D st stream_info packet_buf packet_len).1.toNat
              (maxAbs 0 ((decodeResult D st stream_info packet_buf packet_len).2.1.take
                (decodeResult D st stream_info packet_buf packet_len).1.toNat))),
          avatar_stream_info := Function.update st.avatar_stream_info avatar_id
            (some { stream_info with
              opus_decoder := (decodeResult D st stream_info packet_buf packet_len).2.2,
              next_seq_num_expected := (stream_info.next_seq_num_expected + 1) % 2 ^ 32 }) } := by
  unfold handleVoicePacket
  rw [if_neg (by omega), if_neg (by omega)]
  simp only [ne_eq, hrate, not_true_eq_false, if_false]

/-- C8: stale drop.  When the decode entry of the packet's avatar id expects a sequence number
larger than the one the packet carries (e.g. seq 50 against 100), handling the packet leaves
the whole state as it was: every decode entry (so `next_seq_num_expected`), every audio source
(its sample queue and its smoothed level) and the scratch buffer. -/
theorem C8_stale_drop {δ : Type} (D : ReceiveExternals δ) (server_ip_addr : Nat)
    (st : ClientUDPHandlerThread δ) (sender_ip_addr : Nat) (packet_buf : List Nat)
    (packet_len : Nat) (stream_info : AvatarVoiceStreamInfo δ)
    (hentry : st.avatar_stream_info (readU32 packet_buf 4) = some stream_info)
    (hstale : readU32 packet_buf 8 < stream_info.next_seq_num_expected) :
    handlePacket D server_ip_addr st sender_ip_addr packet_buf packet_len = st := by
  unfold handlePacket
  simp only [hentry]
  split_ifs
  · exact handleVoicePacket_stale D st _ stream_info packet_buf packet_len hstale
  all_goals rfl

/-- Witness for C8: a receiver that expects sequence number 100 for avatar 7 gets a voice
packet from the server with sequence number 50. -/
theorem C8_stale_drop_witness :
    handlePacket silenceDecoder 1 (exampleReceiver 100 5000) 1 (examplePacket 50) 15
      = exampleReceiver 100 5000 :=
  C8_stale_drop silenceDecoder 1 (exampleReceiver 100 5000) 1 (examplePacket 50) 15
    { avatar_audio_source := 0, opus_decoder := (), sampling_rate := 48000, stream_id := 99,
      next_seq_num_expected := 100 }
    (by
      have e : readU32 (examplePacket 50) 4 = 7 := by decide
      rw [e]
      rfl)
    (by decide)

/-- C9, evaluated on the code: a receiver that expects sequence number 5 for avatar 7 gets the
voice packet with sequence number 10 (a gap).  The packet is accepted, its 480 samples are
appended to the empty queue of the source, and `next_seq_num_expected` becomes 6, not 11; the
same packet delivered a second time is therefore accepted again (960 samples queued, 7
expected). -/
theorem C9_gap_increments_by_one :
    ((handlePacket silenceDecoder 1 (exampleReceiver 5 0) 1 (examplePacket 10) 15).avatar_stream_info
        7).map (fun e => e.next_seq_num_expected) = some 6
      ∧ ((handlePacket silenceDecoder 1 (exampleReceiver 5 0) 1 (examplePacket 10)
          15).audio_sources 0).buffer.length = 480
      ∧ ((handlePacket silenceDecoder 1
          (handlePacket silenceDecoder 1 (exampleReceiver 5 0) 1 (examplePacket 10) 15) 1
          (examplePacket 10) 15).avatar_stream_info 7).map (fun e => e.next_seq_num_expected)
          = some 7
      ∧ ((handlePacket silenceDecoder 1
          (handlePacket silenceDecoder 1 (exampleReceiver 5 0) 1 (examplePacket 10) 15) 1
          (examplePacket 10) 15).audio_sources 0).buffer.length = 960 := by
  refine ⟨by decide, by decide, by decide, by decide⟩

/-- C10: overflow trim.  When a voice packet is accepted (server sender, voice type, entry
found, sequence check passed, decoded to the `n = sampling_rate / 100` samples expected), the
queue of the entry's source afterwards is the last 2048 old samples if the queue held more than
4096 samples, otherwise all old samples, followed by the `n` new samples; its length is
`2048 + n` in the first case and `q + n` in the second (a queue of exactly 4096 is not trimmed),
and all `n` samples of the incoming frame are in it. -/
theorem C10_overflow_trim {δ : Type} (D : ReceiveExternals δ) (server_ip_addr : Nat)
    (st : ClientUDPHandlerThread δ) (sender_ip_addr : Nat) (packet_buf : List Nat)
    (packet_len : Nat) (stream_info : AvatarVoiceStreamInfo δ) (n : Nat)
    (hsender : sender_ip_addr = server_ip_addr) (hlen : 12 ≤ packet_len)
    (htype : readU32 packet_buf 0 = 1)
    (hentry : st.avatar_stream_info (readU32 packet_buf 4) = some stream_info)
    (hseq : stream_info.next_seq_num_expected ≤ readU32 packet_buf 8)
    (hdec : (decodeResult D st stream_info packet_buf packet_len).1 = (n : Int))
    (hrate : (n : Int) = Int.tdiv (toInt32 stream_info.sampling_rate) 100)
    (hbuf : n ≤ (decodeResult D st stream_info packet_buf packet_len).2.1.length) :
    ((handlePacket D server_ip_addr st sender_ip_addr packet_buf packet_len).audio_sources
        stream_info.avatar_audio_source).buffer
      = (if (st.audio_sources stream_info.avatar_audio_source).buffer.length > 4096 then
          (st.audio_sources stream_info.avatar_audio_source).buffer.drop
            ((st.audio_sources stream_info.avatar_audio_source).buffer.length - 2048)
         else (st.audio_sources stream_info.avatar_audio_source).buffer)
        ++ (decodeResult D st stream_info packet_buf packet_len).2.1.take n
    ∧ ((handlePacket D server_ip_addr st sender_ip_addr packet_buf packet_len).audio_sources
        stream_info.avatar_audio_source).buffer.length
      = (if (st.audio_sources stream_info.avatar_audio_source).buffer.length > 4096 then
          2048 + n
         else (st.audio_sources stream_info.avatar_audio_source).buffer.length + n)
    ∧ ((decodeResult D st stream_info packet_buf packet_len).2.1.take n).length = n := by
  rw [handlePacket_voice D server_ip_addr st sender_ip_addr packet_buf packet_len stream_info
    hsender hlen htype hentry]
  rw [handleVoicePacket_accept D st _ stream_info packet_buf packet_len hseq
    (by rw [hdec]; omega) (by rw [hdec]; exact hrate)]
  have hn : (decodeResult D st stream_info packet_buf packet_len).1.toNat = n := by
    rw [hdec]; rfl
  have htake : ((decodeResult D st stream_info packet_buf packet_len).2.1.take n).length = n := by
    rw [List.length_take]; omega
  simp only [Function.update_same, appendToSource, hn]
  refine ⟨trivial, ?_, htake⟩
  rw [List.length_append, htake]
  split
  · rw [List.length_drop]; omega
  · rfl

/-- Witness for C10: a queue pre-filled with 5000 samples and one accepted frame of 480
samples: 5000 → 2048 → 2528. -/
theorem C10_overflow_trim_witness :
    ((handlePacket silenceDecoder 1 (exampleReceiver 0 5000) 1 (examplePacket 0) 15).audio_sources
        0).buffer.length = 2528 := by
  have h := (C10_overflow_trim silenceDecoder 1 (exampleReceiver 0 5000) 1 (examplePacket 0) 15
    { avatar_audio_source := 0, opus_decoder := (), sampling_rate := 48000, stream_id := 99,
      next_seq_num_expected := 0 } 480 rfl (by decide) (by decide)
    (by
      have e : readU32 (examplePacket 0) 4 = 7 := by decide
      rw [e]
      rfl)
    (by decide) rfl (by decide)
    (by
      show 480 ≤ (List.replicate 480 (0 : ℚ)).length
      rw [List.length_replicate])).2.1
  have e : ((exampleReceiver 0 5000).audio_sources 0).buffer = List.replicate 5000 0 := rfl
  rw [e, List.length_replicate] at h
  rw [h]
  decide

/-! ## Receive worker, sequence numbers and drops: C11, C12, C13, C14 -/

theorem handleVoicePacket_error {δ : Type} (D : ReceiveExternals δ)
    (st : ClientUDPHandlerThread δ) (avatar_id : Nat) (stream_info : AvatarVoiceStreamInfo δ)
    (packet_buf : List Nat) (packet_len : Nat)
    (hseq : stream_info.next_seq_num_expected ≤ readU32 packet_buf 8)
    (herr : (decodeResult D st stream_info packet_buf packet_len).1 < 0) :
    handleVoicePacket D st avatar_id stream_info packet_buf packet_len
      = { st with
          pcm_buffer := (decodeResult D st stream_info packet_buf packet_len).2.1,
          avatar_stream_info := Function.update st.avatar_stream_info avatar_id
            (some { stream_info with
              opus_decoder := (decodeResult D st stream_info packet_buf packet_len).2.2 }) } := by
  unfold handleVoicePacket
  rw [if_neg (by omega), if_pos herr]

theorem handleVoicePacket_wrong_length {δ : Type} (D : ReceiveExternals δ)
    (st : ClientUDPHandlerThread δ) (avatar_id : Nat) (stream_info : AvatarVoiceStreamInfo δ)
    (packet_buf : List Nat) (packet_len : Nat)
    (hseq : stream_info.next_seq_num_expected ≤ readU32 packet_buf 8)
    (hok : 0 ≤ (decodeResult D st stream_info packet_buf packet_len).1)
    (hrate : (decodeResult D st stream_info packet_buf packet_len).1
      ≠ Int.tdiv (toInt32 stream_info.sampling_rate) 100) :
    handleVoicePacket D st avatar_id stream_info packet_buf packet_len
      = { pcm_buffer := (decodeResult D st stream_info packet_buf packet_len).2.1,
          audio_sources := st.audio_sources,
          avatar_stream_info := Function.update st.avatar_stream_info avatar_id
            (some { stream_info with
              opus_decoder := (decodeResult D st stream_info packet_buf packet_len).2.2,
              next_seq_num_expected := (stream_info.next_seq_num_expected + 1) % 2 ^ 32 }) } := by
  unfold handleVoicePacket
  rw [if_neg (by omega), if_neg (by omega)]
  simp only [ne_eq, hrate, not_false_eq_true, if_true]

/-- What handling a voice packet can do to the decode map: nothing, or replace the entry of
the packet's avatar by one that differs in the decoder state only, or by one that differs in
the decoder state and has `next_seq_num_expected` incremented (mod 2^32). -/
theorem handleVoicePacket_entries {δ : Type} (D : ReceiveExternals δ)
    (st : ClientUDPHandlerThread δ) (avatar_id : Nat) (stream_info : AvatarVoiceStreamInfo δ)
    (packet_buf : List Nat) (packet_len : Nat) :
    (handleVoicePacket D st avatar_id stream_info packet_buf packet_len).avatar_stream_info
        = st.avatar_stream_info
      ∨ (∃ d, (handleVoicePacket D st avatar_id stream_info packet_buf
            packet_len).avatar_stream_info
          = Function.update st.avatar_stream_info avatar_id
              (some { stream_info with opus_decoder := d }))
      ∨ (∃ d, (handleVoicePacket D st avatar_id stream_info packet_buf
            packet_len).avatar_stream_info
          = Function.update st.avatar_stream_info avatar_id
              (some { stream_info with
                opus_decoder := d,
                next_seq_num_expected := (stream_info.next_seq_num_expected + 1) % 2 ^ 32 })) := by
  by_cases hstale : readU32 packet_buf 8 < stream_info.next_seq_num_expected
  · left
    rw [handleVoicePacket_stale D st avatar_id stream_info packet_buf packet_len hstale]
  · have hseq : stream_info.next_seq_num_expected ≤ readU32 packet_buf 8 := by omega
    by_cases herr : (decodeResult D st stream_info packet_buf packet_len).1 < 0
    · right; left
      rw [handleVoicePacket_error D st avatar_id stream_info packet_buf packet_len hseq herr]
      exact ⟨_, rfl⟩
    · right; right
      by_cases hrate : (decodeResult D st stream_info packet_buf packet_len).1
          = Int.tdiv (toInt32 stream_info.sampling_rate) 100
      · rw [handleVoicePacket_accept D st avatar_id stream_info packet_buf packet_len hseq
          (by omega) hrate]
        exact ⟨_, rfl⟩
      · rw [handleVoicePacket_wrong_length D st avatar_id stream_info packet_buf packet_len hseq
          (by omega) hrate]
        exact ⟨_, rfl⟩

/-- Packet handling either leaves the decode map alone or applies `handleVoicePacket` to the
entry found under the avatar id of the packet. -/
theorem handlePacket_cases {δ : Type} (D : ReceiveExternals δ) (server : Nat)
    (st : ClientUDPHandlerThread δ) (sender : Nat) (packet_buf : List Nat) (packet_len : Nat) :
    handlePacket D server st sender packet_buf packet_len = st
      ∨ ∃ stream_info, st.avatar_stream_info (readU32 packet_buf 4) = some stream_info
          ∧ handlePacket D server st sender packet_buf packet_len
            = handleVoicePacket D st (readU32 packet_buf 4) stream_info packet_buf
                packet_len := by
  by_cases h1 : sender = server ∧ 12 ≤ packet_len ∧ readU32 packet_buf 0 = 1
  · cases hentry : st.avatar_stream_info (readU32 packet_buf 4) with
    | none =>
      left
      unfold handlePacket
      simp only [hentry]
      split_ifs <;> rfl
    | some stream_info =>
      right
      exact ⟨stream_info, rfl,
        handlePacket_voice D server st sender packet_buf packet_len stream_info h1.1 h1.2.1
          h1.2.2 hentry⟩
  · left
    unfold handlePacket
    by_cases hs : sender = server
    · rw [if_pos hs]
      by_cases h4 : packet_len ≥ 4
      · rw [if_pos h4]
        by_cases ht : readU32 packet_buf 0 = 1
        · simp only [ht, if_true]
          have h12 : ¬ packet_len ≥ 12 := fun h => h1 ⟨hs, h, ht⟩
          rw [if_neg h12]
        · simp only [ht, if_false]
      · rw [if_neg h4]
    · rw [if_neg hs]

/-- The sequence number expected for `key` after one packet is the old one or the old one
plus one (mod 2^32). -/
theorem nextSeqExpected_handlePacket {δ : Type} (D : ReceiveExternals δ) (server : Nat)
    (st : ClientUDPHandlerThread δ) (sender : Nat) (packet_buf : List Nat) (packet_len : Nat)
    (key : Nat) :
    nextSeqExpected (handlePacket D server st sender packet_buf packet_len) key
        = nextSeqExpected st key
      ∨ nextSeqExpected (handlePacket D server st sender packet_buf packet_len) key
        = (nextSeqExpected st key + 1) % 2 ^ 32 := by
  rcases handlePacket_cases D server st sender packet_buf packet_len with h | ⟨si, hsi, h⟩
  · left; rw [h]
  · rw [h]
    by_cases hk : key = readU32 packet_buf 4
    · subst hk
      rcases handleVoicePacket_entries D st (readU32 packet_buf 4) si packet_buf packet_len
        with h2 | ⟨d, h2⟩ | ⟨d, h2⟩
      · left; unfold nextSeqExpected; rw [h2]
      · left; unfold nextSeqExpected; rw [h2, hsi]; simp
      · right; unfold nextSeqExpected; rw [h2, hsi]; simp
    · left
      rcases handleVoicePacket_entries D st (readU32 packet_buf 4) si packet_buf packet_len
        with h2 | ⟨d, h2⟩ | ⟨d, h2⟩
      · unfold nextSeqExpected; rw [h2]
      · unfold nextSeqExpected; rw [h2, Function.update_noteq hk]
      · unfold nextSeqExpected; rw [h2, Function.update_noteq hk]

theorem handlePackets_append {δ : Type} (D : ReceiveExternals δ) (server : Nat)
    (ps1 ps2 : List (Nat × List Nat × Nat)) :
    ∀ st : ClientUDPHandlerThread δ,
      handlePackets D server st (ps1 ++ ps2)
        = handlePackets D server (handlePackets D server st ps1) ps2 := by
  induction ps1 with
  | nil => intro st; rfl
  | cons p rest ih => intro st; exact ih _

theorem nextSeqExpected_handlePackets {δ : Type} (D : ReceiveExternals δ) (server : Nat)
    (key : Nat) (ps : List (Nat × List Nat × Nat)) :
    ∀ st : ClientUDPHandlerThread δ, nextSeqExpected st key + ps.length < 2 ^ 32 →
      nextSeqExpected st key ≤ nextSeqExpected (handlePackets D server st ps) key
        ∧ nextSeqExpected (handlePackets D server st ps) key
            ≤ nextSeqExpected st key + ps.length := by
  induction ps with
  | nil => intro st _; exact ⟨le_refl _, by simp [handlePackets]⟩
  | cons p rest ih =>
    intro st hlt
    simp only [List.length_cons] at hlt
    have h1 := nextSeqExpected_handlePacket D server st p.1 p.2.1 p.2.2 key
    have hstep : nextSeqExpected st key
          ≤ nextSeqExpected (handlePacket D server st p.1 p.2.1 p.2.2) key
        ∧ nextSeqExpected (handlePacket D server st p.1 p.2.1 p.2.2) key
          ≤ nextSeqExpected st key + 1 := by
      rcases h1 with h | h
      · rw [h]; omega
      · rw [h]; omega
    have h2 := ih (handlePacket D server st p.1 p.2.1 p.2.2) (by omega)
    simp only [handlePackets, List.length_cons]
    omega

theorem maxSeqPacket_accepted (st : ClientUDPHandlerThread Unit)
    (e : AvatarVoiceStreamInfo Unit) (he : st.avatar_stream_info 7 = some e)
    (hrate : e.sampling_rate = 48000) (hnext : e.next_seq_num_expected < 2 ^ 32) :
    (handlePacket silenceDecoder 1 st 1 (examplePacket 4294967295) 15).avatar_stream_info 7
      = some { e with next_seq_num_expected := (e.next_seq_num_expected + 1) % 2 ^ 32 } := by
  have h0 : readU32 (examplePacket 4294967295) 0 = 1 := by decide
  have h4 : readU32 (examplePacket 4294967295) 4 = 7 := by decide
  have h8 : readU32 (examplePacket 4294967295) 8 = 4294967295 := by decide
  rw [handlePacket_voice silenceDecoder 1 st 1 (examplePacket 4294967295) 15 e rfl (by decide)
    h0 (by rw [h4]; exact he)]
  have hd : (decodeResult silenceDecoder st e (examplePacket 4294967295) 15).1 = 480 := rfl
  rw [handleVoicePacket_accept silenceDecoder st _ e (examplePacket 4294967295) 15
    (by rw [h8]; omega) (by rw [hd]; decide) (by rw [hd, hrate]; decide)]
  rw [h4]
  simp only [Function.update_same]

theorem maxSeqPacket_run (n : Nat) :
    ∀ (st : ClientUDPHandlerThread Unit) (e : AvatarVoiceStreamInfo Unit),
      st.avatar_stream_info 7 = some e → e.sampling_rate = 48000 →
      e.next_seq_num_expected < 2 ^ 32 →
      nextSeqExpected (handlePackets silenceDecoder 1 st
          (List.replicate n (1, examplePacket 4294967295, 15))) 7
        = (e.next_seq_num_expected + n) % 2 ^ 32 := by
  induction n with
  | zero =>
    intro st e he _ hnext
    simp only [List.replicate_zero, handlePackets, nextSeqExpected, he, Nat.add_zero]
    exact (Nat.mod_eq_of_lt hnext).symm
  | succ n ih =>
    intro st e he hrate hnext
    rw [List.replicate_succ]
    simp only [handlePackets]
    rw [ih _ _ (maxSeqPacket_accepted st e he hrate hnext) hrate
      (Nat.mod_lt _ (by norm_num))]
    simp only []
    omega

/-- C11, as stated, fails: `next_seq_num_expected` is a `uint32` that is incremented without a
wrap check.  A fresh entry (expecting 0) that receives the voice packet with sequence number
2^32 - 1 again and again accepts it every time; after 2^32 - 1 packets it expects 4294967295,
and after one more packet it expects 0. -/
theorem C11_counterexample_wrap :
    nextSeqExpected (handlePackets silenceDecoder 1 (exampleReceiver 0 0)
        (List.replicate (2 ^ 32 - 1) (1, examplePacket 4294967295, 15))) 7 = 4294967295
      ∧ nextSeqExpected (handlePackets silenceDecoder 1 (exampleReceiver 0 0)
        (List.replicate (2 ^ 32 - 1) (1, examplePacket 4294967295, 15)
          ++ [(1, examplePacket 4294967295, 15)])) 7 = 0 := by
  have he : (exampleReceiver 0 0).avatar_stream_info 7
      = some { avatar_audio_source := 0, opus_decoder := (), sampling_rate := 48000,
               stream_id := 99, next_seq_num_expected := 0 } := rfl
  have h1 := maxSeqPacket_run (2 ^ 32 - 1) (exampleReceiver 0 0) _ he rfl (by norm_num)
  have h2 := maxSeqPacket_run (2 ^ 32 - 1 + 1) (exampleReceiver 0 0) _ he rfl (by norm_num)
  rw [List.replicate_succ'] at h2
  refine ⟨?_, ?_⟩
  · rw [h1]; decide
  · rw [h2]; decide

/-- C11, amended: handling one packet leaves the sequence number expected for an avatar id as
it is or increments it by one (mod 2^32); so it does not decrease while it is below 2^32 - 1,
and over any sequence of packets handled between two reconciliation passes it is
non-decreasing from packet to packet as long as the count cannot reach 2^32. -/
theorem C11_next_seq_monotone {δ : Type} (D : ReceiveExternals δ) (server_ip_addr : Nat)
    (st : ClientUDPHandlerThread δ) (key : Nat) :
    (∀ (sender_ip_addr : Nat) (packet_buf : List Nat) (packet_len : Nat),
        (nextSeqExpected (handlePacket D server_ip_addr st sender_ip_addr packet_buf packet_len)
            key = nextSeqExpected st key
          ∨ nextSeqExpected (handlePacket D server_ip_addr st sender_ip_addr packet_buf
              packet_len) key = (nextSeqExpected st key + 1) % 2 ^ 32)
        ∧ (nextSeqExpected st key < 2 ^ 32 - 1 →
            nextSeqExpected st key
              ≤ nextSeqExpected (handlePacket D server_ip_addr st sender_ip_addr packet_buf
                  packet_len) key))
      ∧ ∀ ps1 ps2 : List (Nat × List Nat × Nat),
          nextSeqExpected st key + (ps1 ++ ps2).length < 2 ^ 32 →
          nextSeqExpected (handlePackets D server_ip_addr st ps1) key
            ≤ nextSeqExpected (handlePackets D server_ip_addr st (ps1 ++ ps2)) key := by
  constructor
  · intro sender packet_buf packet_len
    have h := nextSeqExpected_handlePacket D server_ip_addr st sender packet_buf packet_len key
    refine ⟨h, ?_⟩
    intro hlt
    rcases h with h | h
    · rw [h]
    · rw [h]; omega
  · intro ps1 ps2 hlt
    rw [handlePackets_append]
    rw [List.length_append] at hlt
    have h1 := nextSeqExpected_handlePackets D server_ip_addr key ps1 st (by omega)
    have h2 := nextSeqExpected_handlePackets D server_ip_addr key ps2
      (handlePackets D server_ip_addr st ps1) (by omega)
    exact h2.1

/-- Witness for C11 (amended): a receiver expecting 5 for avatar 7 handles the packets with
sequence numbers 10 and then 3. -/
theorem C11_next_seq_monotone_witness :
    nextSeqExpected (handlePackets silenceDecoder 1 (exampleReceiver 5 0)
        [(1, examplePacket 10, 15)]) 7
      ≤ nextSeqExpected (handlePackets silenceDecoder 1 (exampleReceiver 5 0)
        ([(1, examplePacket 10, 15)] ++ [(1, examplePacket 3, 15)])) 7 :=
  (C11_next_seq_monotone silenceDecoder 1 (exampleReceiver 5 0) 7).2
    [(1, examplePacket 10, 15)] [(1, examplePacket 3, 15)] (by decide)

/-- C12: decoder error.  When the decoder reports a negative result for a voice packet that
passed the sequence check, the packet is dropped: no audio source changes (sample queues and
smoothed levels stay), the entry of the packet's avatar keeps `next_seq_num_expected` (and its
source, sampling rate and stream id; only the decoder state may differ), every other entry is
unchanged; and packet handling does not throw, so the loop goes on with the next datagram. -/
theorem C12_decoder_error_drop {δ : Type} (D : ReceiveExternals δ)
    (opus_decoder_create : Nat → Option δ) (server_ip_addr : Nat)
    (st : ClientUDPHandlerThread δ) (sender_ip_addr : Nat) (packet_buf : List Nat)
    (packet_len : Nat) (stream_info : AvatarVoiceStreamInfo δ)
    (hsender : sender_ip_addr = server_ip_addr) (hlen : 12 ≤ packet_len)
    (htype : readU32 packet_buf 0 = 1)
    (hentry : st.avatar_stream_info (readU32 packet_buf 4) = some stream_info)
    (hseq : stream_info.next_seq_num_expected ≤ readU32 packet_buf 8)
    (herr : (decodeResult D st stream_info packet_buf packet_len).1 < 0) :
    (handlePacket D server_ip_addr st sender_ip_addr packet_buf packet_len).audio_sources
        = st.audio_sources
      ∧ (handlePacket D server_ip_addr st sender_ip_addr packet_buf
          packet_len).avatar_stream_info (readU32 packet_buf 4)
        = some { stream_info with
            opus_decoder := (decodeResult D st stream_info packet_buf packet_len).2.2 }
      ∧ nextSeqExpected (handlePacket D server_ip_addr st sender_ip_addr packet_buf packet_len)
          (readU32 packet_buf 4) = stream_info.next_seq_num_expected
      ∧ (∀ k, k ≠ readU32 packet_buf 4 →
          (handlePacket D server_ip_addr st sender_ip_addr packet_buf
            packet_len).avatar_stream_info k = st.avatar_stream_info k)
      ∧ (∀ (s : ReceiveLoopState δ) (inp : ReceiveInput) (rest : List ReceiveInput),
          inp.avatars_changed = false →
          ∃ s2, receiveIteration D opus_decoder_create server_ip_addr s inp = some s2
            ∧ receiveLoop D opus_decoder_create server_ip_addr s (inp :: rest)
                = receiveLoop D opus_decoder_create server_ip_addr s2 rest) := by
  rw [handlePacket_voice D server_ip_addr st sender_ip_addr packet_buf packet_len stream_info
    hsender hlen htype hentry]
  rw [handleVoicePacket_error D st _ stream_info packet_buf packet_len hseq herr]
  refine ⟨rfl, ?_, ?_, ?_, ?_⟩
  · simp only [Function.update_same]
  · simp only [nextSeqExpected, Function.update_same]
  · intro k hk
    simp only [Function.update_noteq hk]
  · intro s inp rest hch
    have hit : receiveIteration D opus_decoder_create server_ip_addr s inp
        = some
            { worker := handlePacket D server_ip_addr s.worker inp.sender_ip_addr
                (memcpy s.packet_buf 0
                  (inp.datagram.take (min inp.datagram.length s.packet_buf.length)))
                (min inp.datagram.length s.packet_buf.length),
              packet_buf := memcpy s.packet_buf 0
                (inp.datagram.take (min inp.datagram.length s.packet_buf.length)) } := by
      unfold receiveIteration
      simp only [hch, Bool.false_eq_true, if_false]
    refine ⟨_, hit, ?_⟩
    simp only [receiveLoop, hit]

/-- Witness for C12: the decoder rejects the packet with sequence number 10 sent to a receiver
that expects 5; 5 stays expected. -/
theorem C12_decoder_error_drop_witness :
    nextSeqExpected (handlePacket failingDecoder 1 (exampleReceiver 5 100) 1 (examplePacket 10)
        15) (readU32 (examplePacket 10) 4) = 5 :=
  (C12_decoder_error_drop failingDecoder (fun _ => some ()) 1 (exampleReceiver 5 100) 1
    (examplePacket 10) 15
    { avatar_audio_source := 0, opus_decoder := (), sampling_rate := 48000, stream_id := 99,
      next_seq_num_expected := 5 }
    rfl (by decide) (by decide)
    (by
      have e : readU32 (examplePacket 10) 4 = 7 := by decide
      rw [e]
      rfl)
    (by decide) (by decide)).2.2.1

/-- C13, as stated, fails in its last part: the increment of line 249 follows the length
check, inside the branch for a non-negative decoder result, so it also runs when the decoded
length is not the expected one.  Here a receiver expecting 5 at 48 kHz gets packet 5, which
decodes to 240 samples instead of 480: nothing is appended to the 100 queued samples, but 6 is
expected afterwards. -/
theorem C13_counterexample_seq_advanced :
    nextSeqExpected (handlePacket shortFrameDecoder 1 (exampleReceiver 5 100) 1 (examplePacket 5)
        15) 7 = 6
      ∧ ((handlePacket shortFrameDecoder 1 (exampleReceiver 5 100) 1 (examplePacket 5)
          15).audio_sources 0).buffer.length = 100 := by
  refine ⟨by decide, by decide⟩

/-- C13, amended: when the decoder returns a non-negative number of samples different from
`sampling_rate / 100` for a voice packet that passed the sequence check, nothing is appended to
any sample queue and no smoothed level changes (the audio sources are unchanged), while
`next_seq_num_expected` of the entry is incremented by one (mod 2^32), as for an accepted
packet. -/
theorem C13_wrong_length_drop {δ : Type} (D : ReceiveExternals δ) (server_ip_addr : Nat)
    (st : ClientUDPHandlerThread δ) (sender_ip_addr : Nat) (packet_buf : List Nat)
    (packet_len : Nat) (stream_info : AvatarVoiceStreamInfo δ)
    (hsender : sender_ip_addr = server_ip_addr) (hlen : 12 ≤ packet_len)
    (htype : readU32 packet_buf 0 = 1)
    (hentry : st.avatar_stream_info (readU32 packet_buf 4) = some stream_info)
    (hseq : stream_info.next_seq_num_expected ≤ readU32 packet_buf 8)
    (hok : 0 ≤ (decodeResult D st stream_info packet_buf packet_len).1)
    (hrate : (decodeResult D st stream_info packet_buf packet_len).1
      ≠ Int.tdiv (toInt32 stream_info.sampling_rate) 100) :
    (handlePacket D server_ip_addr st sender_ip_addr packet_buf packet_len).audio_sources
        = st.audio_sources
      ∧ (handlePacket D server_ip_addr st sender_ip_addr packet_buf
          packet_len).avatar_stream_info (readU32 packet_buf 4)
        = some { stream_info with
            opus_decoder := (decodeResult D st stream_info packet_buf packet_len).2.2,
            next_seq_num_expected := (stream_info.next_seq_num_expected + 1) % 2 ^ 32 } := by
  rw [handlePacket_voice D server_ip_addr st sender_ip_addr packet_buf packet_len stream_info
    hsender hlen htype hentry]
  rw [handleVoicePacket_wrong_length D st _ stream_info packet_buf packet_len hseq hok hrate]
  refine ⟨rfl, ?_⟩
  simp only [Function.update_same]

/-- Witness for C13 (amended): the 240-sample decode of packet 5 leaves the audio sources of
the receiver as they were. -/
theorem C13_wrong_length_drop_witness :
    (handlePacket shortFrameDecoder 1 (exampleReceiver 5 100) 1 (examplePacket 5)
        15).audio_sources = (exampleReceiver 5 100).audio_sources :=
  (C13_wrong_length_drop shortFrameDecoder 1 (exampleReceiver 5 100) 1 (examplePacket 5) 15
    { avatar_audio_source := 0, opus_decoder := (), sampling_rate := 48000, stream_id := 99,
      next_seq_num_expected := 5 }
    rfl (by decide) (by decide)
    (by
      have e : readU32 (examplePacket 5) 4 = 7 := by decide
      rw [e]
      rfl)
    (by decide) (by decide) (by decide)).1

/-- C14: packet filter.  A datagram leaves the whole worker state (every decode entry, every
audio source) unchanged if its sender is not the server address, or it is shorter than 4 bytes,
or its packet type is not 1, or it is shorter than 12 bytes, or there is no decode entry for
its avatar id; in particular a zero-length datagram is ignored. -/
theorem C14_packet_filter {δ : Type} (D : ReceiveExternals δ) (server_ip_addr : Nat)
    (st : ClientUDPHandlerThread δ) (sender_ip_addr : Nat) (packet_buf : List Nat)
    (packet_len : Nat)
    (h : sender_ip_addr ≠ server_ip_addr ∨ packet_len < 4 ∨ readU32 packet_buf 0 ≠ 1
      ∨ packet_len < 12 ∨ st.avatar_stream_info (readU32 packet_buf 4) = none) :
    handlePacket D server_ip_addr st sender_ip_addr packet_buf packet_len = st
      ∧ handlePacket D server_ip_addr st sender_ip_addr packet_buf 0 = st := by
  have key : ∀ len : Nat,
      (sender_ip_addr ≠ server_ip_addr ∨ len < 4 ∨ readU32 packet_buf 0 ≠ 1
        ∨ len < 12 ∨ st.avatar_stream_info (readU32 packet_buf 4) = none) →
      handlePacket D server_ip_addr st sender_ip_addr packet_buf len = st := by
    intro len hd
    unfold handlePacket
    by_cases hs : sender_ip_addr = server_ip_addr
    · rw [if_pos hs]
      by_cases h4 : len ≥ 4
      · rw [if_pos h4]
        by_cases ht : readU32 packet_buf 0 = 1
        · simp only [ht, if_true]
          by_cases h12 : len ≥ 12
          · rw [if_pos h12]
            have hnone : st.avatar_stream_info (readU32 packet_buf 4) = none := by
              rcases hd with h | h | h | h | h
              · exact absurd hs h
              · omega
              · exact absurd ht h
              · omega
              · exact h
            simp only [hnone]
          · rw [if_neg h12]
        · simp only [ht, if_false]
      · rw [if_neg h4]
    · rw [if_neg hs]
  exact ⟨key packet_len h, key 0 (Or.inr (Or.inl (by omega)))⟩

/-- Witness for C14: a voice packet for avatar 8, for which the receiver has no decode entry. -/
theorem C14_packet_filter_witness :
    handlePacket silenceDecoder 1 (exampleReceiver 5 100) 1 (formPacket [] 8 5 [11, 22, 33] 3) 15
        = exampleReceiver 5 100
      ∧ handlePacket silenceDecoder 1 (exampleReceiver 5 100) 1 (formPacket [] 8 5 [11, 22, 33] 3)
          0 = exampleReceiver 5 100 :=
  C14_packet_filter silenceDecoder 1 (exampleReceiver 5 100) 1 (formPacket [] 8 5 [11, 22, 33] 3)
    15
    (Or.inr (Or.inr (Or.inr (Or.inr (by
      have e : readU32 (formPacket [] 8 5 [11, 22, 33] 3) 4 = 8 := by decide
      rw [e]
      rfl)))))

/-! ## Reconciliation: C15, C16, C17 -/

theorem reconcileAvatar_other_key {δ : Type} (create : Nat → Option δ)
    (cur cur2 : Nat → Option (AvatarVoiceStreamInfo δ)) (b : Avatar) (k : Nat)
    (hb : reconcileAvatar create cur b = some cur2) (hk : b.uid % 2 ^ 32 ≠ k) :
    cur2 k = cur k := by
  unfold reconcileAvatar at hb
  cases hsrc : b.audio_source with
  | none =>
    simp only [hsrc, Option.some.injEq] at hb
    rw [← hb]
  | some h =>
    simp only [hsrc] at hb
    split at hb
    · cases hc : create b.audio_stream_sampling_rate with
      | none => simp only [hc] at hb; exact absurd hb (by simp)
      | some dec =>
        simp only [hc, Option.some.injEq] at hb
        rw [← hb, Function.update_noteq (Ne.symm hk)]
    · simp only [Option.some.injEq] at hb
      rw [← hb]

theorem reconcileAvatar_own_key {δ : Type} (create : Nat → Option δ)
    (cur cur2 : Nat → Option (AvatarVoiceStreamInfo δ)) (av : Avatar) (h : Nat)
    (before : Option (AvatarVoiceStreamInfo δ))
    (hb : reconcileAvatar create cur av = some cur2) (hsrc : av.audio_source = some h)
    (hcur : cur (av.uid % 2 ^ 32) = before
      ∨ ∃ e, cur (av.uid % 2 ^ 32) = some e ∧ ReconciledEntry av h before e) :
    ∃ e, cur2 (av.uid % 2 ^ 32) = some e ∧ ReconciledEntry av h before e := by
  unfold reconcileAvatar at hb
  simp only [hsrc] at hb
  cases hc : cur (av.uid % 2 ^ 32) with
  | none =>
    simp only [hc, if_true] at hb
    cases hd : create av.audio_stream_sampling_rate with
    | none => simp only [hd] at hb; exact absurd hb (by simp)
    | some dec =>
      simp only [hd, Option.some.injEq] at hb
      have hbefore : before = none := by
        rcases hcur with h1 | ⟨e, h1, _⟩
        · rw [← h1, hc]
        · rw [hc] at h1; exact absurd h1 (by simp)
      refine ⟨_, by rw [← hb, Function.update_same], rfl, Or.inr ⟨rfl, rfl, rfl, ?_⟩⟩
      intro old hold
      rw [hbefore] at hold
      exact absurd hold (by simp)
  | some e0 =>
    simp only [hc] at hb
    by_cases hsid : e0.stream_id = av.audio_stream_id
    · simp only [hsid, ne_eq, not_true_eq_false, decide_False, Bool.false_eq_true, if_false,
        Option.some.injEq] at hb
      rw [← hb]
      refine ⟨e0, hc, ?_⟩
      rcases hcur with h1 | ⟨e, h1, h2⟩
      · exact ⟨hsid, Or.inl (by rw [← h1, hc])⟩
      · rw [hc] at h1
        cases h1
        exact h2
    · simp only [ne_eq, hsid, not_false_eq_true, decide_True, if_true] at hb
      cases hd : create av.audio_stream_sampling_rate with
      | none => simp only [hd] at hb; exact absurd hb (by simp)
      | some dec =>
        simp only [hd, Option.some.injEq] at hb
        have hbefore : before = some e0 := by
          rcases hcur with h1 | ⟨e, h1, h2⟩
          · rw [← h1, hc]
          · rw [hc] at h1
            cases h1
            exact absurd h2.1 hsid
        refine ⟨_, by rw [← hb, Function.update_same], rfl, Or.inr ⟨rfl, rfl, rfl, ?_⟩⟩
        intro old hold
        rw [hbefore] at hold
        cases hold
        exact hsid

theorem createStreamInfos_keeps_entry {δ : Type} (create : Nat → Option δ) (av : Avatar)
    (h : Nat) (before : Option (AvatarVoiceStreamInfo δ)) (hsrc : av.audio_source = some h)
    (l : List Avatar) :
    ∀ cur cur2 : Nat → Option (AvatarVoiceStreamInfo δ),
      (∀ b ∈ l, b.uid % 2 ^ 32 = av.uid % 2 ^ 32 → b = av) →
      createStreamInfos create cur l = some cur2 →
      (∃ e, cur (av.uid % 2 ^ 32) = some e ∧ ReconciledEntry av h before e) →
      ∃ e, cur2 (av.uid % 2 ^ 32) = some e ∧ ReconciledEntry av h before e := by
  induction l with
  | nil =>
    intro cur cur2 _ hc hcur
    simp only [createStreamInfos, Option.some.injEq] at hc
    subst hc
    exact hcur
  | cons b rest ih =>
    intro cur cur2 huniq hc hcur
    simp only [createStreamInfos] at hc
    cases hb : reconcileAvatar create cur b with
    | none => simp only [hb] at hc; exact absurd hc (by simp)
    | some cur1 =>
      simp only [hb] at hc
      have huniq2 : ∀ c ∈ rest, c.uid % 2 ^ 32 = av.uid % 2 ^ 32 → c = av :=
        fun c hcm => huniq c (List.mem_cons_of_mem _ hcm)
      apply ih cur1 cur2 huniq2 hc
      by_cases hk : b.uid % 2 ^ 32 = av.uid % 2 ^ 32
      · have hbav : b = av := huniq b (List.mem_cons_self _ _) hk
        subst hbav
        exact reconcileAvatar_own_key create cur cur1 b h before hb hsrc (Or.inr hcur)
      · rw [reconcileAvatar_other_key create cur cur1 b _ hb hk]
        exact hcur

theorem createStreamInfos_entry {δ : Type} (create : Nat → Option δ) (av : Avatar) (h : Nat)
    (before : Option (AvatarVoiceStreamInfo δ)) (hsrc : av.audio_source = some h)
    (l : List Avatar) :
    ∀ cur cur2 : Nat → Option (AvatarVoiceStreamInfo δ),
      (∀ b ∈ l, b.uid % 2 ^ 32 = av.uid % 2 ^ 32 → b = av) →
      createStreamInfos create cur l = some cur2 →
      cur (av.uid % 2 ^ 32) = before → av ∈ l →
      ∃ e, cur2 (av.uid % 2 ^ 32) = some e ∧ ReconciledEntry av h before e := by
  induction l with
  | nil =>
    intro cur cur2 _ _ _ hmem
    exact absurd hmem (List.not_mem_nil _)
  | cons b rest ih =>
    intro cur cur2 huniq hc hcur hmem
    simp only [createStreamInfos] at hc
    cases hb : reconcileAvatar create cur b with
    | none => simp only [hb] at hc; exact absurd hc (by simp)
    | some cur1 =>
      simp only [hb] at hc
      have huniq2 : ∀ c ∈ rest, c.uid % 2 ^ 32 = av.uid % 2 ^ 32 → c = av :=
        fun c hcm => huniq c (List.mem_cons_of_mem _ hcm)
      by_cases hk : b.uid % 2 ^ 32 = av.uid % 2 ^ 32
      · have hbav : b = av := huniq b (List.mem_cons_self _ _) hk
        subst hbav
        exact createStreamInfos_keeps_entry create b h before hsrc rest cur1 cur2 huniq2 hc
          (reconcileAvatar_own_key create cur cur1 b h before hb hsrc (Or.inl hcur))
      · rcases List.mem_cons.mp hmem with h3 | h3
        · exact absurd (by rw [h3]) hk
        · exact ih cur1 cur2 huniq2 hc
            (by rw [reconcileAvatar_other_key create cur cur1 b _ hb hk]; exact hcur) h3

theorem removeEntry_false (avatars : List Avatar) (av : Avatar) (h : Nat)
    (hav : av ∈ avatars) (hsrc : av.audio_source = some h)
    (huniq : ∀ b ∈ avatars, b.uid % 2 ^ 32 = av.uid % 2 ^ 32 → b = av) :
    removeEntry avatars av.uid = false := by
  unfold removeEntry
  cases hf : avatars.find? (fun a => decide (a.uid = av.uid)) with
  | none =>
    have := List.find?_eq_none.mp hf av hav
    simp at this
  | some b =>
    have hb1 := List.find?_some hf
    have hb2 := List.mem_of_find?_eq_some hf
    have hbu : b.uid = av.uid := by simpa using hb1
    have hbav : b = av := huniq b hb2 (by rw [hbu])
    rw [hbav]
    simp only [hsrc, Option.isNone_some]

/-- The entry a completed reconciliation pass leaves for an avatar with an audio source whose
UID fits in 32 bits and is not shared, in its low 32 bits, by another avatar. -/
theorem reconcile_entry {δ : Type} (create : Nat → Option δ) (avatars : List Avatar)
    (info info2 : Nat → Option (AvatarVoiceStreamInfo δ)) (av : Avatar) (h : Nat)
    (hpass : reconcile create avatars info = some info2)
    (hav : av ∈ avatars) (hsrc : av.audio_source = some h) (huid : av.uid < 2 ^ 32)
    (huniq : ∀ b ∈ avatars, b.uid % 2 ^ 32 = av.uid % 2 ^ 32 → b = av) :
    ∃ e, info2 av.uid = some e ∧ ReconciledEntry av h (info av.uid) e := by
  unfold reconcile at hpass
  cases hc : createStreamInfos create info avatars with
  | none => simp only [hc, Option.map_none'] at hpass; exact absurd hpass (by simp)
  | some cur2 =>
    simp only [hc, Option.map_some', Option.some.injEq] at hpass
    have hmod : av.uid % 2 ^ 32 = av.uid := Nat.mod_eq_of_lt huid
    obtain ⟨e, he, hre⟩ := createStreamInfos_entry create av h (info av.uid) hsrc avatars info
      cur2 huniq hc (by rw [hmod]) hav
    rw [hmod] at he
    refine ⟨e, ?_, hre⟩
    rw [← hpass]
    simp only [pruneStreamInfos, he, removeEntry_false avatars av h hav hsrc huniq,
      Bool.false_eq_true, if_false]

/-- C15, as stated, fails.  First, for an avatar whose UID does not fit in 32 bits the entry
that the first loop creates under the low 32 bits (key 7 for UID 2^32 + 7) is removed again by
the second loop of the same pass, which looks the avatar up under the key widened to 64 bits.
Second, an entry that already carries the avatar's stream id is kept as it is, so its sampling
rate (48000) is not the avatar's current one (16000). -/
theorem C15_counterexample_wide_uid :
    (reconcile (fun _ => some ()) [exampleAvatar (2 ^ 32 + 7) 99 48000]
        (fun _ => (none : Option (AvatarVoiceStreamInfo Unit)))).map
        (fun m => (m 7).isSome) = some false
      ∧ (reconcile (fun _ => some ()) [exampleAvatar 7 99 16000]
          (exampleReceiver 5 0).avatar_stream_info).map
          (fun m => (m 7).map (fun e => e.sampling_rate)) = some (some 48000) := by
  refine ⟨by decide, by decide⟩

/-- C15, amended: after a reconciliation pass that completes (every `opus_decoder_create`
succeeded), for every avatar of the world state with a non-null audio source whose UID is
below 2^32 and whose low 32 bits no other avatar shares, the decode map has an entry under the
UID; the entry has the avatar's current stream id; it is either the entry the map held
already (with that stream id, and otherwise untouched, its sampling rate included), or a fresh
entry with the avatar's current sampling rate and audio source and with
`next_seq_num_expected = 0`. -/
theorem C15_reconcile_creates {δ : Type} (opus_decoder_create : Nat → Option δ)
    (avatars : List Avatar) (info info2 : Nat → Option (AvatarVoiceStreamInfo δ))
    (av : Avatar) (h : Nat)
    (hpass : reconcile opus_decoder_create avatars info = some info2)
    (hav : av ∈ avatars) (hsrc : av.audio_source = some h) (huid : av.uid < 2 ^ 32)
    (huniq : ∀ b ∈ avatars, b.uid % 2 ^ 32 = av.uid % 2 ^ 32 → b = av) :
    ∃ e, info2 av.uid = some e
      ∧ e.stream_id = av.audio_stream_id
      ∧ (info av.uid = some e
        ∨ (e.sampling_rate = av.audio_stream_sampling_rate ∧ e.next_seq_num_expected = 0
            ∧ e.avatar_audio_source = h
            ∧ ∀ old, info av.uid = some old → old.stream_id ≠ av.audio_stream_id)) := by
  obtain ⟨e, he, hre⟩ := reconcile_entry opus_decoder_create avatars info info2 av h hpass hav
    hsrc huid huniq
  exact ⟨e, he, hre.1, hre.2⟩

/-- Witness for C15 (amended): a world with the avatars 3 and 7 and an empty decode map; after
the pass the map has an entry for avatar 7 with its stream id 99. -/
theorem C15_reconcile_creates_witness :
    (reconcile (fun _ => some ()) [exampleAvatar 3 11 16000, exampleAvatar 7 99 48000]
        (fun _ => (none : Option (AvatarVoiceStreamInfo Unit)))).map
        (fun m => (m 7).map (fun e => e.stream_id)) = some (some 99) := by
  have hpass : reconcile (fun _ => some ()) [exampleAvatar 3 11 16000, exampleAvatar 7 99 48000]
      (fun _ => (none : Option (AvatarVoiceStreamInfo Unit)))
      = some (pruneStreamInfos [exampleAvatar 3 11 16000, exampleAvatar 7 99 48000]
          (Function.update
            (Function.update (fun _ => none) 3
              (some { avatar_audio_source := 0, opus_decoder := (), sampling_rate := 16000,
                      stream_id := 11, next_seq_num_expected := 0 }))
            7
            (some { avatar_audio_source := 0, opus_decoder := (), sampling_rate := 48000,
                    stream_id := 99, next_seq_num_expected := 0 }))) := rfl
  obtain ⟨e, he, hs, _⟩ := C15_reconcile_creates (fun _ => some ())
    [exampleAvatar 3 11 16000, exampleAvatar 7 99 48000]
    (fun _ => (none : Option (AvatarVoiceStreamInfo Unit))) _ (exampleAvatar 7 99 48000) 0
    hpass (by simp) rfl (by decide)
    (by
      intro b hb hk
      rcases List.mem_cons.mp hb with h1 | h1
      · rw [h1] at hk
        exact absurd hk (by decide)
      · simpa using h1)
  have he2 : pruneStreamInfos [exampleAvatar 3 11 16000, exampleAvatar 7 99 48000]
          (Function.update
            (Function.update (fun _ => none) 3
              (some { avatar_audio_source := 0, opus_decoder := (), sampling_rate := 16000,
                      stream_id := 11, next_seq_num_expected := 0 }))
            7
            (some { avatar_audio_source := 0, opus_decoder := (), sampling_rate := 48000,
                    stream_id := 99, next_seq_num_expected := 0 })) 7 = some e := he
  rw [hpass, Option.map_some', he2, Option.map_some', hs]
  rfl

/-- C16: reconciliation prunes.  After a reconciliation pass that completes, every entry left
in the decode map, under key `k`, corresponds to an avatar of the world state with UID `k` and
a non-null audio source; and a key for which every avatar with that UID (if any) has a null
audio source has no entry: entries whose avatar vanished or lost its source are removed. -/
theorem C16_reconcile_prunes {δ : Type} (opus_decoder_create : Nat → Option δ)
    (avatars : List Avatar) (info info2 : Nat → Option (AvatarVoiceStreamInfo δ))
    (hpass : reconcile opus_decoder_create avatars info = some info2) :
    (∀ k e, info2 k = some e → ∃ a ∈ avatars, a.uid = k ∧ a.audio_source ≠ none)
      ∧ (∀ k, (∀ a ∈ avatars, a.uid = k → a.audio_source = none) → info2 k = none) := by
  unfold reconcile at hpass
  cases hc : createStreamInfos opus_decoder_create info avatars with
  | none => simp only [hc, Option.map_none'] at hpass; exact absurd hpass (by simp)
  | some cur2 =>
    simp only [hc, Option.map_some', Option.some.injEq] at hpass
    subst hpass
    constructor
    · intro k e hk
      simp only [pruneStreamInfos] at hk
      cases hcur : cur2 k with
      | none => simp only [hcur] at hk; exact absurd hk (by simp)
      | some e0 =>
        simp only [hcur] at hk
        by_cases hr : removeEntry avatars k = true
        · rw [if_pos hr] at hk; exact absurd hk (by simp)
        · unfold removeEntry at hr
          cases hf : avatars.find? (fun a => decide (a.uid = k)) with
          | none => simp only [hf] at hr; exact absurd trivial hr
          | some a =>
            simp only [hf] at hr
            refine ⟨a, List.mem_of_find?_eq_some hf, by simpa using List.find?_some hf, ?_⟩
            intro hn
            rw [hn] at hr
            exact hr rfl
    · intro k hall
      simp only [pruneStreamInfos]
      cases hcur : cur2 k with
      | none => rfl
      | some e0 =>
        have hr : removeEntry avatars k = true := by
          unfold removeEntry
          cases hf : avatars.find? (fun a => decide (a.uid = k)) with
          | none => rfl
          | some a =>
            have hn := hall a (List.mem_of_find?_eq_some hf) (by simpa using List.find?_some hf)
            simp only [hn, Option.isNone_none]
        simp only [hr, if_true]

/-- Witness for C16: the decode map has an entry for avatar 7; in the world state avatar 7 has
lost its audio source.  After the pass the entry is gone. -/
theorem C16_reconcile_prunes_witness :
    (reconcile (fun _ => some ())
        [{ uid := 7, audio_source := none, audio_stream_id := 99,
           audio_stream_sampling_rate := 48000 }]
        (exampleReceiver 5 0).avatar_stream_info).map (fun m => (m 7).isSome) = some false := by
  have hpass : reconcile (fun _ => some ())
        [{ uid := 7, audio_source := none, audio_stream_id := 99,
           audio_stream_sampling_rate := 48000 }]
        (exampleReceiver 5 0).avatar_stream_info
      = some (pruneStreamInfos
          [{ uid := 7, audio_source := none, audio_stream_id := 99,
             audio_stream_sampling_rate := 48000 }]
          (exampleReceiver 5 0).avatar_stream_info) := rfl
  have h := (C16_reconcile_prunes (fun _ => some ())
    [{ uid := 7, audio_source := none, audio_stream_id := 99,
       audio_stream_sampling_rate := 48000 }]
    (exampleReceiver 5 0).avatar_stream_info _ hpass).2 7
    (by
      intro a ha _
      have : a = { uid := 7, audio_source := none, audio_stream_id := 99,
                   audio_stream_sampling_rate := 48000 } := by simpa using ha
      rw [this])
  rw [hpass, Option.map_some', h]
  rfl

/-- C17, as stated, fails when the key `(uint32)uid` is shared or is not the UID.  The entry
under key 7 has stream id 99 and expects 42; avatar 7 now has stream id 100.  With a second
avatar of UID `2^32 + 7` (stream id 200, 16 kHz) the entry after the pass carries that avatar's
stream id and rate, not those of avatar 7.  And when the only avatar is the one with UID
`2^32 + 7`, the entry renewed under key 7 is erased again in the same pass, so that the packet
with sequence number 0 is not accepted: nothing is queued. -/
theorem C17_counterexample_shared_key :
    ((exampleReceiver 42 0).avatar_stream_info 7).map
        (fun e => (e.stream_id, e.next_seq_num_expected)) = some (99, 42)
      ∧ (reconcile (fun _ => some ())
          [exampleAvatar 7 100 48000, exampleAvatar (2 ^ 32 + 7) 200 16000]
          (exampleReceiver 42 0).avatar_stream_info).map
          (fun m => (m 7).map
            (fun e => (e.stream_id, e.sampling_rate, e.next_seq_num_expected)))
        = some (some (200, 16000, 0))
      ∧ (reconcile (fun _ => some ()) [exampleAvatar (2 ^ 32 + 7) 200 16000]
          (exampleReceiver 42 0).avatar_stream_info).map (fun m => (m 7).isSome)
        = some false
      ∧ (reconcile (fun _ => some ()) [exampleAvatar (2 ^ 32 + 7) 200 16000]
          (exampleReceiver 42 0).avatar_stream_info).map
          (fun m => ((handlePacket silenceDecoder 1
            { (exampleReceiver 42 0) with avatar_stream_info := m } 1 (examplePacket 0)
            15).audio_sources 0).buffer.length)
        = some 0 := by
  refine ⟨by decide, by decide, by decide, by decide⟩

/-- C17, amended: stream renewal.  If the decode entry under an avatar's UID has a stream id
different from the avatar's current one, where the avatar has an audio source, its UID is below
2^32 and no other avatar shares its low 32 bits, a reconciliation pass that completes replaces
the entry
by a fresh one with the avatar's stream id, sampling rate and audio source and with
`next_seq_num_expected = 0`, whatever the old value was; a following voice packet from the
server with sequence number 0 for that avatar then passes the sequence check: if the decoder
does not reject it, 1 is expected afterwards, and if it decodes to `sampling_rate / 100`
samples these are appended to the queue of the avatar's audio source. -/
theorem C17_stream_renewal {δ : Type} (D : ReceiveExternals δ)
    (opus_decoder_create : Nat → Option δ) (server_ip_addr : Nat)
    (avatars : List Avatar) (st : ClientUDPHandlerThread δ)
    (info2 : Nat → Option (AvatarVoiceStreamInfo δ))
    (old : AvatarVoiceStreamInfo δ) (av : Avatar) (h : Nat)
    (hold : st.avatar_stream_info av.uid = some old)
    (hdiff : old.stream_id ≠ av.audio_stream_id)
    (hpass : reconcile opus_decoder_create avatars st.avatar_stream_info = some info2)
    (hav : av ∈ avatars) (hsrc : av.audio_source = some h) (huid : av.uid < 2 ^ 32)
    (huniq : ∀ b ∈ avatars, b.uid % 2 ^ 32 = av.uid % 2 ^ 32 → b = av) :
    ∃ e, info2 av.uid = some e
      ∧ e.stream_id = av.audio_stream_id
      ∧ e.sampling_rate = av.audio_stream_sampling_rate
      ∧ e.avatar_audio_source = h
      ∧ e.next_seq_num_expected = 0
      ∧ ∀ (packet_buf : List Nat) (packet_len : Nat), 12 ≤ packet_len →
          readU32 packet_buf 0 = 1 → readU32 packet_buf 4 = av.uid →
          readU32 packet_buf 8 = 0 →
          0 ≤ (decodeResult D { st with avatar_stream_info := info2 } e packet_buf
                packet_len).1 →
          nextSeqExpected
              (handlePacket D server_ip_addr { st with avatar_stream_info := info2 }
                server_ip_addr packet_buf packet_len) av.uid = 1
            ∧ ((decodeResult D { st with avatar_stream_info := info2 } e packet_buf
                  packet_len).1 = Int.tdiv (toInt32 e.sampling_rate) 100 →
                ((handlePacket D server_ip_addr { st with avatar_stream_info := info2 }
                    server_ip_addr packet_buf packet_len).audio_sources h).buffer
                  = (appendToSource (st.audio_sources h)
                      (decodeResult D { st with avatar_stream_info := info2 } e packet_buf
                        packet_len).2.1
                      (decodeResult D { st with avatar_stream_info := info2 } e packet_buf
                        packet_len).1.toNat 0).buffer) := by
  obtain ⟨e, he, hsid, hre⟩ := reconcile_entry opus_decoder_create avatars
    st.avatar_stream_info info2 av h hpass hav hsrc huid huniq
  have hfresh : e.sampling_rate = av.audio_stream_sampling_rate ∧ e.next_seq_num_expected = 0
      ∧ e.avatar_audio_source = h := by
    rcases hre with h1 | ⟨h1, h2, h3, _⟩
    · rw [hold] at h1
      cases h1
      exact absurd hsid hdiff
    · exact ⟨h1, h2, h3⟩
  refine ⟨e, he, hsid, hfresh.1, hfresh.2.2, hfresh.2.1, ?_⟩
  intro packet_buf packet_len hlen htype hid hseq hok
  have hentry : ({ st with avatar_stream_info := info2 } :
      ClientUDPHandlerThread δ).avatar_stream_info (readU32 packet_buf 4) = some e := by
    rw [hid]; exact he
  rw [handlePacket_voice D server_ip_addr _ server_ip_addr packet_buf packet_len e rfl hlen
    htype hentry, hid]
  have hseq2 : e.next_seq_num_expected ≤ readU32 packet_buf 8 := by
    rw [hfresh.2.1]; omega
  constructor
  · by_cases hrate : (decodeResult D { st with avatar_stream_info := info2 } e packet_buf
        packet_len).1 = Int.tdiv (toInt32 e.sampling_rate) 100
    · rw [handleVoicePacket_accept D _ _ e packet_buf packet_len hseq2 hok hrate]
      simp only [nextSeqExpected, Function.update_same, hfresh.2.1]
      rfl
    · rw [handleVoicePacket_wrong_length D _ _ e packet_buf packet_len hseq2 hok hrate]
      simp only [nextSeqExpected, Function.update_same, hfresh.2.1]
      rfl
  · intro hrate
    rw [handleVoicePacket_accept D _ _ e packet_buf packet_len hseq2 hok hrate]
    rw [hfresh.2.2]
    simp only [Function.update_same, appendToSource]

/-- Witness for C17 (amended): a receiver that expects 42 for avatar 7 on stream 99; the avatar now
has stream id 100.  After the pass the entry has stream id 100 and expects 0, and the packet
with sequence number 0 is accepted (1 is expected afterwards). -/
theorem C17_stream_renewal_witness :
    (reconcile (fun _ => some ()) [exampleAvatar 7 100 48000]
        (exampleReceiver 42 0).avatar_stream_info).map
        (fun m => (m 7).map (fun e => (e.stream_id, e.next_seq_num_expected)))
      = some (some (100, 0))
    ∧ nextSeqExpected
        (handlePacket silenceDecoder 1
          { (exampleReceiver 42 0) with
            avatar_stream_info := pruneStreamInfos [exampleAvatar 7 100 48000]
              (Function.update (exampleReceiver 42 0).avatar_stream_info 7
                (some { avatar_audio_source := 0, opus_decoder := (), sampling_rate := 48000,
                        stream_id := 100, next_seq_num_expected := 0 })) }
          1 (examplePacket 0) 15) 7 = 1 := by
  have hpass : reconcile (fun _ => some ()) [exampleAvatar 7 100 48000]
      (exampleReceiver 42 0).avatar_stream_info
      = some (pruneStreamInfos [exampleAvatar 7 100 48000]
          (Function.update (exampleReceiver 42 0).avatar_stream_info 7
            (some { avatar_audio_source := 0, opus_decoder := (), sampling_rate := 48000,
                    stream_id := 100, next_seq_num_expected := 0 }))) := rfl
  obtain ⟨e, he, hs, _, _, hn, hpk⟩ := C17_stream_renewal silenceDecoder (fun _ => some ()) 1
    [exampleAvatar 7 100 48000] (exampleReceiver 42 0) _
    { avatar_audio_source := 0, opus_decoder := (), sampling_rate := 48000, stream_id := 99,
      next_seq_num_expected := 42 }
    (exampleAvatar 7 100 48000) 0 rfl (by decide) hpass (by simp) rfl (by decide)
    (by
      intro b hb _
      simpa using hb)
  have he2 : pruneStreamInfos [exampleAvatar 7 100 48000]
      (Function.update (exampleReceiver 42 0).avatar_stream_info 7
        (some { avatar_audio_source := 0, opus_decoder := (), sampling_rate := 48000,
                stream_id := 100, next_seq_num_expected := 0 })) 7 = some e := he
  refine ⟨?_, ?_⟩
  · rw [hpass, Option.map_some', he2, Option.map_some', hs, hn]
    rfl
  · exact (hpk (examplePacket 0) 15 (by decide) (by decide) (by decide) (by decide)
      (by show (0 : Int) ≤ 480; decide)).1

/-! ## Whole runs of the capture worker: C18, C19, C20 -/

/-- A pass of the frame loop body touches neither `out_msg_queue` nor `stream_id`. -/
theorem frameStep_out {ε ρ : Type} (X : CaptureExternals ε ρ) (rate : Nat)
    (st : MicReadThread ε ρ) (cur_i : Nat) :
    (frameStep X rate st cur_i).state.out_msg_queue = st.out_msg_queue
      ∧ (frameStep X rate st cur_i).state.stream_id = st.stream_id := by
  rcases frameStep_cases X rate st cur_i with h | h | h <;> rw [h] <;> exact ⟨rfl, rfl⟩

theorem emitFrames_out {ε ρ : Type} (X : CaptureExternals ε ρ) (rate : Nat) :
    ∀ (fuel : Nat) (st : MicReadThread ε ρ) (cur_i : Nat),
      (emitFrames X rate fuel st cur_i).2.1.out_msg_queue = st.out_msg_queue
        ∧ (emitFrames X rate fuel st cur_i).2.1.stream_id = st.stream_id
        ∧ (emitFrames X rate fuel st cur_i).2.1.pcm_buffer = st.pcm_buffer := by
  intro fuel
  induction fuel with
  | zero => intro st cur_i; exact ⟨rfl, rfl, rfl⟩
  | succ fuel ih =>
    intro st cur_i
    have hf := frameStep_out X rate st cur_i
    have hp := frameStep_pcm_buffer X rate st cur_i
    unfold emitFrames
    cases hfs : frameStep X rate st cur_i with
    | stop st2 => rw [hfs] at hf hp; exact ⟨hf.1, hf.2, hp⟩
    | threw st2 => rw [hfs] at hf hp; exact ⟨hf.1, hf.2, hp⟩
    | next st2 cur_i2 =>
      rw [hfs] at hf hp
      have h2 := ih st2 cur_i2
      simp only [FrameStep.state] at hf hp
      exact ⟨by rw [← hf.1]; exact h2.1, by rw [← hf.2]; exact h2.2.1,
        by rw [← hp]; exact h2.2.2⟩

theorem emitAndCompact_out {ε ρ : Type} (X : CaptureExternals ε ρ) (rate fuel : Nat)
    (st : MicReadThread ε ρ) :
    (emitAndCompact X rate fuel st).2.out_msg_queue = st.out_msg_queue
      ∧ (emitAndCompact X rate fuel st).2.stream_id = st.stream_id
      ∧ (emitAndCompact X rate fuel st).1 = (emitFrames X rate fuel st 0).1 := by
  have h := emitFrames_out X rate fuel st 0
  unfold emitAndCompact
  revert h
  generalize emitFrames X rate fuel st 0 = res
  obtain ⟨ex, st3, c⟩ := res
  intro h
  cases ex <;> exact ⟨h.1, h.2.1, rfl⟩

theorem drainPass_out {ε ρ : Type} (X : CaptureExternals ε ρ) (rate fuel : Nat)
    (st : MicReadThread ε ρ) (cb : List ℚ) (r : LoopExit × MicReadThread ε ρ)
    (hr : drainPass X rate fuel st cb = some r) :
    r.2.out_msg_queue = st.out_msg_queue ∧ r.2.stream_id = st.stream_id := by
  unfold drainPass at hr
  by_cases he : cb.isEmpty = true
  · rw [if_pos he] at hr
    exact absurd hr (by simp)
  · rw [if_neg he] at hr
    by_cases hge : 0 ≤ framesToCopy st.pcm_buffer.length cb.length
    · simp only [ge_iff_le, hge, not_true_eq_false, if_false, Option.some.injEq] at hr
      subst hr
      have h := emitAndCompact_out X rate fuel
        (appendAndGain st cb (framesToCopy st.pcm_buffer.length cb.length).toNat)
      exact ⟨h.1, h.2.1⟩
    · simp only [ge_iff_le, hge, not_false_eq_true, if_true, Option.some.injEq] at hr
      subst hr
      exact ⟨rfl, rfl⟩

theorem innerLoop_out {ε ρ : Type} (X : CaptureExternals ε ρ) (rate fuel : Nat)
    (deliveries : List (List ℚ)) :
    ∀ st : MicReadThread ε ρ,
      (innerLoop X rate fuel st deliveries).2.out_msg_queue = st.out_msg_queue
        ∧ (innerLoop X rate fuel st deliveries).2.stream_id = st.stream_id := by
  induction deliveries with
  | nil => intro st; exact ⟨rfl, rfl⟩
  | cons cb rest ih =>
    intro st
    unfold innerLoop
    cases hd : drainPass X rate fuel st cb with
    | none => exact ⟨rfl, rfl⟩
    | some r =>
      obtain ⟨ex, st2⟩ := r
      have h2 := drainPass_out X rate fuel st cb (ex, st2) hd
      cases ex with
      | finished =>
        have h3 := ih st2
        exact ⟨by rw [← h2.1]; exact h3.1, by rw [← h2.2]; exact h3.2⟩
      | threw => exact h2
      | outOfFuel => exact h2

theorem pollMessages_out {ε ρ : Type} (st : MicReadThread ε ρ) :
    (pollMessages st).out_msg_queue = st.out_msg_queue
      ∧ (pollMessages st).stream_id = st.stream_id := by
  unfold pollMessages
  cases st.msg_queue with
  | nil => exact ⟨rfl, rfl⟩
  | cons msg rest => cases msg <;> exact ⟨rfl, rfl⟩

/-- One iteration of the main loop appends to `out_msg_queue` the renewal message (flags 1,
the codec rate, the stream id) when the timer has elapsed, and nothing otherwise. -/
theorem mainIteration_out {ε ρ : Type} (X : CaptureExternals ε ρ) (rate fuel : Nat)
    (st : MicReadThread ε ρ) (inp : IterationInput) :
    (mainIteration X rate fuel st inp).2.out_msg_queue
        = st.out_msg_queue ++
          (if inp.timer_elapsed = true then
            [OutMessage.AudioStreamToServerStartedMessage (opusSamplingRate rate) 1 st.stream_id]
           else [])
      ∧ (mainIteration X rate fuel st inp).2.stream_id = st.stream_id := by
  unfold mainIteration
  have hp := pollMessages_out { st with msg_queue := st.msg_queue ++ inp.enqueued }
  by_cases ht : inp.timer_elapsed = true
  · simp only [ht, if_true]
    have h := innerLoop_out X rate fuel inp.deliveries
      { pollMessages { st with msg_queue := st.msg_queue ++ inp.enqueued } with
        out_msg_queue :=
          (pollMessages { st with msg_queue := st.msg_queue ++ inp.enqueued }).out_msg_queue ++
            [OutMessage.AudioStreamToServerStartedMessage (opusSamplingRate rate) 1
              (pollMessages { st with msg_queue := st.msg_queue ++ inp.enqueued }).stream_id] }
    rw [h.1, h.2]
    simp only [hp.1, hp.2, and_self]
  · simp only [ht, Bool.false_eq_true, if_false, List.append_nil]
    have h := innerLoop_out X rate fuel inp.deliveries
      (pollMessages { st with msg_queue := st.msg_queue ++ inp.enqueued })
    rw [h.1, h.2]
    exact hp

/-- Over the main loop `out_msg_queue` grows by renewal messages only. -/
theorem mainLoop_out {ε ρ : Type} (X : CaptureExternals ε ρ) (rate fuel : Nat)
    (inputs : List IterationInput) :
    ∀ st : MicReadThread ε ρ,
      ∃ k : Nat, (mainLoop X rate fuel st inputs).2.out_msg_queue
          = st.out_msg_queue ++ List.replicate k
              (OutMessage.AudioStreamToServerStartedMessage (opusSamplingRate rate) 1
                st.stream_id)
        ∧ (mainLoop X rate fuel st inputs).2.stream_id = st.stream_id := by
  induction inputs with
  | nil => intro st; exact ⟨0, by simp [mainLoop], rfl⟩
  | cons inp rest ih =>
    intro st
    unfold mainLoop
    have h1 := mainIteration_out X rate fuel st inp
    revert h1
    generalize mainIteration X rate fuel st inp = res
    obtain ⟨ex, st2⟩ := res
    intro h1
    have hone : ∃ k : Nat, st2.out_msg_queue
        = st.out_msg_queue ++ List.replicate k
            (OutMessage.AudioStreamToServerStartedMessage (opusSamplingRate rate) 1
              st.stream_id) := by
      by_cases ht : inp.timer_elapsed = true
      · exact ⟨1, by rw [h1.1, if_pos ht]; rfl⟩
      · exact ⟨0, by rw [h1.1, if_neg ht]; rfl⟩
    obtain ⟨k1, hk1⟩ := hone
    cases ex with
    | finished =>
      obtain ⟨k2, hk2, hs2⟩ := ih st2
      refine ⟨k1 + k2, ?_, ?_⟩
      · show (mainLoop X rate fuel st2 rest).2.out_msg_queue = _
        rw [hk2, hk1, h1.2, List.append_assoc, List.replicate_add]
      · show (mainLoop X rate fuel st2 rest).2.stream_id = _
        rw [hs2, h1.2]
    | threw => exact ⟨k1, hk1, h1.2⟩
    | outOfFuel => exact ⟨k1, hk1, h1.2⟩

theorem captureSamplesForFrame_pos {ε ρ : Type} (X : CaptureExternals ε ρ) (rate : Nat)
    (hneed : resampleNeeded rate = false ∨ ∀ r : ρ, 1 ≤ X.numSrcSamplesNeeded r (opusSamplesPerFrame rate))
    (st : MicReadThread ε ρ) : 1 ≤ captureSamplesForFrame X rate st := by
  unfold captureSamplesForFrame
  by_cases h : opusSamplingRate rate = rate
  · rw [if_pos h]
    unfold opusSamplesPerFrame
    rw [h]
    have hmem : rate = 8000 ∨ rate = 12000 ∨ rate = 16000 ∨ rate = 24000 ∨ rate = 48000 := by
      by_contra hn
      rw [opusSamplingRate_of_not_mem rate hn] at h
      exact hn (Or.inr (Or.inr (Or.inr (Or.inr h.symm))))
    omega
  · rw [if_neg h]
    rcases hneed with h1 | h1
    · unfold resampleNeeded at h1
      simp only [bne_eq_false_iff_eq] at h1
      exact absurd h1 h
    · exact h1 _

/-- The frame loop ends within `fuel` passes when every frame needs at least one source sample
and the fuel exceeds the number of samples from the cursor on. -/
theorem emitFrames_terminates {ε ρ : Type} (X : CaptureExternals ε ρ) (rate : Nat)
    (hneed : resampleNeeded rate = false ∨ ∀ r : ρ, 1 ≤ X.numSrcSamplesNeeded r (opusSamplesPerFrame rate)) :
    ∀ (fuel : Nat) (st : MicReadThread ε ρ) (cur_i : Nat),
      st.pcm_buffer.length - cur_i < fuel →
      (emitFrames X rate fuel st cur_i).1 ≠ LoopExit.outOfFuel := by
  intro fuel
  induction fuel with
  | zero => intro st cur_i h; omega
  | succ fuel ih =>
    intro st cur_i hlt
    unfold emitFrames
    by_cases hroom : st.pcm_buffer.length - cur_i < captureSamplesForFrame X rate st
    · rw [frameStep_stop X rate st cur_i hroom]
      simp
    · by_cases he : (encodeResult X rate st cur_i).1 < 0
      · rw [frameStep_threw X rate st cur_i hroom he]
        simp
      · rw [frameStep_next X rate st cur_i hroom he]
        simp only
        apply ih
        have hpos := captureSamplesForFrame_pos X rate hneed st
        have hpcm : (sendFrame (afterEncode X rate st cur_i)
            (encodeResult X rate st cur_i).1.toNat).pcm_buffer = st.pcm_buffer := rfl
        rw [hpcm]
        omega

theorem drainPass_terminates {ε ρ : Type} (X : CaptureExternals ε ρ) (rate fuel : Nat)
    (hneed : resampleNeeded rate = false ∨ ∀ r : ρ, 1 ≤ X.numSrcSamplesNeeded r (opusSamplesPerFrame rate))
    (hfuel : 48000 < fuel) (st : MicReadThread ε ρ) (cb : List ℚ)
    (hP : st.pcm_buffer.length ≤ max_pcm_buffer_size) (r : LoopExit × MicReadThread ε ρ)
    (hr : drainPass X rate fuel st cb = some r) : r.1 ≠ LoopExit.outOfFuel := by
  unfold drainPass at hr
  by_cases he : cb.isEmpty = true
  · rw [if_pos he] at hr
    exact absurd hr (by simp)
  · rw [if_neg he] at hr
    by_cases hge : 0 ≤ framesToCopy st.pcm_buffer.length cb.length
    · simp only [ge_iff_le, hge, not_true_eq_false, if_false, Option.some.injEq] at hr
      subst hr
      rw [(emitAndCompact_out X rate fuel _).2.2]
      apply emitFrames_terminates X rate hneed
      have hb : (appendAndGain st cb
          (framesToCopy st.pcm_buffer.length cb.length).toNat).pcm_buffer.length ≤ 48000 :=
        (pendingBound_invariant X rate).append st cb hP hge
      omega
    · simp only [ge_iff_le, hge, not_false_eq_true, if_true, Option.some.injEq] at hr
      subst hr
      simp

theorem innerLoop_terminates {ε ρ : Type} (X : CaptureExternals ε ρ) (rate fuel : Nat)
    (hneed : resampleNeeded rate = false ∨ ∀ r : ρ, 1 ≤ X.numSrcSamplesNeeded r (opusSamplesPerFrame rate))
    (hfuel : 48000 < fuel) (deliveries : List (List ℚ)) :
    ∀ st : MicReadThread ε ρ, st.pcm_buffer.length ≤ max_pcm_buffer_size →
      (innerLoop X rate fuel st deliveries).1 ≠ LoopExit.outOfFuel := by
  induction deliveries with
  | nil => intro st _; simp [innerLoop]
  | cons cb rest ih =>
    intro st hP
    unfold innerLoop
    cases hd : drainPass X rate fuel st cb with
    | none => simp
    | some r =>
      obtain ⟨ex, st2⟩ := r
      have h1 := drainPass_terminates X rate fuel hneed hfuel st cb hP (ex, st2) hd
      have h2 : st2.pcm_buffer.length ≤ max_pcm_buffer_size :=
        drainPass_invariant (pendingBound_invariant X rate) fuel st cb hP (ex, st2) hd
      cases ex with
      | finished => exact ih st2 h2
      | threw => simp
      | outOfFuel => exact absurd rfl h1

theorem mainLoop_terminates {ε ρ : Type} (X : CaptureExternals ε ρ) (rate fuel : Nat)
    (hneed : resampleNeeded rate = false ∨ ∀ r : ρ, 1 ≤ X.numSrcSamplesNeeded r (opusSamplesPerFrame rate))
    (hfuel : 48000 < fuel) (inputs : List IterationInput) :
    ∀ st : MicReadThread ε ρ, st.pcm_buffer.length ≤ max_pcm_buffer_size →
      (mainLoop X rate fuel st inputs).1 ≠ LoopExit.outOfFuel := by
  induction inputs with
  | nil => intro st _; simp [mainLoop]
  | cons inp rest ih =>
    intro st hP
    unfold mainLoop
    have h1 : (mainIteration X rate fuel st inp).1 ≠ LoopExit.outOfFuel := by
      unfold mainIteration
      apply innerLoop_terminates X rate fuel hneed hfuel
      have h0 : (pollMessages { st with msg_queue := st.msg_queue ++ inp.enqueued
          }).pcm_buffer.length ≤ max_pcm_buffer_size :=
        pollMessages_invariant (pendingBound_invariant X rate) _ hP
      split
      · exact h0
      · exact h0
    have h2 := mainIteration_invariant (pendingBound_invariant X rate) fuel st inp hP
    revert h1 h2
    generalize mainIteration X rate fuel st inp = res
    obtain ⟨ex, st2⟩ := res
    intro h1 h2
    cases ex with
    | finished => exact ih st2 h2
    | threw => simp
    | outOfFuel => exact absurd rfl h1

/-- Once the main loop has been left by an exception, further iterations do not run. -/
theorem mainLoop_threw_append {ε ρ : Type} (X : CaptureExternals ε ρ) (rate fuel : Nat)
    (inputs more : List IterationInput) :
    ∀ st : MicReadThread ε ρ, (mainLoop X rate fuel st inputs).1 = LoopExit.threw →
      mainLoop X rate fuel st (inputs ++ more) = mainLoop X rate fuel st inputs := by
  induction inputs with
  | nil => intro st h; simp [mainLoop] at h
  | cons inp rest ih =>
    intro st h
    simp only [List.cons_append]
    unfold mainLoop at h ⊢
    revert h
    generalize mainIteration X rate fuel st inp = res
    obtain ⟨ex, st2⟩ := res
    intro h
    cases ex with
    | finished => exact ih st2 h
    | threw => rfl
    | outOfFuel => rfl

/-- An encode error in a pass of the frame loop ends the frame loop with an exception; the
state is the one after the encoder call. -/
theorem emitFrames_threw {ε ρ : Type} (X : CaptureExternals ε ρ) (rate fuel : Nat)
    (st : MicReadThread ε ρ) (cur_i : Nat)
    (hroom : ¬ st.pcm_buffer.length - cur_i < captureSamplesForFrame X rate st)
    (herr : (encodeResult X rate st cur_i).1 < 0) :
    emitFrames X rate (fuel + 1) st cur_i
      = (LoopExit.threw, afterEncode X rate st cur_i, cur_i) := by
  unfold emitFrames
  rw [frameStep_threw X rate st cur_i hroom herr]

theorem startup_ok {ε ρ : Type} (cfg : MicConfig) (env : StartupEnv ε ρ)
    (st0 : MicReadThread ε ρ) (h : startup cfg env = Except.ok st0) :
    ∃ opus_encoder, st0 = loopEntryState opus_encoder env.resampler cfg.input_vol_scale_factor
      cfg.cur_level cfg.client_avatar_uid env.stream_id []
      [OutMessage.LogMessage, OutMessage.LogMessage,
        OutMessage.AudioStreamToServerStartedMessage
          (opusSamplingRate env.capture_sampling_rate) 0 env.stream_id] := by
  unfold startup at h
  split_ifs at h
  cases he : env.opus_encoder with
  | none => simp only [he] at h; exact absurd h (by simp)
  | some enc =>
    simp only [he] at h
    cases hs : env.server_ip with
    | none => simp only [hs] at h; exact absurd h (by simp)
    | some ip =>
      simp only [hs, Except.ok.injEq] at h
      exact ⟨enc, h.symm⟩

theorem startup_error {ε ρ : Type} (cfg : MicConfig) (env : StartupEnv ε ρ)
    (out : List OutMessage) (h : startup cfg env = Except.error out) :
    OutMessage.AudioStreamToServerEndedMessage ∉ out := by
  unfold startup at h
  by_cases h1 : useDeviceId cfg.input_device_name env = 0
  · rw [if_pos h1] at h
    cases h
    simp
  · rw [if_neg h1] at h
    by_cases h2 : env.open_stream_ok = true
    · simp only [h2, not_true_eq_false, if_false] at h
      by_cases h3 : env.start_stream_ok = true
      · simp only [h3, not_true_eq_false, if_false] at h
        cases he : env.opus_encoder with
        | none =>
          simp only [he, Except.error.injEq] at h
          rw [← h]
          simp
        | some enc =>
          simp only [he] at h
          cases hs : env.server_ip with
          | none =>
            simp only [hs, Except.error.injEq] at h
            rw [← h]
            simp
          | some ip => simp only [hs] at h; exact absurd h (by simp)
      · simp only [h3, not_false_eq_true, if_true] at h
        cases h
        simp
    · simp only [h2, not_false_eq_true, if_true] at h
      cases h
      simp

theorem ended_once_last (front : List OutMessage)
    (h : OutMessage.AudioStreamToServerEndedMessage ∉ front) :
    (front ++ [OutMessage.AudioStreamToServerEndedMessage]).count
        OutMessage.AudioStreamToServerEndedMessage = 1
      ∧ (front ++ [OutMessage.AudioStreamToServerEndedMessage]).getLast?
        = some OutMessage.AudioStreamToServerEndedMessage := by
  constructor
  · rw [List.count_append, List.count_eq_zero.mpr h]
    simp
  · simp

theorem filterMap_replicate_some {α β : Type} (f : α → Option β) (x : α) (y : β)
    (h : f x = some y) (k : Nat) :
    (List.replicate k x).filterMap f = List.replicate k y := by
  induction k with
  | zero => rfl
  | succ k ih => rw [List.replicate_succ, List.filterMap_cons_some h, ih, List.replicate_succ]

/-- The shape of the message trace of a run whose startup completes: the two log lines, the
handshake with flags 0, then `k` renewals with flags 1, then the tail written after the loop. -/
theorem doRun_out {ε ρ : Type} (X : CaptureExternals ε ρ) (cfg : MicConfig)
    (env : StartupEnv ε ρ) (fuel : Nat) (inputs : List IterationInput)
    (st0 : MicReadThread ε ρ) (h : startup cfg env = Except.ok st0) :
    ∃ (k : Nat) (tail : List OutMessage),
      (doRun X cfg env fuel inputs).out_msg_queue
        = [OutMessage.LogMessage, OutMessage.LogMessage,
            OutMessage.AudioStreamToServerStartedMessage
              (opusSamplingRate env.capture_sampling_rate) 0 env.stream_id]
          ++ List.replicate k
              (OutMessage.AudioStreamToServerStartedMessage
                (opusSamplingRate env.capture_sampling_rate) 1 env.stream_id)
          ++ tail
      ∧ (tail = [] ∧ (doRun X cfg env fuel inputs).returned = false
        ∨ tail = [OutMessage.AudioStreamToServerEndedMessage]
            ∧ (doRun X cfg env fuel inputs).returned = true
        ∨ tail = [OutMessage.LogMessage, OutMessage.AudioStreamToServerEndedMessage]
            ∧ (doRun X cfg env fuel inputs).returned = true) := by
  obtain ⟨enc, hst0⟩ := startup_ok cfg env st0 h
  obtain ⟨k, hk, _⟩ := mainLoop_out X env.capture_sampling_rate fuel inputs st0
  have hq : st0.out_msg_queue = [OutMessage.LogMessage, OutMessage.LogMessage,
      OutMessage.AudioStreamToServerStartedMessage
        (opusSamplingRate env.capture_sampling_rate) 0 env.stream_id] := by rw [hst0]; rfl
  have hs : st0.stream_id = env.stream_id := by rw [hst0]; rfl
  rw [hq, hs] at hk
  unfold doRun
  rw [h]
  simp only
  revert hk
  generalize mainLoop X env.capture_sampling_rate fuel st0 inputs = res
  obtain ⟨ex, st⟩ := res
  intro hk
  simp only at hk
  cases ex with
  | finished =>
    exact ⟨k, _, by simp only [hk], Or.inr (Or.inl ⟨rfl, rfl⟩)⟩
  | threw =>
    exact ⟨k, _, by simp [hk], Or.inr (Or.inr ⟨rfl, rfl⟩)⟩
  | outOfFuel =>
    exact ⟨k, [], by simp only [hk, List.append_nil], Or.inl ⟨rfl, rfl⟩⟩

/-- C18, as stated, fails: an encoder error is thrown as an exception (line 526), which leaves
the main loop.  Here the encoder fails on the first frame only and three frames are delivered
in two iterations: no packet is sent at all, the encoder is called once, and the worker ends
with a log message and `AudioStreamToServerEndedMessage`. -/
theorem C18_counterexample_worker_stops :
    (doRun failFirstEncoder exampleConfig (exampleEnv 0) 5
        [oneDelivery (List.replicate 960 0), oneDelivery (List.replicate 480 0)]).udp_sent = []
      ∧ (doRun failFirstEncoder exampleConfig (exampleEnv 0) 5
          [oneDelivery (List.replicate 960 0), oneDelivery (List.replicate 480 0)]).out_msg_queue
        = [OutMessage.LogMessage, OutMessage.LogMessage,
            OutMessage.AudioStreamToServerStartedMessage 48000 0 99, OutMessage.LogMessage,
            OutMessage.AudioStreamToServerEndedMessage]
      ∧ (mainLoop failFirstEncoder 48000 5 (loopEntryState 0 () 1 0 7 99 [] [])
          [oneDelivery (List.replicate 960 0),
            oneDelivery (List.replicate 480 0)]).2.encoder_input.length = 1 := by
  refine ⟨by decide, by decide, by decide⟩

theorem emitFrames_of_frameLoopAt {ε ρ : Type} (X : CaptureExternals ε ρ) (rate m : Nat) :
    ∀ (k : Nat) (st : MicReadThread ε ρ) (cur_i : Nat) (st2 : MicReadThread ε ρ) (c : Nat),
      frameLoopAt X rate k st cur_i = some (st2, c) →
      emitFrames X rate (k + m) st cur_i = emitFrames X rate m st2 c := by
  intro k
  induction k with
  | zero =>
    intro st cur_i st2 c h
    simp only [frameLoopAt, Option.some.injEq, Prod.mk.injEq] at h
    rw [Nat.zero_add, h.1, h.2]
  | succ k ih =>
    intro st cur_i st2 c h
    rw [Nat.add_right_comm]
    unfold frameLoopAt at h
    conv_lhs => unfold emitFrames
    cases hfs : frameStep X rate st cur_i with
    | stop s => rw [hfs] at h; exact absurd h (by simp)
    | threw s => rw [hfs] at h; exact absurd h (by simp)
    | next s c2 =>
      rw [hfs] at h
      exact ih s c2 st2 c h

theorem frameLoopAt_succ {ε ρ : Type} (X : CaptureExternals ε ρ) (rate : Nat)
    (st : MicReadThread ε ρ) (cur_i : Nat) (s : MicReadThread ε ρ) (c2 : Nat)
    (hfs : frameStep X rate st cur_i = FrameStep.next s c2) (k : Nat) :
    frameLoopAt X rate (k + 1) st cur_i = frameLoopAt X rate k s c2 := by
  show (match frameStep X rate st cur_i with
    | FrameStep.next st2 cur_i2 => frameLoopAt X rate k st2 cur_i2
    | _ => none) = _
  rw [hfs]

/-- An encoder error in pass `k` of the frame loop ends the loop with an exception, whatever
the fuel above `k`; the state is the one after the failing encoder call. -/
theorem emitFrames_throws_at {ε ρ : Type} (X : CaptureExternals ε ρ) (rate fuel k : Nat)
    (st : MicReadThread ε ρ) (cur_i : Nat) (st3 : MicReadThread ε ρ) (c : Nat)
    (hk : frameLoopAt X rate k st cur_i = some (st3, c))
    (hroom : ¬ st3.pcm_buffer.length - c < captureSamplesForFrame X rate st3)
    (herr : (encodeResult X rate st3 c).1 < 0) (hfuel : k < fuel) :
    emitFrames X rate fuel st cur_i = (LoopExit.threw, afterEncode X rate st3 c, c) := by
  obtain ⟨m, hm⟩ : ∃ m, fuel = k + (m + 1) := ⟨fuel - k - 1, by omega⟩
  rw [hm, emitFrames_of_frameLoopAt X rate (m + 1) k st cur_i st3 c hk]
  exact emitFrames_threw X rate m st3 c hroom herr

theorem emitAndCompact_threw {ε ρ : Type} (X : CaptureExternals ε ρ) (rate fuel : Nat)
    (st s : MicReadThread ε ρ) (c : Nat)
    (h : emitFrames X rate fuel st 0 = (LoopExit.threw, s, c)) :
    emitAndCompact X rate fuel st = (LoopExit.threw, s) := by
  unfold emitAndCompact
  rw [h]

theorem drainPass_nonempty {ε ρ : Type} (X : CaptureExternals ε ρ) (rate fuel : Nat)
    (st : MicReadThread ε ρ) (cb : List ℚ) (hcb : cb ≠ [])
    (hcopy : 0 ≤ framesToCopy st.pcm_buffer.length cb.length) :
    drainPass X rate fuel st cb
      = some (emitAndCompact X rate fuel
          (appendAndGain st cb (framesToCopy st.pcm_buffer.length cb.length).toNat)) := by
  unfold drainPass
  have he : cb.isEmpty = false := by
    cases cb with
    | nil => exact absurd rfl hcb
    | cons x xs => rfl
  simp only [he, Bool.false_eq_true, if_false, ge_iff_le, hcopy, not_true_eq_false]

theorem innerLoop_append_finished {ε ρ : Type} (X : CaptureExternals ε ρ) (rate fuel : Nat)
    (rest : List (List ℚ)) :
    ∀ (pre_d : List (List ℚ)) (st st2 : MicReadThread ε ρ),
      innerLoop X rate fuel st pre_d = (LoopExit.finished, st2) →
      (∀ d ∈ pre_d, d ≠ []) →
      innerLoop X rate fuel st (pre_d ++ rest) = innerLoop X rate fuel st2 rest := by
  intro pre_d
  induction pre_d with
  | nil =>
    intro st st2 h _
    simp only [innerLoop, Prod.mk.injEq, true_and] at h
    rw [List.nil_append, h]
  | cons d ds ih =>
    intro st st2 h hne
    have hd : d ≠ [] := hne d (List.mem_cons_self d ds)
    have hempty : d.isEmpty = false := by
      cases d with
      | nil => exact absurd rfl hd
      | cons x xs => rfl
    rw [List.cons_append]
    unfold innerLoop at h
    conv_lhs => unfold innerLoop
    cases hdp : drainPass X rate fuel st d with
    | none =>
      unfold drainPass at hdp
      simp only [hempty, Bool.false_eq_true, if_false] at hdp
      split_ifs at hdp
    | some r =>
      obtain ⟨ex, s⟩ := r
      rw [hdp] at h
      cases ex with
      | finished =>
        exact ih s st2 h (fun d2 hd2 => hne d2 (List.mem_cons_of_mem d hd2))
      | threw => simp at h
      | outOfFuel => simp at h

theorem mainLoop_append_finished {ε ρ : Type} (X : CaptureExternals ε ρ) (rate fuel : Nat)
    (rest : List IterationInput) :
    ∀ (pre : List IterationInput) (st st1 : MicReadThread ε ρ),
      mainLoop X rate fuel st pre = (LoopExit.finished, st1) →
      mainLoop X rate fuel st (pre ++ rest) = mainLoop X rate fuel st1 rest := by
  intro pre
  induction pre with
  | nil =>
    intro st st1 h
    simp only [mainLoop, Prod.mk.injEq, true_and] at h
    rw [List.nil_append, h]
  | cons inp ins ih =>
    intro st st1 h
    rw [List.cons_append]
    unfold mainLoop at h
    conv_lhs => unfold mainLoop
    revert h
    generalize mainIteration X rate fuel st inp = res
    obtain ⟨ex, s⟩ := res
    intro h
    cases ex with
    | finished => exact ih s st1 h
    | threw => simp at h
    | outOfFuel => simp at h

theorem mainIteration_eq {ε ρ : Type} (X : CaptureExternals ε ρ) (rate fuel : Nat)
    (st : MicReadThread ε ρ) (inp : IterationInput) :
    mainIteration X rate fuel st inp
      = innerLoop X rate fuel (controlStep rate st inp.enqueued inp.timer_elapsed)
          inp.deliveries := rfl

/-- C18, amended: an encoder error ends the run.  Take any run of the main loop: the
iterations `pre` complete; in the next iteration the drains of the deliveries `pre_d` complete;
in the drain of the following delivery `cb` the frame loop sends `k` packets and then, in the
state `st3` with the cursor `c`, the encoder reports an error for the frame at the cursor.
Then, whatever is delivered afterwards (`rest_d`, `more`), the main loop is left by the
exception, in the state right after the failing encoder call: the packets sent are those sent
before the error (none for the failing frame, none later), and the failing frame is the last one
handed to the encoder.  `doRun` then returns after enqueuing a log message and
`AudioStreamToServerEndedMessage`. -/
theorem C18_encode_failure_ends_run {ε ρ : Type} (X : CaptureExternals ε ρ) (rate fuel : Nat)
    (st0 st1 st2 st3 : MicReadThread ε ρ) (pre more : List IterationInput)
    (inp : IterationInput) (pre_d rest_d : List (List ℚ)) (cb : List ℚ) (k c : Nat)
    (hpre : mainLoop X rate fuel st0 pre = (LoopExit.finished, st1))
    (hdel : inp.deliveries = pre_d ++ cb :: rest_d)
    (hpre_d : innerLoop X rate fuel (controlStep rate st1 inp.enqueued inp.timer_elapsed) pre_d
      = (LoopExit.finished, st2))
    (hne : ∀ d ∈ pre_d, d ≠ [])
    (hcb : cb ≠ [])
    (hcopy : 0 ≤ framesToCopy st2.pcm_buffer.length cb.length)
    (hk : frameLoopAt X rate k
      (appendAndGain st2 cb (framesToCopy st2.pcm_buffer.length cb.length).toNat) 0
      = some (st3, c))
    (hroom : ¬ st3.pcm_buffer.length - c < captureSamplesForFrame X rate st3)
    (herr : (encodeResult X rate st3 c).1 < 0)
    (hfuel : k < fuel) :
    mainLoop X rate fuel st0 (pre ++ inp :: more)
        = (LoopExit.threw, afterEncode X rate st3 c)
      ∧ (mainLoop X rate fuel st0 (pre ++ inp :: more)).2.udp_sent = st3.udp_sent
      ∧ (mainLoop X rate fuel st0 (pre ++ inp :: more)).2.encoder_input
          = st3.encoder_input ++ [(encoderFrame X rate st3 c).1]
      ∧ ∀ (cfg : MicConfig) (env : StartupEnv ε ρ),
          startup cfg env = Except.ok st0 → env.capture_sampling_rate = rate →
          doRun X cfg env fuel (pre ++ inp :: more)
            = { returned := true,
                out_msg_queue := st3.out_msg_queue
                  ++ [OutMessage.LogMessage, OutMessage.AudioStreamToServerEndedMessage],
                udp_sent := st3.udp_sent, cur_level := 0 } := by
  have hframes := emitFrames_throws_at X rate fuel k _ 0 st3 c hk hroom herr hfuel
  have hdrain : drainPass X rate fuel st2 cb = some (LoopExit.threw, afterEncode X rate st3 c) := by
    rw [drainPass_nonempty X rate fuel st2 cb hcb hcopy,
      emitAndCompact_threw X rate fuel _ _ c hframes]
  have hinner : innerLoop X rate fuel st2 (cb :: rest_d)
      = (LoopExit.threw, afterEncode X rate st3 c) := by
    unfold innerLoop
    rw [hdrain]
  have hiter : mainIteration X rate fuel st1 inp
      = (LoopExit.threw, afterEncode X rate st3 c) := by
    rw [mainIteration_eq, hdel,
      innerLoop_append_finished X rate fuel (cb :: rest_d) pre_d _ st2 hpre_d hne, hinner]
  have hmain : mainLoop X rate fuel st0 (pre ++ inp :: more)
      = (LoopExit.threw, afterEncode X rate st3 c) := by
    rw [mainLoop_append_finished X rate fuel (inp :: more) pre st0 st1 hpre]
    unfold mainLoop
    rw [hiter]
  refine ⟨hmain, by rw [hmain]; rfl, by rw [hmain]; rfl, ?_⟩
  intro cfg env hstart hrate
  subst hrate
  unfold doRun
  rw [hstart]
  simp only
  rw [hmain]
  simp only [List.append_assoc, List.singleton_append]
  rfl

/-- Witness for C18 (amended): the encoder fails on the first frame it is given; the first
iteration delivers two frames, a second iteration another one. -/
theorem C18_encode_failure_ends_run_witness :
    mainLoop failFirstEncoder 48000 5 (loopEntryState 0 () 1 0 7 99 [] [])
        ([] ++ oneDelivery (List.replicate 960 0) :: [oneDelivery (List.replicate 480 0)])
      = (LoopExit.threw, afterEncode failFirstEncoder 48000
          (appendAndGain
            (controlStep 48000 (loopEntryState 0 () 1 0 7 99 [] []) [] false)
            (List.replicate 960 0)
            (framesToCopy 0 (List.replicate 960 (0 : ℚ)).length).toNat) 0) :=
  (C18_encode_failure_ends_run failFirstEncoder 48000 5
    (loopEntryState 0 () 1 0 7 99 [] []) (loopEntryState 0 () 1 0 7 99 [] [])
    (controlStep 48000 (loopEntryState 0 () 1 0 7 99 [] []) [] false)
    (appendAndGain
      (controlStep 48000 (loopEntryState 0 () 1 0 7 99 [] []) [] false)
      (List.replicate 960 0)
      (framesToCopy 0 (List.replicate 960 (0 : ℚ)).length).toNat)
    [] [oneDelivery (List.replicate 480 0)] (oneDelivery (List.replicate 960 0))
    [] [] (List.replicate 960 0) 0 0
    rfl rfl rfl (fun d hd => absurd hd (List.not_mem_nil d)) (by decide) (by decide) rfl
    (by decide) (by decide) (by decide)).1

/-- In the RtAudio build `AudioStreamToServerEndedMessage` is enqueued exactly once per run and
is the last message enqueued, whenever `doRun` returns: after a startup failure (device not
found, stream not opened or started, encoder not created, name not resolved), after an
exception inside the loop, and after shutdown by the `die` flag.  And `doRun` does return
(with fuel above 48000 the frame loops of the model end) when the capture rate is a codec rate
or the resampler asks for at least one source sample for a frame. -/
theorem doRun_ended_once {ε ρ : Type} (X : CaptureExternals ε ρ) (cfg : MicConfig)
    (env : StartupEnv ε ρ) (fuel : Nat) (inputs : List IterationInput) :
    ((doRun X cfg env fuel inputs).returned = true →
        (doRun X cfg env fuel inputs).out_msg_queue.count
            OutMessage.AudioStreamToServerEndedMessage = 1
          ∧ (doRun X cfg env fuel inputs).out_msg_queue.getLast?
            = some OutMessage.AudioStreamToServerEndedMessage)
      ∧ (48000 < fuel →
          (resampleNeeded env.capture_sampling_rate = false
            ∨ ∀ r : ρ, 1 ≤ X.numSrcSamplesNeeded r
                (opusSamplesPerFrame env.capture_sampling_rate)) →
          (doRun X cfg env fuel inputs).returned = true) := by
  constructor
  · intro hret
    cases hst : startup cfg env with
    | error out =>
      have hne := startup_error cfg env out hst
      have hout : (doRun X cfg env fuel inputs).out_msg_queue
          = (out ++ [OutMessage.LogMessage])
            ++ [OutMessage.AudioStreamToServerEndedMessage] := by
        unfold doRun
        rw [hst]
      rw [hout]
      apply ended_once_last
      simp only [List.mem_append, List.mem_singleton, not_or]
      exact ⟨hne, by simp⟩
    | ok st0 =>
      obtain ⟨k, tail, hout, htail⟩ := doRun_out X cfg env fuel inputs st0 hst
      rw [hout]
      have hfront : OutMessage.AudioStreamToServerEndedMessage ∉
          [OutMessage.LogMessage, OutMessage.LogMessage,
            OutMessage.AudioStreamToServerStartedMessage
              (opusSamplingRate env.capture_sampling_rate) 0 env.stream_id]
          ++ List.replicate k
              (OutMessage.AudioStreamToServerStartedMessage
                (opusSamplingRate env.capture_sampling_rate) 1 env.stream_id) := by
        intro hmem
        rcases List.mem_append.mp hmem with h1 | h1
        · simp at h1
        · have := List.eq_of_mem_replicate h1
          simp at this
      rcases htail with ⟨_, h2⟩ | ⟨h1, _⟩ | ⟨h1, _⟩
      · rw [hret] at h2
        exact absurd h2 (by simp)
      · rw [h1]
        exact ended_once_last _ hfront
      · rw [h1]
        have e : ∀ front : List OutMessage,
            front ++ [OutMessage.LogMessage, OutMessage.AudioStreamToServerEndedMessage]
              = (front ++ [OutMessage.LogMessage])
                ++ [OutMessage.AudioStreamToServerEndedMessage] := by
          intro front; simp
        rw [e]
        apply ended_once_last
        intro hmem
        rcases List.mem_append.mp hmem with h3 | h3
        · exact hfront h3
        · simp at h3
  · intro hfuel hneed
    cases hst : startup cfg env with
    | error out =>
      unfold doRun
      rw [hst]
    | ok st0 =>
      obtain ⟨enc, hst0⟩ := startup_ok cfg env st0 hst
      have hterm := mainLoop_terminates X env.capture_sampling_rate fuel hneed hfuel inputs st0
        (by rw [hst0]; show ([] : List ℚ).length ≤ 48000; simp)
      unfold doRun
      rw [hst]
      simp only
      revert hterm
      generalize mainLoop X env.capture_sampling_rate fuel st0 inputs = res
      obtain ⟨ex, st⟩ := res
      intro hterm
      cases ex with
      | finished => rfl
      | threw => rfl
      | outOfFuel => exact absurd rfl hterm

/-- C20: handshake events.  In a run whose startup completes, when the main loop is entered no
packet has been sent and the message queue holds exactly one `AudioStreamToServerStartedMessage`
(StreamStarted), with flags 0; these messages stay at the front of the trace of the whole run,
in which the flags of the StreamStarted messages are 0 followed by ones only, and all of them
carry the codec rate and the stream id chosen at startup. -/
theorem C20_handshake_events {ε ρ : Type} (X : CaptureExternals ε ρ) (cfg : MicConfig)
    (env : StartupEnv ε ρ) (fuel : Nat) (inputs : List IterationInput)
    (st0 : MicReadThread ε ρ) (h : startup cfg env = Except.ok st0) :
    st0.udp_sent = []
      ∧ st0.out_msg_queue.filterMap startedFlags = [0]
      ∧ st0.out_msg_queue <+: (doRun X cfg env fuel inputs).out_msg_queue
      ∧ ∃ k : Nat,
          (doRun X cfg env fuel inputs).out_msg_queue.filterMap startedFlags
            = 0 :: List.replicate k 1
          ∧ (doRun X cfg env fuel inputs).out_msg_queue.filterMap startedParams
            = List.replicate (k + 1)
                (opusSamplingRate env.capture_sampling_rate, env.stream_id) := by
  obtain ⟨enc, hst0⟩ := startup_ok cfg env st0 h
  obtain ⟨k, tail, hout, htail⟩ := doRun_out X cfg env fuel inputs st0 h
  have hq : st0.out_msg_queue = [OutMessage.LogMessage, OutMessage.LogMessage,
      OutMessage.AudioStreamToServerStartedMessage
        (opusSamplingRate env.capture_sampling_rate) 0 env.stream_id] := by rw [hst0]; rfl
  have htf : tail.filterMap startedFlags = [] := by
    rcases htail with ⟨h1, _⟩ | ⟨h1, _⟩ | ⟨h1, _⟩ <;> rw [h1] <;> rfl
  have htp : tail.filterMap startedParams = [] := by
    rcases htail with ⟨h1, _⟩ | ⟨h1, _⟩ | ⟨h1, _⟩ <;> rw [h1] <;> rfl
  refine ⟨by rw [hst0]; rfl, by rw [hq]; rfl, ?_, k, ?_, ?_⟩
  · rw [hq, hout, List.append_assoc]
    exact List.prefix_append _ _
  · rw [hout, List.filterMap_append, List.filterMap_append, htf,
      filterMap_replicate_some startedFlags
        (OutMessage.AudioStreamToServerStartedMessage
          (opusSamplingRate env.capture_sampling_rate) 1 env.stream_id) 1 rfl,
      List.append_nil]
    rfl
  · rw [hout, List.filterMap_append, List.filterMap_append, htp,
      filterMap_replicate_some startedParams
        (OutMessage.AudioStreamToServerStartedMessage
          (opusSamplingRate env.capture_sampling_rate) 1 env.stream_id)
        (opusSamplingRate env.capture_sampling_rate, env.stream_id) rfl,
      List.replicate_succ, List.append_nil]
    rfl

/-- Witness for C20: the state in which the example run enters its main loop. -/
theorem C20_handshake_events_witness :
    (loopEntryState () () 1 0 7 99 []
        [OutMessage.LogMessage, OutMessage.LogMessage,
          OutMessage.AudioStreamToServerStartedMessage 48000 0 99]).udp_sent = []
      ∧ (loopEntryState () () 1 0 7 99 []
          [OutMessage.LogMessage, OutMessage.LogMessage,
            OutMessage.AudioStreamToServerStartedMessage 48000 0 99]).out_msg_queue.filterMap
          startedFlags = [0] := by
  have h := C20_handshake_events (constEncoder 1) exampleConfig (exampleEnv ()) 48001
    [{ enqueued := [], timer_elapsed := true, deliveries := [List.replicate 480 0] }]
    (loopEntryState () () 1 0 7 99 []
      [OutMessage.LogMessage, OutMessage.LogMessage,
        OutMessage.AudioStreamToServerStartedMessage 48000 0 99]) rfl
  exact ⟨h.1, h.2.1⟩

/-! ## Accepted order: C21 -/

theorem handlePacket_filtered {δ : Type} (D : ReceiveExternals δ) (server : Nat)
    (st : ClientUDPHandlerThread δ) (sender : Nat) (packet_buf : List Nat) (packet_len : Nat)
    (hd : sender ≠ server ∨ packet_len < 4 ∨ readU32 packet_buf 0 ≠ 1
      ∨ packet_len < 12 ∨ st.avatar_stream_info (readU32 packet_buf 4) = none) :
    handlePacket D server st sender packet_buf packet_len = st := by
  unfold handlePacket
  by_cases hs : sender = server
  · rw [if_pos hs]
    by_cases h4 : packet_len ≥ 4
    · rw [if_pos h4]
      by_cases ht : readU32 packet_buf 0 = 1
      · simp only [ht, if_true]
        by_cases h12 : packet_len ≥ 12
        · rw [if_pos h12]
          have hnone : st.avatar_stream_info (readU32 packet_buf 4) = none := by
            rcases hd with h | h | h | h | h
            · exact absurd hs h
            · omega
            · exact absurd ht h
            · omega
            · exact h
          simp only [hnone]
        · rw [if_neg h12]
      · simp only [ht, if_false]
    · rw [if_neg h4]
  · rw [if_neg hs]

/-- A datagram that does not reach the append leaves the audio sources alone, and one that
reaches it appends the decoded frame to the source of its entry. -/
theorem appendsFrame_spec {δ : Type} (D : ReceiveExternals δ) (server : Nat)
    (st : ClientUDPHandlerThread δ) (sender : Nat) (packet_buf : List Nat) (packet_len : Nat) :
    (appendsFrame D server st sender packet_buf packet_len = false →
        (handlePacket D server st sender packet_buf packet_len).audio_sources
          = st.audio_sources)
      ∧ (appendsFrame D server st sender packet_buf packet_len = true →
          ∃ si, st.avatar_stream_info (readU32 packet_buf 4) = some si
            ∧ (handlePacket D server st sender packet_buf packet_len).audio_sources
              = Function.update st.audio_sources si.avatar_audio_source
                  (appendToSource (st.audio_sources si.avatar_audio_source)
                    (decodeResult D st si packet_buf packet_len).2.1
                    (decodeResult D st si packet_buf packet_len).1.toNat
                    (maxAbs 0 ((decodeResult D st si packet_buf packet_len).2.1.take
                      (decodeResult D st si packet_buf packet_len).1.toNat)))) := by
  by_cases hs : sender = server
  swap
  · exact ⟨fun _ => by rw [handlePacket_filtered D server st sender packet_buf packet_len
      (Or.inl hs)], fun h => by simp [appendsFrame, hs] at h⟩
  by_cases h12 : 12 ≤ packet_len
  swap
  · exact ⟨fun _ => by rw [handlePacket_filtered D server st sender packet_buf packet_len
      (Or.inr (Or.inr (Or.inr (Or.inl (by omega)))))],
      fun h => by simp [appendsFrame, h12] at h⟩
  by_cases ht : readU32 packet_buf 0 = 1
  swap
  · exact ⟨fun _ => by rw [handlePacket_filtered D server st sender packet_buf packet_len
      (Or.inr (Or.inr (Or.inl ht)))], fun h => by simp [appendsFrame, ht] at h⟩
  cases hsi : st.avatar_stream_info (readU32 packet_buf 4) with
  | none =>
    exact ⟨fun _ => by rw [handlePacket_filtered D server st sender packet_buf packet_len
      (Or.inr (Or.inr (Or.inr (Or.inr hsi))))], fun h => by simp [appendsFrame, hsi] at h⟩
  | some si =>
    rw [handlePacket_voice D server st sender packet_buf packet_len si hs h12 ht hsi]
    have h4 : packet_len ≥ 4 := by omega
    by_cases hstale : readU32 packet_buf 8 < si.next_seq_num_expected
    · exact ⟨fun _ => by rw [handleVoicePacket_stale D st _ si packet_buf packet_len hstale],
        fun h => by simp [appendsFrame, hsi, hstale] at h⟩
    · have hseq : si.next_seq_num_expected ≤ readU32 packet_buf 8 := by omega
      by_cases herr : (decodeResult D st si packet_buf packet_len).1 < 0
      · exact ⟨fun _ => by
            rw [handleVoicePacket_error D st _ si packet_buf packet_len hseq herr],
          fun h => by simp [appendsFrame, hsi, herr] at h⟩
      · by_cases hrate : (decodeResult D st si packet_buf packet_len).1
            = Int.tdiv (toInt32 si.sampling_rate) 100
        · refine ⟨fun h => ?_, fun _ => ⟨si, rfl, ?_⟩⟩
          · exfalso
            have herr2 : ¬ Int.tdiv (toInt32 si.sampling_rate) 100 < 0 := by
              rw [← hrate]; exact herr
            simp [appendsFrame, hs, h4, ht, h12, hsi, hstale, hrate, herr2] at h
          · rw [handleVoicePacket_accept D st _ si packet_buf packet_len hseq (by omega) hrate]
        · exact ⟨fun _ => by
              rw [handleVoicePacket_wrong_length D st _ si packet_buf packet_len hseq
                (by omega) hrate],
            fun h => by simp [appendsFrame, hsi, hrate] at h⟩

/-- C21, evaluated on the code: a receiver that expects 5 for avatar 7 gets the voice packet
with sequence number 10 twice; both deliveries are appended (960 samples queued), so the
sequence numbers of the appended packets are 10, 10.  Likewise the packets 10 and then 7 are
both appended.  The sequence numbers of the appended packets are not strictly increasing. -/
theorem C21_duplicate_appended_twice :
    appendedSeqs silenceDecoder 1 (exampleReceiver 5 0)
        [(1, examplePacket 10, 15), (1, examplePacket 10, 15)] = [10, 10]
      ∧ ((handlePackets silenceDecoder 1 (exampleReceiver 5 0)
          [(1, examplePacket 10, 15), (1, examplePacket 10, 15)]).audio_sources 0).buffer.length
        = 960
      ∧ appendedSeqs silenceDecoder 1 (exampleReceiver 5 0)
          [(1, examplePacket 10, 15), (1, examplePacket 7, 15)] = [10, 7] := by
  refine ⟨by decide, by decide, by decide⟩

/-! ## The frame loop: C22, C28 -/

theorem opusSamplesPerFrame_ge (rate : Nat) : 80 ≤ opusSamplesPerFrame rate := by
  unfold opusSamplesPerFrame
  by_cases h : rate = 8000 ∨ rate = 12000 ∨ rate = 16000 ∨ rate = 24000 ∨ rate = 48000
  · rw [opusSamplingRate_of_mem rate h]
    omega
  · rw [opusSamplingRate_of_not_mem rate h]
    decide

theorem opusSamplingRate_eq_of_no_resample (rate : Nat) (h : resampleNeeded rate = false) :
    opusSamplingRate rate = rate := by
  unfold resampleNeeded at h
  simpa using h

theorem emitFrames_more_fuel {ε ρ : Type} (X : CaptureExternals ε ρ) (rate : Nat) (k : Nat) :
    ∀ (fuel : Nat) (st : MicReadThread ε ρ) (cur_i : Nat),
      (emitFrames X rate fuel st cur_i).1 ≠ LoopExit.outOfFuel →
      emitFrames X rate (fuel + k) st cur_i = emitFrames X rate fuel st cur_i := by
  intro fuel
  induction fuel with
  | zero => intro st cur_i h; simp [emitFrames] at h
  | succ fuel ih =>
    intro st cur_i h
    rw [Nat.add_right_comm]
    unfold emitFrames at h ⊢
    cases hfs : frameStep X rate st cur_i with
    | stop st2 => rfl
    | threw st2 => rfl
    | next st2 c2 =>
      rw [hfs] at h
      exact ih st2 c2 h

theorem emitFrames_cursor {ε ρ : Type} (X : CaptureExternals ε ρ) (rate : Nat) :
    ∀ (fuel : Nat) (st : MicReadThread ε ρ) (cur_i : Nat),
      cur_i ≤ st.pcm_buffer.length →
      (emitFrames X rate fuel st cur_i).2.2
        ≤ (emitFrames X rate fuel st cur_i).2.1.pcm_buffer.length := by
  intro fuel
  induction fuel with
  | zero => intro st cur_i h; exact h
  | succ fuel ih =>
    intro st cur_i h
    unfold emitFrames
    by_cases hroom : st.pcm_buffer.length - cur_i < captureSamplesForFrame X rate st
    · rw [frameStep_stop X rate st cur_i hroom]
      exact h
    · by_cases he : (encodeResult X rate st cur_i).1 < 0
      · rw [frameStep_threw X rate st cur_i hroom he]
        exact h
      · rw [frameStep_next X rate st cur_i hroom he]
        apply ih
        show cur_i + captureSamplesForFrame X rate st ≤ st.pcm_buffer.length
        omega

/-- The frame loop ends within `fuel` passes when, in every pass it reaches, the frame needs at
least one source sample; the fuel has to exceed the number of samples from the cursor on. -/
theorem emitFrames_terminates_at {ε ρ : Type} (X : CaptureExternals ε ρ) (rate : Nat) :
    ∀ (fuel : Nat) (st : MicReadThread ε ρ) (cur_i : Nat),
      (∀ (k : Nat) (st2 : MicReadThread ε ρ) (c : Nat),
        frameLoopAt X rate k st cur_i = some (st2, c) →
        1 ≤ captureSamplesForFrame X rate st2) →
      st.pcm_buffer.length - cur_i < fuel →
      (emitFrames X rate fuel st cur_i).1 ≠ LoopExit.outOfFuel := by
  intro fuel
  induction fuel with
  | zero => intro st cur_i _ h; omega
  | succ fuel ih =>
    intro st cur_i hneed hlt
    unfold emitFrames
    by_cases hroom : st.pcm_buffer.length - cur_i < captureSamplesForFrame X rate st
    · rw [frameStep_stop X rate st cur_i hroom]
      simp
    · by_cases he : (encodeResult X rate st cur_i).1 < 0
      · rw [frameStep_threw X rate st cur_i hroom he]
        simp
      · have hfs := frameStep_next X rate st cur_i hroom he
        rw [hfs]
        simp only
        apply ih
        · intro k st2 c h
          exact hneed (k + 1) st2 c (by rw [frameLoopAt_succ X rate st cur_i _ _ hfs k]; exact h)
        · have hpos := hneed 0 st cur_i rfl
          have hpcm : (sendFrame (afterEncode X rate st cur_i)
              (encodeResult X rate st cur_i).1.toNat).pcm_buffer = st.pcm_buffer := rfl
          rw [hpcm]
          omega

/-- C28: the frame loop terminates for every pending buffer.  The frame size
`opusSamplesPerFrame rate` is at least 80.  When no resampling is needed, or when every call of
`numSrcSamplesNeeded` that the loop makes (at the start of each pass it reaches, on the
resampler as it is then, for `opusSamplesPerFrame rate` destination samples) returns at least 1,
the loop started at a cursor inside the buffer ends within `fuel` passes for every `fuel` above
the number of samples from the cursor on, and more fuel does not change its result.  For every
number of passes the cursor stays at most the buffer length, so the removal of the consumed
prefix is within bounds. -/
theorem C28_frame_loop_terminates {ε ρ : Type} (X : CaptureExternals ε ρ) (rate fuel : Nat)
    (st : MicReadThread ε ρ) (cur_i : Nat)
    (hneed : resampleNeeded rate = false
      ∨ ∀ (k : Nat) (st2 : MicReadThread ε ρ) (c : Nat),
          frameLoopAt X rate k st cur_i = some (st2, c) →
          1 ≤ X.numSrcSamplesNeeded st2.resampler (opusSamplesPerFrame rate))
    (hcur : cur_i ≤ st.pcm_buffer.length)
    (hfuel : st.pcm_buffer.length - cur_i < fuel) :
    80 ≤ opusSamplesPerFrame rate
      ∧ (emitFrames X rate fuel st cur_i).1 ≠ LoopExit.outOfFuel
      ∧ (∀ k : Nat, emitFrames X rate (fuel + k) st cur_i = emitFrames X rate fuel st cur_i)
      ∧ (∀ n : Nat, (emitFrames X rate n st cur_i).2.2
            ≤ (emitFrames X rate n st cur_i).2.1.pcm_buffer.length) := by
  have hF := opusSamplesPerFrame_ge rate
  have hterm : (emitFrames X rate fuel st cur_i).1 ≠ LoopExit.outOfFuel := by
    apply emitFrames_terminates_at X rate fuel st cur_i _ hfuel
    intro k st2 c hk
    unfold captureSamplesForFrame
    by_cases h : opusSamplingRate rate = rate
    · rw [if_pos h]
      omega
    · rw [if_neg h]
      rcases hneed with h1 | h1
      · exact absurd (opusSamplingRate_eq_of_no_resample rate h1) h
      · exact h1 k st2 c hk
  exact ⟨hF, hterm,
    fun k => emitFrames_more_fuel X rate k fuel st cur_i hterm,
    fun n => emitFrames_cursor X rate n st cur_i hcur⟩

/-- Witness for C28: a capture rate of 44.1 kHz (resampling) with the pass-through resampler of
`constEncoder`, whose `numSrcSamplesNeeded` returns the 480 destination samples it is asked
for, and 480 pending samples. -/
theorem C28_frame_loop_terminates_witness :
    (emitFrames (constEncoder 1) 44100 481 exampleMicWithFrame 0).1 ≠ LoopExit.outOfFuel :=
  (C28_frame_loop_terminates (constEncoder 1) 44100 481 exampleMicWithFrame 0
    (Or.inr (fun _ _ _ _ => by
      show 1 ≤ opusSamplesPerFrame 44100
      decide))
    (Nat.zero_le _)
    (by
      show (List.replicate 480 (0 : ℚ)).length - 0 < 481
      rw [List.length_replicate]
      decide)).2.1

/-! ## Control messages: C23 -/

theorem pollMessages_step {ε ρ : Type} (st : MicReadThread ε ρ) :
    (pollMessages st).msg_queue = st.msg_queue.drop 1
      ∧ (pollMessages st).input_vol_scale_factor
          = lastVolumeScale (st.msg_queue.take 1) st.input_vol_scale_factor := by
  unfold pollMessages
  cases hq : st.msg_queue with
  | nil => exact ⟨hq, rfl⟩
  | cons msg rest =>
    cases msg with
    | InputVolumeScaleChangedMessage v => exact ⟨rfl, rfl⟩
    | other => exact ⟨rfl, rfl⟩

theorem lastVolumeScale_append (a b : List ThreadMessage) (g : ℚ) :
    lastVolumeScale (a ++ b) g = lastVolumeScale b (lastVolumeScale a g) := by
  unfold lastVolumeScale
  rw [List.foldl_append]

theorem pollMessages_iterate {ε ρ : Type} (n : Nat) :
    ∀ st : MicReadThread ε ρ,
      (pollMessages^[n] st).msg_queue = st.msg_queue.drop n
        ∧ (pollMessages^[n] st).input_vol_scale_factor
            = lastVolumeScale (st.msg_queue.take n) st.input_vol_scale_factor := by
  induction n with
  | zero => intro st; exact ⟨rfl, rfl⟩
  | succ n ih =>
    intro st
    rw [Function.iterate_succ_apply]
    have h1 := pollMessages_step st
    have h2 := ih (pollMessages st)
    rw [h1.1, h1.2] at h2
    refine ⟨?_, ?_⟩
    · rw [h2.1, List.drop_drop]
      congr 1
      omega
    · rw [h2.2, ← lastVolumeScale_append]
      congr 1
      cases hq : st.msg_queue with
      | nil => simp
      | cons msg rest => simp

/-- C23, as stated, fails: with two `InputVolumeScaleChangedMessage`s queued (scales 2 and 3),
the control step of one iteration dequeues only the first; the queue still holds the second and
the gain is 2, not 3. -/
theorem C23_counterexample_two_messages :
    (pollMessages { exampleMic with msg_queue :=
        [ThreadMessage.InputVolumeScaleChangedMessage 2,
         ThreadMessage.InputVolumeScaleChangedMessage 3] }).msg_queue
        = [ThreadMessage.InputVolumeScaleChangedMessage 3]
      ∧ (pollMessages { exampleMic with msg_queue :=
          [ThreadMessage.InputVolumeScaleChangedMessage 2,
           ThreadMessage.InputVolumeScaleChangedMessage 3] }).input_vol_scale_factor = 2 :=
  ⟨rfl, rfl⟩

/-- C23, amended: the control step of one iteration removes the first queued message and no
other (an empty queue stays empty); the gain becomes the scale of that message when it is an
`InputVolumeScaleChangedMessage` and is unchanged otherwise.  So after `n` control steps with
nothing enqueued in between, the first `n` messages are gone and the gain is the scale of the
last volume message among them; once `n` reaches the number of queued messages the queue is
empty and the gain is the scale of the last volume message that was queued (unchanged if there
was none). -/
theorem C23_control_step {ε ρ : Type} (st : MicReadThread ε ρ) (n : Nat) :
    (pollMessages st).msg_queue = st.msg_queue.drop 1
      ∧ (pollMessages st).input_vol_scale_factor
          = lastVolumeScale (st.msg_queue.take 1) st.input_vol_scale_factor
      ∧ (pollMessages^[n] st).msg_queue = st.msg_queue.drop n
      ∧ (pollMessages^[n] st).input_vol_scale_factor
          = lastVolumeScale (st.msg_queue.take n) st.input_vol_scale_factor
      ∧ (st.msg_queue.length ≤ n →
          (pollMessages^[n] st).msg_queue = []
            ∧ (pollMessages^[n] st).input_vol_scale_factor
                = lastVolumeScale st.msg_queue st.input_vol_scale_factor) := by
  have h1 := pollMessages_step st
  have h2 := pollMessages_iterate n st
  refine ⟨h1.1, h1.2, h2.1, h2.2, ?_⟩
  intro hn
  rw [h2.1, h2.2, List.drop_of_length_le hn, List.take_of_length_le hn]
  exact ⟨rfl, rfl⟩

/-- Witness for C23 (amended): two volume messages (scales 2 and 3) are consumed by two control
steps, after which the queue is empty and the gain is that of the last message. -/
theorem C23_control_step_witness :
    (pollMessages^[2] { exampleMic with msg_queue :=
        [ThreadMessage.InputVolumeScaleChangedMessage 2,
         ThreadMessage.InputVolumeScaleChangedMessage 3] }).msg_queue = []
      ∧ (pollMessages^[2] { exampleMic with msg_queue :=
          [ThreadMessage.InputVolumeScaleChangedMessage 2,
           ThreadMessage.InputVolumeScaleChangedMessage 3] }).input_vol_scale_factor
          = lastVolumeScale [ThreadMessage.InputVolumeScaleChangedMessage 2,
              ThreadMessage.InputVolumeScaleChangedMessage 3] 1 :=
  (C23_control_step { exampleMic with msg_queue :=
      [ThreadMessage.InputVolumeScaleChangedMessage 2,
       ThreadMessage.InputVolumeScaleChangedMessage 3] } 2).2.2.2.2 (Nat.le_refl 2)

/-! ## Gain and level: C24, C25 -/

theorem range_map_getD (cb : List ℚ) (n : Nat) (h : n ≤ cb.length) :
    (List.range n).map (fun i => cb.getD i 0) = cb.take n := by
  apply List.ext_getElem
  · simp only [List.length_map, List.length_range, List.length_take]
    omega
  · intro i h1 h2
    simp only [List.length_map, List.length_range] at h1
    simp only [List.getElem_map, List.getElem_range, List.getElem_take]
    rw [List.getD_eq_getElem _ _ (by omega)]

theorem appendAndGain_pcm_buffer {ε ρ : Type} (st : MicReadThread ε ρ) (cb : List ℚ) (n : Nat) :
    (appendAndGain st cb n).pcm_buffer
      = st.pcm_buffer ++ ((List.range n).map (fun i => cb.getD i 0)).map
          (fun x => myClamp (x * st.input_vol_scale_factor) (-1) 1) := by
  show applyGain st.input_vol_scale_factor (appendCaptured st.pcm_buffer cb n)
    st.pcm_buffer.length = _
  unfold appendCaptured
  rw [applyGain_append]

theorem maxAbs_ge_init (xs : List ℚ) : ∀ m : ℚ, m ≤ maxAbs m xs := by
  induction xs with
  | nil => intro m; exact le_refl m
  | cons x xs ih =>
    intro m
    show m ≤ maxAbs (myMax m |x|) xs
    exact le_trans (le_max_left m |x|) (ih _)

theorem maxAbs_ge_mem (xs : List ℚ) : ∀ (m : ℚ) (x : ℚ), x ∈ xs → |x| ≤ maxAbs m xs := by
  induction xs with
  | nil => intro m x hx; exact absurd hx (List.not_mem_nil x)
  | cons y xs ih =>
    intro m x hx
    show |x| ≤ maxAbs (myMax m |y|) xs
    rcases List.mem_cons.mp hx with h | h
    · rw [h]
      exact le_trans (le_max_right m |y|) (maxAbs_ge_init xs _)
    · exact ih _ x h

theorem maxAbs_attained (xs : List ℚ) :
    ∀ m : ℚ, maxAbs m xs = m ∨ ∃ x ∈ xs, maxAbs m xs = |x| := by
  induction xs with
  | nil => intro m; exact Or.inl rfl
  | cons y xs ih =>
    intro m
    show maxAbs (myMax m |y|) xs = m ∨ ∃ x ∈ y :: xs, maxAbs (myMax m |y|) xs = |x|
    rcases ih (myMax m |y|) with h | ⟨x, hx, h⟩
    · rcases max_choice m |y| with hc | hc
      · left
        rw [h]
        exact hc
      · right
        exact ⟨y, List.mem_cons_self y xs, by rw [h]; exact hc⟩
    · right
      exact ⟨x, List.mem_cons_of_mem y hx, h⟩

theorem maxAbs_replicate (n : Nat) (hn : 0 < n) (x : ℚ) :
    ∀ m : ℚ, maxAbs m (List.replicate n x) = max m |x| := by
  induction n with
  | zero => omega
  | succ n ih =>
    intro m
    show maxAbs (myMax m |x|) (List.replicate n x) = max m |x|
    by_cases h0 : 0 < n
    · rw [ih h0]
      unfold myMax
      rw [max_assoc, max_self]
    · have hn0 : n = 0 := by omega
      subst hn0
      rfl

theorem maxAbs_le (xs : List ℚ) (b : ℚ) :
    ∀ m : ℚ, m ≤ b → (∀ x ∈ xs, |x| ≤ b) → maxAbs m xs ≤ b := by
  induction xs with
  | nil => intro m hm _; exact hm
  | cons y xs ih =>
    intro m hm h
    show maxAbs (myMax m |y|) xs ≤ b
    apply ih
    · exact max_le hm (h y (List.mem_cons_self y xs))
    · intro x hx
      exact h x (List.mem_cons_of_mem y hx)

theorem toInt32_le (n : Nat) : toInt32 n ≤ (n : Int) := by
  unfold toInt32
  have h := Nat.mod_le n (2 ^ 32)
  split_ifs <;> omega

theorem framesToCopy_toNat_le (len avail : Nat) : (framesToCopy len avail).toNat ≤ avail := by
  have h1 : framesToCopy len avail ≤ toInt32 avail := by
    unfold framesToCopy myMin
    exact min_le_right _ _
  have h2 := toInt32_le avail
  omega

/-- C24: gain is applied once.  A drain that appends the first `n` samples `s_i` of the
delivery with the current gain `g` leaves the samples already pending as they are and stores
`myClamp(s_i * g, -1, 1)` after them; a later drain with another gain `g2` again leaves all of
these as they are, so each sample is scaled exactly once, by the gain in effect when it was
appended.  The number of samples a drain copies is at most the number delivered. -/
theorem C24_gain_applied_once {ε ρ : Type} (st : MicReadThread ε ρ) (cb : List ℚ) (n : Nat)
    (g2 : ℚ) (cb2 : List ℚ) (n2 : Nat) (hn : n ≤ cb.length) (hn2 : n2 ≤ cb2.length) :
    (appendAndGain st cb n).pcm_buffer
        = st.pcm_buffer
          ++ (cb.take n).map (fun s => myClamp (s * st.input_vol_scale_factor) (-1) 1)
      ∧ (appendAndGain st cb n).pcm_buffer.take st.pcm_buffer.length = st.pcm_buffer
      ∧ (appendAndGain { appendAndGain st cb n with input_vol_scale_factor := g2 } cb2
            n2).pcm_buffer
        = st.pcm_buffer
          ++ (cb.take n).map (fun s => myClamp (s * st.input_vol_scale_factor) (-1) 1)
          ++ (cb2.take n2).map (fun s => myClamp (s * g2) (-1) 1)
      ∧ (framesToCopy st.pcm_buffer.length cb.length).toNat ≤ cb.length := by
  have h1 := appendAndGain_pcm_buffer st cb n
  rw [range_map_getD cb n hn] at h1
  have h2 := appendAndGain_pcm_buffer
    { appendAndGain st cb n with input_vol_scale_factor := g2 } cb2 n2
  rw [range_map_getD cb2 n2 hn2] at h2
  refine ⟨h1, ?_, ?_, framesToCopy_toNat_le _ _⟩
  · rw [h1, List.take_left]
  · rw [h2]
    show (appendAndGain st cb n).pcm_buffer ++ _ = _
    rw [h1]

/-- Witness for C24: gain 1/2 applied to the samples `1, -3`, then gain 4 to the sample
`1/2`. -/
theorem C24_gain_applied_once_witness :
    (appendAndGain
        { appendAndGain { exampleMic with input_vol_scale_factor := 1 / 2 } [1, -3] 2 with
          input_vol_scale_factor := 4 } [1 / 2] 1).pcm_buffer
      = exampleMic.pcm_buffer
        ++ ([1, -3].take 2).map (fun s => myClamp (s * (1 / 2 : ℚ)) (-1) 1)
        ++ ([1 / 2].take 1).map (fun s => myClamp (s * (4 : ℚ)) (-1) 1) :=
  (C24_gain_applied_once { exampleMic with input_vol_scale_factor := 1 / 2 } [1, -3] 2 4
    [1 / 2] 1 (Nat.le_refl 2) (Nat.le_refl 1)).2.2.1

theorem appendAndGain_level {ε ρ : Type} (st : MicReadThread ε ρ) (cb : List ℚ) (n : Nat) :
    (appendAndGain st cb n).cur_level
        = max (maxAbs 0 ((appendAndGain st cb n).pcm_buffer.drop st.pcm_buffer.length))
            ((95 / 100 : ℚ) * st.cur_level)
      ∧ InUnit ((appendAndGain st cb n).pcm_buffer.drop st.pcm_buffer.length) := by
  refine ⟨rfl, ?_⟩
  show InUnit ((applyGain st.input_vol_scale_factor (appendCaptured st.pcm_buffer cb n)
    st.pcm_buffer.length).drop st.pcm_buffer.length)
  rw [applyGain_drop]
  exact inUnit_map_clamp _ _

theorem level_in_unit (m prev : ℚ) (hm0 : 0 ≤ m) (hm1 : m ≤ 1) (hp1 : prev ≤ 1) :
    0 ≤ max m ((95 / 100 : ℚ) * prev) ∧ max m ((95 / 100 : ℚ) * prev) ≤ 1 := by
  constructor
  · exact le_trans hm0 (le_max_left _ _)
  · apply max_le hm1
    linarith

/-- C25, as stated, fails on the receiver: the decoded samples are not clamped, so with a
decoder that yields samples of value 2 an accepted frame takes the level of the source from 0
(which is in `[0, 1]`) to 2. -/
theorem C25_counterexample_receiver_level :
    ((exampleReceiver 5 0).audio_sources 0).smoothed_cur_level = 0
      ∧ ((handlePacket loudDecoder 1 (exampleReceiver 5 0) 1 (examplePacket 5)
            15).audio_sources 0).smoothed_cur_level = 2 := by
  refine ⟨rfl, ?_⟩
  have e : readU32 (examplePacket 5) 4 = 7 := by decide
  have hv := handlePacket_voice loudDecoder 1 (exampleReceiver 5 0) 1 (examplePacket 5) 15
    { avatar_audio_source := 0, opus_decoder := (), sampling_rate := 48000, stream_id := 99,
      next_seq_num_expected := 5 } rfl (by decide) (by decide) (by rw [e]; rfl)
  have ha := handleVoicePacket_accept loudDecoder (exampleReceiver 5 0)
    (readU32 (examplePacket 5) 4)
    { avatar_audio_source := 0, opus_decoder := (), sampling_rate := 48000, stream_id := 99,
      next_seq_num_expected := 5 } (examplePacket 5) 15 (by decide) (by decide) (by decide)
  rw [hv, ha]
  show myMax ((0 : ℚ) * (95 / 100)) (maxAbs 0 ((List.replicate 480 (2 : ℚ)).take 480)) = 2
  rw [List.take_replicate, maxAbs_replicate _ (by decide)]
  norm_num [myMax]

/-- C25, amended: level smoothing.  After a drain on the sender the new level is
`max(m, 0.95 * prev)`, where `m` is the largest absolute value among the newly appended
(gain-scaled and clamped) samples (0 when there are none) and `prev` the previous level; it is at
least `m`, and it lies in `[0, 1]` when `prev` does, since the clamp keeps `m` in `[0, 1]`.
After an accepted frame on the receiver the new level of the source is `max(m, 0.95 * prev)`
for the decoded samples of the frame and it is at least `m`; the decoded samples are not
clamped, so it lies in `[0, 1]` when `prev` does and every decoded sample of the frame lies in
`[-1, 1]`. -/
theorem C25_level_smoothing {ε ρ δ : Type} (st : MicReadThread ε ρ) (cb : List ℚ) (n : Nat)
    (D : ReceiveExternals δ) (rst : ClientUDPHandlerThread δ) (avatar_id : Nat)
    (stream_info : AvatarVoiceStreamInfo δ) (packet_buf : List Nat) (packet_len : Nat)
    (hseq : stream_info.next_seq_num_expected ≤ readU32 packet_buf 8)
    (hok : 0 ≤ (decodeResult D rst stream_info packet_buf packet_len).1)
    (hrate : (decodeResult D rst stream_info packet_buf packet_len).1
      = Int.tdiv (toInt32 stream_info.sampling_rate) 100) :
    ((appendAndGain st cb n).cur_level
        = max (maxAbs 0 ((appendAndGain st cb n).pcm_buffer.drop st.pcm_buffer.length))
            ((95 / 100 : ℚ) * st.cur_level)
      ∧ (∀ x ∈ (appendAndGain st cb n).pcm_buffer.drop st.pcm_buffer.length,
          |x| ≤ maxAbs 0 ((appendAndGain st cb n).pcm_buffer.drop st.pcm_buffer.length))
      ∧ (maxAbs 0 ((appendAndGain st cb n).pcm_buffer.drop st.pcm_buffer.length) = 0
          ∨ ∃ x ∈ (appendAndGain st cb n).pcm_buffer.drop st.pcm_buffer.length,
            maxAbs 0 ((appendAndGain st cb n).pcm_buffer.drop st.pcm_buffer.length) = |x|)
      ∧ maxAbs 0 ((appendAndGain st cb n).pcm_buffer.drop st.pcm_buffer.length)
          ≤ (appendAndGain st cb n).cur_level
      ∧ (0 ≤ st.cur_level → st.cur_level ≤ 1 →
          0 ≤ (appendAndGain st cb n).cur_level ∧ (appendAndGain st cb n).cur_level ≤ 1))
    ∧ (((handleVoicePacket D rst avatar_id stream_info packet_buf packet_len).audio_sources
            stream_info.avatar_audio_source).smoothed_cur_level
        = max (maxAbs 0 ((decodeResult D rst stream_info packet_buf packet_len).2.1.take
                (decodeResult D rst stream_info packet_buf packet_len).1.toNat))
            ((95 / 100 : ℚ)
              * (rst.audio_sources stream_info.avatar_audio_source).smoothed_cur_level)
      ∧ maxAbs 0 ((decodeResult D rst stream_info packet_buf packet_len).2.1.take
            (decodeResult D rst stream_info packet_buf packet_len).1.toNat)
          ≤ ((handleVoicePacket D rst avatar_id stream_info packet_buf
                packet_len).audio_sources stream_info.avatar_audio_source).smoothed_cur_level
      ∧ (0 ≤ (rst.audio_sources stream_info.avatar_audio_source).smoothed_cur_level →
          (rst.audio_sources stream_info.avatar_audio_source).smoothed_cur_level ≤ 1 →
          (∀ x ∈ (decodeResult D rst stream_info packet_buf packet_len).2.1.take
              (decodeResult D rst stream_info packet_buf packet_len).1.toNat, |x| ≤ 1) →
          0 ≤ ((handleVoicePacket D rst avatar_id stream_info packet_buf
                  packet_len).audio_sources stream_info.avatar_audio_source).smoothed_cur_level
            ∧ ((handleVoicePacket D rst avatar_id stream_info packet_buf
                  packet_len).audio_sources stream_info.avatar_audio_source).smoothed_cur_level
                ≤ 1)) := by
  constructor
  · have h := appendAndGain_level st cb n
    have hm0 := maxAbs_ge_init ((appendAndGain st cb n).pcm_buffer.drop st.pcm_buffer.length) 0
    have hm1 : maxAbs 0 ((appendAndGain st cb n).pcm_buffer.drop st.pcm_buffer.length) ≤ 1 := by
      apply maxAbs_le _ 1 0 (by norm_num)
      intro x hx
      exact abs_le.mpr (h.2 x hx)
    refine ⟨h.1, fun x hx => maxAbs_ge_mem _ 0 x hx, maxAbs_attained _ 0, ?_, ?_⟩
    · rw [h.1]
      exact le_max_left _ _
    · intro _ hp1
      rw [h.1]
      exact level_in_unit _ _ hm0 hm1 hp1
  · have hlevel : ((handleVoicePacket D rst avatar_id stream_info packet_buf
          packet_len).audio_sources stream_info.avatar_audio_source).smoothed_cur_level
        = max (maxAbs 0 ((decodeResult D rst stream_info packet_buf packet_len).2.1.take
                (decodeResult D rst stream_info packet_buf packet_len).1.toNat))
            ((95 / 100 : ℚ)
              * (rst.audio_sources stream_info.avatar_audio_source).smoothed_cur_level) := by
      rw [handleVoicePacket_accept D rst avatar_id stream_info packet_buf packet_len hseq hok
        hrate]
      simp only [Function.update_same]
      show myMax _ _ = _
      unfold myMax
      rw [max_comm, mul_comm]
    have hm0 := maxAbs_ge_init ((decodeResult D rst stream_info packet_buf packet_len).2.1.take
      (decodeResult D rst stream_info packet_buf packet_len).1.toNat) 0
    refine ⟨hlevel, ?_, ?_⟩
    · rw [hlevel]
      exact le_max_left _ _
    · intro _ hp1 hs
      rw [hlevel]
      exact level_in_unit _ _ hm0 (maxAbs_le _ 1 0 (by norm_num) hs) hp1

/-- Witness for C25 (amended): a drain of the samples `1/2, -3` with gain 1 from level 0, and
a frame of silence accepted for avatar 7. -/
theorem C25_level_smoothing_witness :
    maxAbs 0 ((appendAndGain exampleMic [1 / 2, -3] 2).pcm_buffer.drop
        exampleMic.pcm_buffer.length)
      ≤ (appendAndGain exampleMic [1 / 2, -3] 2).cur_level
    ∧ maxAbs 0 ((decodeResult silenceDecoder (exampleReceiver 5 0)
          { avatar_audio_source := 0, opus_decoder := (), sampling_rate := 48000,
            stream_id := 99, next_seq_num_expected := 5 } (examplePacket 5) 15).2.1.take
          (decodeResult silenceDecoder (exampleReceiver 5 0)
            { avatar_audio_source := 0, opus_decoder := (), sampling_rate := 48000,
              stream_id := 99, next_seq_num_expected := 5 } (examplePacket 5) 15).1.toNat)
      ≤ ((handleVoicePacket silenceDecoder (exampleReceiver 5 0) 7
            { avatar_audio_source := 0, opus_decoder := (), sampling_rate := 48000,
              stream_id := 99, next_seq_num_expected := 5 } (examplePacket 5)
            15).audio_sources 0).smoothed_cur_level :=
  have h := C25_level_smoothing (ε := Unit) (ρ := Unit) exampleMic [1 / 2, -3] 2 silenceDecoder
    (exampleReceiver 5 0) 7
    { avatar_audio_source := 0, opus_decoder := (), sampling_rate := 48000, stream_id := 99,
      next_seq_num_expected := 5 } (examplePacket 5) 15 (by decide) (by decide) (by decide)
  ⟨h.1.2.2.2.1, h.2.2.1⟩

/-! ## Downmix (WASAPI build): C26 -/

theorem foldl_add_eq_sum {α : Type} (f : α → ℚ) (l : List α) :
    ∀ a : ℚ, l.foldl (fun sum c => sum + f c) a = a + (l.map f).sum := by
  induction l with
  | nil => intro a; simp
  | cons x l ih =>
    intro a
    simp only [List.foldl_cons, List.map_cons, List.sum_cons]
    rw [ih]
    ring

/-- C26: downmix.  For `num_channels = n ≥ 1` interleaved channels the mono sample mixed from
frame `i` is the sum of the `n` channel values of the frame divided by `n`, whichever of the
three branches computes it; for one channel it is the value itself, for two it is
`(left + right) / 2`, so `left = 1`, `right = -1` gives 0; and a buffer flagged silent appends
`frames_to_copy` zeros, another one the mixed samples of the frames. -/
theorem C26_downmix (n : Nat) (src_data : List ℚ) (i : Nat) (pcm_buffer : List ℚ)
    (frames_to_copy : Nat) (hn : 1 ≤ n) :
    mixedSample n src_data i
        = ((List.range n).map (fun c => src_data.getD (i * n + c) 0)).sum / (n : ℚ)
      ∧ mixedSample 1 src_data i = src_data.getD i 0
      ∧ mixedSample 2 src_data i
          = (src_data.getD (i * 2) 0 + src_data.getD (i * 2 + 1) 0) / 2
      ∧ mixedSample 2 [1, -1] 0 = 0
      ∧ appendCapturedWin pcm_buffer true n src_data frames_to_copy
          = pcm_buffer ++ List.replicate frames_to_copy 0
      ∧ appendCapturedWin pcm_buffer false n src_data frames_to_copy
          = pcm_buffer ++ (List.range frames_to_copy).map (fun j =>
              ((List.range n).map (fun c => src_data.getD (j * n + c) 0)).sum / (n : ℚ)) := by
  have hmix : ∀ j : Nat, mixedSample n src_data j
      = ((List.range n).map (fun c => src_data.getD (j * n + c) 0)).sum / (n : ℚ) := by
    intro j
    unfold mixedSample
    by_cases h1 : n = 1
    · subst h1
      simp [List.range_succ]
    · rw [if_neg h1]
      by_cases h2 : n = 2
      · subst h2
        simp [List.range_succ]
        ring
      · rw [if_neg h2]
        simp only [foldl_add_eq_sum, zero_add]
        ring
  refine ⟨hmix i, ?_, ?_, ?_, ?_, ?_⟩
  · simp [mixedSample]
  · simp [mixedSample]
    ring
  · simp [mixedSample]
  · unfold appendCapturedWin
    simp only [if_true]
    congr 1
    apply List.ext_getElem
    · simp
    · intro k h1 h2
      simp
  · unfold appendCapturedWin
    congr 1
    apply List.map_congr_left
    intro j _
    simp only [Bool.false_eq_true, if_false]
    exact hmix j

/-- Witness for C26: three channels with the values `1, 2, 6` in frame 0 mix to `9 / 3`. -/
theorem C26_downmix_witness :
    mixedSample 3 [1, 2, 6] 0
      = ((List.range 3).map (fun c => ([1, 2, 6] : List ℚ).getD (0 * 3 + c) 0)).sum
          / ((3 : Nat) : ℚ) :=
  (C26_downmix 3 [1, 2, 6] 0 [] 1 (by decide)).1

/-! ## Reconciliation frame: C27 -/

/-- C27, as stated, fails: the entry under key 7 belongs to the avatar with UID 7, which still
exists with an audio source and the entry's stream id 99; a second avatar with UID `2^32 + 7`
and stream id 100 has the same key `(uint32)uid`, so the pass replaces the entry (stream id
100, or 99 again when the avatars are visited in the other order) and expects sequence number 0
instead of 5. -/
theorem C27_counterexample_shared_key :
    ((exampleReceiver 5 0).avatar_stream_info 7).map
        (fun e => (e.stream_id, e.next_seq_num_expected)) = some (99, 5)
      ∧ (reconcile (fun _ => some ())
          [exampleAvatar 7 99 48000, exampleAvatar (2 ^ 32 + 7) 100 48000]
          (exampleReceiver 5 0).avatar_stream_info).map
          (fun m => (m 7).map (fun e => (e.stream_id, e.next_seq_num_expected)))
        = some (some (100, 0))
      ∧ (reconcile (fun _ => some ())
          [exampleAvatar (2 ^ 32 + 7) 100 48000, exampleAvatar 7 99 48000]
          (exampleReceiver 5 0).avatar_stream_info).map
          (fun m => (m 7).map (fun e => (e.stream_id, e.next_seq_num_expected)))
        = some (some (99, 0)) := by
  refine ⟨by decide, by decide, by decide⟩

/-- C27, amended: a reconciliation pass that completes leaves untouched (same decoder, stream
id, sampling rate, audio source and `next_seq_num_expected`) the decode entry under the UID of
every avatar that still exists with a non-null audio source and the entry's stream id, provided
no other avatar shares the low 32 bits of that UID; and an iteration in which `avatars_changed`
is not set hands the decode map to the packet handling as it was. -/
theorem C27_reconcile_frame {δ : Type} (D : ReceiveExternals δ)
    (opus_decoder_create : Nat → Option δ) (server_ip_addr : Nat) (avatars : List Avatar)
    (info info2 : Nat → Option (AvatarVoiceStreamInfo δ)) (old : AvatarVoiceStreamInfo δ)
    (av : Avatar) (h : Nat) (s : ReceiveLoopState δ) (inp : ReceiveInput)
    (hold : info av.uid = some old) (hsame : old.stream_id = av.audio_stream_id)
    (hpass : reconcile opus_decoder_create avatars info = some info2)
    (hav : av ∈ avatars) (hsrc : av.audio_source = some h) (huid : av.uid < 2 ^ 32)
    (huniq : ∀ b ∈ avatars, b.uid % 2 ^ 32 = av.uid % 2 ^ 32 → b = av)
    (hflag : inp.avatars_changed = false) :
    info2 av.uid = some old
      ∧ receiveIteration D opus_decoder_create server_ip_addr s inp
        = some
            { worker := handlePacket D server_ip_addr s.worker inp.sender_ip_addr
                (memcpy s.packet_buf 0
                  (inp.datagram.take (min inp.datagram.length s.packet_buf.length)))
                (min inp.datagram.length s.packet_buf.length),
              packet_buf := memcpy s.packet_buf 0
                (inp.datagram.take (min inp.datagram.length s.packet_buf.length)) } := by
  constructor
  · obtain ⟨e, he, hre⟩ := reconcile_entry opus_decoder_create avatars info info2 av h hpass hav
      hsrc huid huniq
    rcases hre.2 with hkeep | hfresh
    · rw [he, ← hkeep, hold]
    · exact absurd hsame (hfresh.2.2.2 old hold)
  · unfold receiveIteration
    simp only [hflag, Bool.false_eq_true, if_false]

/-- Witness for C27 (amended): the entry for avatar 7 (stream id 99, expecting sequence number
5) survives a pass over a world state that holds avatar 7 with stream id 99 and avatar 8. -/
theorem C27_reconcile_frame_witness :
    (pruneStreamInfos [exampleAvatar 7 99 48000, exampleAvatar 8 100 48000]
        (Function.update (exampleReceiver 5 0).avatar_stream_info 8
          (some { avatar_audio_source := 0, opus_decoder := (), sampling_rate := 48000,
                  stream_id := 100, next_seq_num_expected := 0 }))) 7
      = some { avatar_audio_source := 0, opus_decoder := (), sampling_rate := 48000,
               stream_id := 99, next_seq_num_expected := 5 } :=
  (C27_reconcile_frame silenceDecoder (fun _ => some ()) 1
    [exampleAvatar 7 99 48000, exampleAvatar 8 100 48000]
    (exampleReceiver 5 0).avatar_stream_info
    (pruneStreamInfos [exampleAvatar 7 99 48000, exampleAvatar 8 100 48000]
      (Function.update (exampleReceiver 5 0).avatar_stream_info 8
        (some { avatar_audio_source := 0, opus_decoder := (), sampling_rate := 48000,
                stream_id := 100, next_seq_num_expected := 0 })))
    { avatar_audio_source := 0, opus_decoder := (), sampling_rate := 48000, stream_id := 99,
      next_seq_num_expected := 5 }
    (exampleAvatar 7 99 48000) 0
    { worker := exampleReceiver 5 0, packet_buf := List.replicate 16 0 }
    { sender_ip_addr := 1, datagram := examplePacket 5, avatars_changed := false, avatars := [] }
    rfl rfl rfl (List.mem_cons_self _ _) rfl (by decide)
    (by
      intro b hb hk
      rcases List.mem_cons.mp hb with h1 | h1
      · exact h1
      · rcases List.mem_cons.mp h1 with h2 | h2
        · subst h2
          exact absurd hk (by decide)
        · exact absurd h2 (List.not_mem_nil b))
    rfl).1

/-! ## LoadItemQueue: C29, C30 -/

theorem copyBack_spec {α : Type} (b : Nat) :
    ∀ (n i : Nat) (items : List α), b ≤ i → i + n ≤ items.length →
      (copyBack b n i items).length = items.length
        ∧ ∀ p : Nat, (copyBack b n i items)[p]?
            = if i - b ≤ p ∧ p < i - b + n then items[p + b]? else items[p]? := by
  intro n
  induction n with
  | zero =>
    intro i items _ _
    refine ⟨rfl, fun p => ?_⟩
    rw [if_neg (by omega)]
    rfl
  | succ n ih =>
    intro i items hb hlen
    have hi : i < items.length := by omega
    have hget : items[i]? = some items[i] := List.getElem?_eq_getElem hi
    have hstep : copyBack b (n + 1) i items
        = copyBack b n (i + 1) (items.set (i - b) items[i]) := by
      show copyBack b n (i + 1) _ = _
      rw [hget]
    rw [hstep]
    have h := ih (i + 1) (items.set (i - b) items[i]) (by omega)
      (by rw [List.length_set]; omega)
    rw [List.length_set] at h
    refine ⟨h.1, fun p => ?_⟩
    rw [h.2 p]
    by_cases h1 : i + 1 - b ≤ p ∧ p < i + 1 - b + n
    · rw [if_pos h1, if_pos (by omega), List.getElem?_set_ne (by omega)]
    · rw [if_neg h1]
      by_cases h2 : p = i - b
      · rw [if_pos (by omega), h2, Nat.sub_add_cancel hb, hget]
        exact List.getElem?_set_self (by omega)
      · rw [if_neg (by omega), List.getElem?_set_ne (by omega)]

theorem copyBack_take {α : Type} (front sorted : List α) :
    (copyBack front.length ((front ++ sorted).length - front.length) front.length
        (front ++ sorted)).take
      ((copyBack front.length ((front ++ sorted).length - front.length) front.length
        (front ++ sorted)).length - front.length) = sorted := by
  have h := copyBack_spec front.length ((front ++ sorted).length - front.length) front.length
    (front ++ sorted) (Nat.le_refl _) (by rw [List.length_append]; omega)
  rw [h.1]
  apply List.ext_getElem?
  intro p
  rw [List.getElem?_take]
  simp only [List.length_append, Nat.add_sub_cancel_left, Nat.sub_self, Nat.zero_le, true_and,
    Nat.zero_add] at h ⊢
  by_cases hp : p < sorted.length
  · rw [if_pos hp, h.2 p, if_pos hp, List.getElem?_append_right (by omega)]
    congr 1
    omega
  · rw [if_neg hp]
    exact (List.getElem?_eq_none (by omega)).symm

theorem sortQueue_eq {P T : Type}
    (std_sort : (LoadItemQueueItem P T → LoadItemQueueItem P T → Bool) →
      List (LoadItemQueueItem P T) → List (LoadItemQueueItem P T))
    (getDist : P → P → ℚ) (q : LoadItemQueue P T) (campos : P)
    (hinv : q.begin_i ≤ q.items.length) :
    q.sortQueue std_sort getDist campos
      = some (if 1000 < q.begin_i then
          { items := std_sort (QueueItemDistComparator getDist campos) q.pending, begin_i := 0 }
        else
          { items := q.items.take q.begin_i
              ++ std_sort (QueueItemDistComparator getDist campos) q.pending,
            begin_i := q.begin_i }) := by
  have hfl : (q.items.take q.begin_i).length = q.begin_i := by
    rw [List.length_take]
    omega
  have hcb := copyBack_take (q.items.take q.begin_i)
    (std_sort (QueueItemDistComparator getDist campos) (q.items.drop q.begin_i))
  rw [hfl] at hcb
  unfold LoadItemQueue.sortQueue LoadItemQueue.pending
  rw [if_neg (by omega)]
  by_cases h : 1000 < q.begin_i
  · rw [if_pos h]
    simp only [gt_iff_lt, h, if_true]
    rw [hcb]
  · rw [if_neg h]
    simp only [gt_iff_lt, h, if_false]

theorem size_eq {P T : Type} (q : LoadItemQueue P T) (hinv : q.begin_i ≤ q.items.length)
    (hsz : q.items.length < 2 ^ 64) : q.size = q.items.length - q.begin_i := by
  unfold LoadItemQueue.size
  omega

theorem dequeueFront_eq {P T : Type} (q : LoadItemQueue P T)
    (h : q.begin_i < q.items.length) :
    q.dequeueFront = some (q.items[q.begin_i], { q with begin_i := q.begin_i + 1 })
      ∧ q.pending
          = q.items[q.begin_i] :: LoadItemQueue.pending { q with begin_i := q.begin_i + 1 } := by
  constructor
  · unfold LoadItemQueue.dequeueFront
    rw [List.getElem?_eq_getElem h]
  · unfold LoadItemQueue.pending
    exact List.drop_eq_getElem_cons h

theorem dequeueN_eq {P T : Type} (n : Nat) :
    ∀ q : LoadItemQueue P T, q.begin_i + n ≤ q.items.length →
      dequeueN n q = some (q.pending.take n, { q with begin_i := q.begin_i + n }) := by
  induction n with
  | zero => intro q _; rfl
  | succ n ih =>
    intro q h
    have hd := dequeueFront_eq q (by omega)
    unfold dequeueN
    rw [hd.1]
    simp only
    rw [ih { q with begin_i := q.begin_i + 1 } (by show q.begin_i + 1 + n ≤ q.items.length; omega), hd.2]
    simp only [Option.map_some', List.take_succ_cons, Option.some.injEq, Prod.mk.injEq,
      true_and]
    show ({ items := q.items, begin_i := q.begin_i + 1 + n } : LoadItemQueue P T) = _
    congr 1
    omega

theorem enqueueAll_eq {P T : Type} (xs : List (LoadItemQueueItem P T)) :
    ∀ q : LoadItemQueue P T,
      enqueueAll q xs = { items := q.items ++ xs, begin_i := q.begin_i } := by
  induction xs with
  | nil => intro q; simp [enqueueAll]
  | cons x xs ih =>
    intro q
    have h := ih (q.enqueueItem x.pos x.size_factor x.task x.task_max_dist)
    unfold enqueueAll at h ⊢
    rw [List.foldl_cons, h]
    simp [LoadItemQueue.enqueueItem]

/-- C29: `sortQueue` keeps the pending items.  For every queue with `begin_i ≤ items.size()`,
every camera position and every `std::sort` that returns a permutation of its range in which no
later element compares less than an earlier one, `sortQueue` returns normally; the pending items
afterwards are a permutation of the pending items before, ordered by non-decreasing
`getDist(pos, campos) * size_factor`, and `size()` is unchanged.  When `begin_i ≤ 1000` the
index and the consumed prefix stay as they are; when `begin_i > 1000` the consumed prefix is
discarded, `begin_i` becomes 0 and the vector holds exactly the pending items. -/
theorem C29_sortQueue_keeps_pending {P T : Type}
    (std_sort : (LoadItemQueueItem P T → LoadItemQueueItem P T → Bool) →
      List (LoadItemQueueItem P T) → List (LoadItemQueueItem P T))
    (getDist : P → P → ℚ) (q : LoadItemQueue P T) (campos : P)
    (hsort : ∀ l : List (LoadItemQueueItem P T),
      (std_sort (QueueItemDistComparator getDist campos) l).Perm l
        ∧ (std_sort (QueueItemDistComparator getDist campos) l).Pairwise
            (fun a b => QueueItemDistComparator getDist campos b a = false))
    (hinv : q.begin_i ≤ q.items.length) :
    ∃ q2, q.sortQueue std_sort getDist campos = some q2
      ∧ q2.pending.Perm q.pending
      ∧ q2.pending.Pairwise (fun a b =>
          getDist a.pos campos * a.size_factor ≤ getDist b.pos campos * b.size_factor)
      ∧ q2.size = q.size
      ∧ q2.begin_i ≤ q2.items.length
      ∧ (q.begin_i ≤ 1000 →
          q2.begin_i = q.begin_i ∧ q2.items.take q.begin_i = q.items.take q.begin_i)
      ∧ (1000 < q.begin_i → q2.begin_i = 0 ∧ q2.items = q2.pending) := by
  have hfl : (q.items.take q.begin_i).length = q.begin_i := by
    rw [List.length_take]
    omega
  have hs := hsort q.pending
  have hlen : (std_sort (QueueItemDistComparator getDist campos) q.pending).length
      = q.items.length - q.begin_i := by
    rw [hs.1.length_eq]
    exact List.length_drop _ _
  have hpair : (std_sort (QueueItemDistComparator getDist campos) q.pending).Pairwise
      (fun a b => getDist a.pos campos * a.size_factor
        ≤ getDist b.pos campos * b.size_factor) := by
    apply hs.2.imp
    intro a b hab
    unfold QueueItemDistComparator at hab
    simp only [decide_eq_false_iff_not, not_lt] at hab
    exact hab
  refine ⟨_, sortQueue_eq std_sort getDist q campos hinv, ?_⟩
  by_cases h : 1000 < q.begin_i
  · rw [if_pos h]
    have hp : LoadItemQueue.pending
        ({ items := std_sort (QueueItemDistComparator getDist campos) q.pending,
           begin_i := 0 } : LoadItemQueue P T)
        = std_sort (QueueItemDistComparator getDist campos) q.pending := rfl
    rw [hp]
    refine ⟨hs.1, hpair, ?_, Nat.zero_le _, fun h2 => absurd h (by omega),
      fun _ => ⟨rfl, rfl⟩⟩
    unfold LoadItemQueue.size
    simp only [hlen]
    congr 2
    omega
  · rw [if_neg h]
    have hp : LoadItemQueue.pending
        ({ items := q.items.take q.begin_i
            ++ std_sort (QueueItemDistComparator getDist campos) q.pending,
           begin_i := q.begin_i } : LoadItemQueue P T)
        = std_sort (QueueItemDistComparator getDist campos) q.pending :=
      List.drop_left' hfl
    rw [hp]
    refine ⟨hs.1, hpair, ?_, ?_, fun _ => ⟨rfl, ?_⟩, fun h2 => absurd h2 h⟩
    · unfold LoadItemQueue.size
      simp only [List.length_append, hfl, hlen]
      congr 2
      omega
    · simp only [List.length_append, hfl]
      omega
    · simp only
      rw [List.take_left' hfl]

theorem exampleSort_contract {P T : Type} (getDist : P → P → ℚ) (campos : P)
    (l : List (LoadItemQueueItem P T)) :
    (exampleSort (QueueItemDistComparator getDist campos) l).Perm l
      ∧ (exampleSort (QueueItemDistComparator getDist campos) l).Pairwise
          (fun a b => QueueItemDistComparator getDist campos b a = false) := by
  have hiff : ∀ a b : LoadItemQueueItem P T,
      QueueItemDistComparator getDist campos b a = false
        ↔ getDist a.pos campos * a.size_factor ≤ getDist b.pos campos * b.size_factor := by
    intro a b
    unfold QueueItemDistComparator
    simp only [decide_eq_false_iff_not, not_lt]
  haveI : IsTotal (LoadItemQueueItem P T)
      (fun a b => QueueItemDistComparator getDist campos b a = false) :=
    ⟨fun a b => by
      rw [hiff, hiff]
      exact le_total _ _⟩
  haveI : IsTrans (LoadItemQueueItem P T)
      (fun a b => QueueItemDistComparator getDist campos b a = false) :=
    ⟨fun a b c hab hbc => by
      rw [hiff] at hab hbc ⊢
      exact le_trans hab hbc⟩
  exact ⟨List.perm_insertionSort _ l, List.sorted_insertionSort _ l⟩

/-- Witness for C29: the queue `exampleQueue` (one item dequeued, two pending), positions on a
line with the distance `|a - b|`, camera at 0, insertion sort. -/
theorem C29_sortQueue_keeps_pending_witness :
    (exampleQueue.sortQueue exampleSort (fun a b => |a - b|) 0).isSome = true := by
  obtain ⟨q2, h, _⟩ := C29_sortQueue_keeps_pending exampleSort (fun a b => |a - b|)
    exampleQueue 0 (exampleSort_contract _ _) (by decide)
  rw [h]
  rfl

/-- C30: the index invariant of `LoadItemQueue`.  `begin_i ≤ items.size()` holds after
construction; for a queue in which it holds, `size()` is the number of pending items (the
subtraction does not wrap), and the invariant holds again after `enqueueItem`, `clear`,
`sortQueue`, and after `dequeueFront` when `size() > 0`.  `enqueueItem` puts the item behind the
pending ones and raises `size()` by 1; `dequeueFront` with `size() > 0` returns the first
pending item, leaves the others pending in their order and lowers `size()` by 1.  So with no
`sortQueue` in between, `n` calls of `dequeueFront` after the items `xs` were enqueued return
the first `n` of the pending items followed by `xs`, in that order. -/
theorem C30_index_invariant {P T : Type}
    (std_sort : (LoadItemQueueItem P T → LoadItemQueueItem P T → Bool) →
      List (LoadItemQueueItem P T) → List (LoadItemQueueItem P T))
    (getDist : P → P → ℚ) (q : LoadItemQueue P T) (campos : P)
    (pos : P) (size_factor : ℚ) (task : T) (task_max_dist : ℚ)
    (xs : List (LoadItemQueueItem P T)) (n : Nat)
    (hlen : (std_sort (QueueItemDistComparator getDist campos) q.pending).length
      = q.pending.length)
    (hinv : q.begin_i ≤ q.items.length) (hsz : q.items.length + 1 < 2 ^ 64) :
    (LoadItemQueue.construct : LoadItemQueue P T).begin_i
        ≤ (LoadItemQueue.construct : LoadItemQueue P T).items.length
      ∧ q.size = q.pending.length
      ∧ ((q.enqueueItem pos size_factor task task_max_dist).begin_i
            ≤ (q.enqueueItem pos size_factor task task_max_dist).items.length
          ∧ (q.enqueueItem pos size_factor task task_max_dist).size = q.size + 1
          ∧ (q.enqueueItem pos size_factor task task_max_dist).pending
              = q.pending ++ [{ pos := pos, size_factor := size_factor, task := task,
                                task_max_dist := task_max_dist }])
      ∧ (q.clear.begin_i ≤ q.clear.items.length ∧ q.clear.size = 0)
      ∧ (∃ q2, q.sortQueue std_sort getDist campos = some q2
          ∧ q2.begin_i ≤ q2.items.length)
      ∧ (0 < q.size →
          ∃ item q2, q.dequeueFront = some (item, q2)
            ∧ q2.begin_i ≤ q2.items.length
            ∧ q2.size + 1 = q.size
            ∧ q.pending = item :: q2.pending)
      ∧ (n ≤ q.pending.length + xs.length →
          (dequeueN n (enqueueAll q xs)).map Prod.fst = some ((q.pending ++ xs).take n)) := by
  have hsize := size_eq q hinv (by omega)
  have hpl : q.pending.length = q.items.length - q.begin_i := List.length_drop _ _
  refine ⟨Nat.le_refl _, by rw [hsize, hpl], ⟨?_, ?_, ?_⟩, ⟨Nat.le_refl _, rfl⟩, ?_, ?_, ?_⟩
  · show q.begin_i ≤ (q.items ++ [_]).length
    rw [List.length_append]
    omega
  · rw [hsize, size_eq _ (by
      show q.begin_i ≤ (q.items ++ [_]).length
      rw [List.length_append]
      omega) (by
      show (q.items ++ [_]).length < 2 ^ 64
      rw [List.length_append, List.length_singleton]
      omega)]
    show (q.items ++ [_]).length - q.begin_i = _
    rw [List.length_append, List.length_singleton]
    omega
  · show (q.items ++ [_]).drop q.begin_i = _
    rw [List.drop_append_of_le_length hinv]
    rfl
  · refine ⟨_, sortQueue_eq std_sort getDist q campos hinv, ?_⟩
    have hfl : (q.items.take q.begin_i).length = q.begin_i := by
      rw [List.length_take]
      omega
    by_cases h : 1000 < q.begin_i
    · rw [if_pos h]
      exact Nat.zero_le _
    · rw [if_neg h]
      simp only [List.length_append, hfl]
      omega
  · intro hpos
    rw [hsize] at hpos
    have hlt : q.begin_i < q.items.length := by omega
    have hd := dequeueFront_eq q hlt
    refine ⟨_, _, hd.1, ?_, ?_, hd.2⟩
    · show q.begin_i + 1 ≤ q.items.length
      omega
    · rw [hsize, size_eq _ (by show q.begin_i + 1 ≤ q.items.length; omega)
        (by show q.items.length < 2 ^ 64; omega)]
      show q.items.length - (q.begin_i + 1) + 1 = _
      omega
  · intro hn
    rw [enqueueAll_eq, dequeueN_eq n _ (by
      show q.begin_i + n ≤ (q.items ++ xs).length
      rw [List.length_append]
      omega)]
    simp only [Option.map_some', Option.some.injEq]
    show ((q.items ++ xs).drop q.begin_i).take n = _
    rw [List.drop_append_of_le_length hinv]
    rfl

/-- Witness for C30: `exampleQueue` has two pending items; a third is enqueued and two are
dequeued. -/
theorem C30_index_invariant_witness :
    (dequeueN 2 (enqueueAll exampleQueue
        [({ pos := 7, size_factor := 1, task := 3, task_max_dist := 100 } :
          LoadItemQueueItem ℚ Nat)])).map Prod.fst
      = some ((exampleQueue.pending
          ++ [({ pos := 7, size_factor := 1, task := 3, task_max_dist := 100 } :
            LoadItemQueueItem ℚ Nat)]).take 2) :=
  (C30_index_invariant exampleSort (fun a b => |a - b|) exampleQueue 0 0 1 0 100
    [({ pos := 7, size_factor := 1, task := 3, task_max_dist := 100 } :
      LoadItemQueueItem ℚ Nat)] 2
    (exampleSort_contract _ _ _).1.length_eq (by decide) (by decide)).2.2.2.2.2.2 (by decide)

end Metaverse
